import Mathlib

/-!
# Request-parameter checks of the backward-compatibility checker

A shallow embedding of `checker/check-request-header-property-became-enum.go` and
`checker/check-request-parameters-min-items-set.go`.

Conventions of the embedding

* A Go pointer that the code tests against `nil`, or dereferences, is an `Option`;
  dereferencing `none` is a run-time panic, which the checks report as `none`.
* A Go map is the list of its entries in the order in which `range` meets them. The
  pointers stored as map values, the schema diffs handed to the processor and `diffReport`
  itself are present: the checks read their fields without a test.
* `fmt.Sprintf`, `ColorizedValue`, `propertyFullName`, `CheckModifiedPropertiesDiff` and the
  localizer behind `config.i18n` are not part of the embedded files; they are parameters.
  `goSprintf` gives `fmt.Sprintf` as the Go library documents it.
* The rules and comparisons of which only the tests are among the embedded files (the
  required-property policy, the comparison of composition lists, the deprecation and sunset
  policy) follow the specification; each such definition says so and quotes its sentence.
-/

set_option autoImplicit false

namespace Oasdiff

/-! ## Data model -/

/-- A dynamic value held in a Go `interface{}` (the non-nil case). -/
inductive Value where
  | str (s : String)
  | uint64 (n : Nat)
deriving DecidableEq, Repr

/-- The type `diff.ValueDiff`: a changed scalar, both sides being `interface{}`. -/
structure ValueDiff where
  From : Option Value
  To : Option Value
deriving DecidableEq, Repr

/-- The type `diff.EnumDiff`. The checks read the flag `EnumAdded` only. -/
structure EnumDiff where
  EnumAdded : Bool
  EnumRemoved : Bool
deriving DecidableEq, Repr

/-- The type `diff.SchemaDiff`, with the fields the checks read and the modified properties
that a walk over properties descends into. -/
inductive SchemaDiff where
  | mk (EnumDiff : Option EnumDiff) (MinItemsDiff : Option ValueDiff)
      (PropertiesDiff : Option (List (String × SchemaDiff))) : SchemaDiff

/-- Field `EnumDiff` of a schema diff. -/
def SchemaDiff.EnumDiff : SchemaDiff → Option EnumDiff
  | .mk e _ _ => e

/-- Field `MinItemsDiff` of a schema diff. -/
def SchemaDiff.MinItemsDiff : SchemaDiff → Option ValueDiff
  | .mk _ m _ => m

/-- Modified properties of a schema diff (`PropertiesDiff.Modified`), `none` for a nil
`PropertiesDiff`. -/
def SchemaDiff.PropertiesDiff : SchemaDiff → Option (List (String × SchemaDiff))
  | .mk _ _ p => p

/-- The target of an `*openapi3.Operation`; `addr` stands for the identity of the pointer. -/
structure Operation where
  addr : Nat
  OperationID : String
deriving DecidableEq, Repr

/-- The type `diff.ParameterDiff`. -/
structure ParameterDiff where
  SchemaDiff : Option SchemaDiff

/-- The type `diff.ParamDiffs`: parameter name to parameter diff. -/
abbrev ParamDiffs := List (String × ParameterDiff)

/-- The type `diff.ParamDiffByLocation`: parameter location to `ParamDiffs`. -/
abbrev ParamDiffByLocation := List (String × ParamDiffs)

/-- The type `diff.ParamNamesByLocation`. -/
abbrev ParamNamesByLocation := List (String × List String)

/-- The type `diff.ParametersDiff`. -/
structure ParametersDiff where
  Added : ParamNamesByLocation
  Deleted : ParamNamesByLocation
  Modified : ParamDiffByLocation

/-- The type `diff.MethodDiff`: the diff of one operation present on both sides. -/
structure MethodDiff where
  Base : Option Operation
  Revision : Option Operation
  ParametersDiff : Option ParametersDiff

/-- The type `diff.OperationsDiff`. -/
structure OperationsDiff where
  Added : List String
  Deleted : List String
  Modified : List (String × MethodDiff)

/-- The type `diff.PathDiff`. -/
structure PathDiff where
  OperationsDiff : Option OperationsDiff

/-- The type `diff.PathsDiff`. -/
structure PathsDiff where
  Added : List String
  Deleted : List String
  Modified : List (String × PathDiff)

/-- The type `diff.Diff`, the root of the diff tree. -/
structure Diff where
  PathsDiff : Option PathsDiff

/-- The type `diff.OperationsSourcesMap`, `map[*openapi3.Operation]string`: the key is the
identity of the pointer, `none` being the nil pointer. -/
abbrev OperationsSourcesMap := List (Option Nat × String)

/-- The map key of an operation pointer. -/
def operationKey (operation : Option Operation) : Option Nat :=
  operation.map (fun o => o.addr)

/-- Go map indexing `m[key]`: the zero value `""` when the map has no entry. -/
def sourceOf (m : OperationsSourcesMap) (operation : Option Operation) : String :=
  (m.lookup (operationKey operation)).getD ""

/-- The severity levels of the checker. -/
inductive Level where
  | ERR
  | WARN
  | INFO
deriving DecidableEq, Repr

/-- The type `checker.BackwardCompatibilityError`: one finding. A field the struct literal
leaves out has Go's zero value `""`. -/
structure BackwardCompatibilityError where
  Id : String
  Text : String
  Comment : String
  Level : Level
  Operation : String
  OperationId : String
  Path : String
  ToDo : String
  Source : String
deriving DecidableEq, Repr

/-- One call that `CheckModifiedPropertiesDiff` makes to its processor. -/
structure PropertyVisit where
  propertyPath : String
  propertyName : String
  propertyDiff : SchemaDiff
  parent : Option SchemaDiff

/-- Functions the checks call that are not part of the embedded files.
`CheckModifiedPropertiesDiff` is given by the sequence of calls it makes to its processor. -/
structure Externals where
  Sprintf : String → List Value → String
  ColorizedValue : String → String
  propertyFullName : String → String → String
  CheckModifiedPropertiesDiff : SchemaDiff → List PropertyVisit

/-- The type `checker.BackwardCompatibilityCheckConfig`: the checks use its localizer only. -/
structure BackwardCompatibilityCheckConfig where
  i18n : String → String

/-! ## The checks -/

/-- A Go `for ... range` loop whose body updates `result`: the entries are met in list order,
and a panic in the body ends the loop. -/
def forRange {A E : Type} (entries : List A) (body : A → List E → Option (List E))
    (result : List E) : Option (List E) :=
  match entries with
  | [] => some result
  | a :: rest =>
    match body a result with
    | none => none
    | some r => forRange rest body r

/-- The constant `requestHeaderPropertyBecameEnumId`. -/
def requestHeaderPropertyBecameEnumId : String := "request-header-property-became-enum"

/-- The condition `enumDiff != nil && enumDiff.EnumAdded`. -/
def enumAdded (enumDiff : Option EnumDiff) : Bool :=
  match enumDiff with
  | none => false
  | some e => e.EnumAdded

/-- The struct literal of lines 39-47 and 58-66 of the header check: `args` are the arguments
of `fmt.Sprintf`; reading `operationItem.Revision.OperationID` panics on a nil `Revision`. -/
def becameEnumError (ext : Externals) (config : BackwardCompatibilityCheckConfig)
    (path operation : String) (operationItem : MethodDiff) (source : String)
    (args : List Value) : Option BackwardCompatibilityError :=
  match operationItem.Revision with
  | none => none
  | some revision =>
    some { Id := requestHeaderPropertyBecameEnumId
           Level := Level.ERR
           Text := ext.Sprintf (config.i18n requestHeaderPropertyBecameEnumId) args
           Operation := operation
           OperationId := revision.OperationID
           Path := path
           Source := source
           Comment := ""
           ToDo := "" }

/-- The processor passed to `CheckModifiedPropertiesDiff` (lines 52-67). -/
def becameEnumProcessor (ext : Externals) (config : BackwardCompatibilityCheckConfig)
    (path operation : String) (operationItem : MethodDiff) (source paramName : String)
    (visit : PropertyVisit) (result : List BackwardCompatibilityError) :
    Option (List BackwardCompatibilityError) :=
  if !enumAdded visit.propertyDiff.EnumDiff then some result
  else
    match becameEnumError ext config path operation operationItem source
        [Value.str (ext.ColorizedValue paramName),
         Value.str (ext.ColorizedValue
           (ext.propertyFullName visit.propertyPath visit.propertyName))] with
    | none => none
    | some e => some (result ++ [e])

/-- The body of the loop over one location's parameters (lines 33-68). -/
def becameEnumParam (ext : Externals) (config : BackwardCompatibilityCheckConfig)
    (path operation : String) (operationItem : MethodDiff) (source : String)
    (entry : String × ParameterDiff) (result : List BackwardCompatibilityError) :
    Option (List BackwardCompatibilityError) :=
  match entry.2.SchemaDiff with
  | none => some result
  | some schemaDiff =>
    let afterParameter : Option (List BackwardCompatibilityError) :=
      if enumAdded schemaDiff.EnumDiff then
        match becameEnumError ext config path operation operationItem source
            [Value.str (ext.ColorizedValue entry.1)] with
        | none => none
        | some e => some (result ++ [e])
      else some result
    match afterParameter with
    | none => none
    | some r =>
      forRange (ext.CheckModifiedPropertiesDiff schemaDiff)
        (becameEnumProcessor ext config path operation operationItem source entry.1) r

/-- The body of the loop over parameter locations (lines 27-69). -/
def becameEnumLocation (ext : Externals) (config : BackwardCompatibilityCheckConfig)
    (path operation : String) (operationItem : MethodDiff) (source : String)
    (entry : String × ParamDiffs) (result : List BackwardCompatibilityError) :
    Option (List BackwardCompatibilityError) :=
  if entry.1 != "header" then some result
  else forRange entry.2 (becameEnumParam ext config path operation operationItem source) result

/-- The body of the loop over modified operations (lines 20-70): the source map is
dereferenced before anything else. -/
def becameEnumOperation (ext : Externals) (operationsSources : Option OperationsSourcesMap)
    (config : BackwardCompatibilityCheckConfig) (path : String)
    (entry : String × MethodDiff) (result : List BackwardCompatibilityError) :
    Option (List BackwardCompatibilityError) :=
  match operationsSources with
  | none => none
  | some sources =>
    let source := sourceOf sources entry.2.Revision
    match entry.2.ParametersDiff with
    | none => some result
    | some parametersDiff =>
      forRange parametersDiff.Modified
        (becameEnumLocation ext config path entry.1 entry.2 source) result

/-- The body of the loop over modified paths (lines 16-71). -/
def becameEnumPath (ext : Externals) (operationsSources : Option OperationsSourcesMap)
    (config : BackwardCompatibilityCheckConfig)
    (entry : String × PathDiff) (result : List BackwardCompatibilityError) :
    Option (List BackwardCompatibilityError) :=
  match entry.2.OperationsDiff with
  | none => some result
  | some operationsDiff =>
    forRange operationsDiff.Modified
      (becameEnumOperation ext operationsSources config entry.1) result

/-- The function `RequestHeaderPropertyBecameEnumCheck`; `none` is a run-time panic. -/
def RequestHeaderPropertyBecameEnumCheck (ext : Externals) (diffReport : Diff)
    (operationsSources : Option OperationsSourcesMap)
    (config : BackwardCompatibilityCheckConfig) : Option (List BackwardCompatibilityError) :=
  match diffReport.PathsDiff with
  | none => some []
  | some pathsDiff =>
    forRange pathsDiff.Modified (becameEnumPath ext operationsSources config) []

/-- The format string of the min-items check. -/
def minItemsSetFormat : String :=
  "for the %s request parameter %s, the minItems was set to '%s'"

/-- The `Comment` of the min-items check. -/
def minItemsSetComment : String :=
  "It is warn because sometimes it is required to be set because of security reasons or current error in specification. But good clients should be checked to support this restriction before such change in specification."

/-- The body of the loop over one location's parameters of the min-items check
(lines 23-47): the source map is dereferenced only once a parameter qualifies. -/
def minItemsSetParam (ext : Externals) (operationsSources : Option OperationsSourcesMap)
    (path operation : String) (operationItem : MethodDiff) (paramLocation : String)
    (entry : String × ParameterDiff) (result : List BackwardCompatibilityError) :
    Option (List BackwardCompatibilityError) :=
  match entry.2.SchemaDiff with
  | none => some result
  | some schemaDiff =>
    match schemaDiff.MinItemsDiff with
    | none => some result
    | some minItemsDiff =>
      match minItemsDiff.From, minItemsDiff.To with
      | some _, _ => some result
      | none, none => some result
      | none, some toValue =>
        match operationsSources with
        | none => none
        | some sources =>
          let source := sourceOf sources operationItem.Revision
          some (result ++
            [{ Id := "request-parameter-min-items-set"
               Level := Level.WARN
               Text := ext.Sprintf minItemsSetFormat
                 [Value.str (ext.ColorizedValue paramLocation),
                  Value.str (ext.ColorizedValue entry.1), toValue]
               Comment := minItemsSetComment
               Operation := operation
               Path := path
               Source := source
               ToDo := "Add to exceptions-list.md"
               OperationId := "" }])

/-- The body of the loop over parameter locations of the min-items check (lines 22-48). -/
def minItemsSetLocation (ext : Externals) (operationsSources : Option OperationsSourcesMap)
    (path operation : String) (operationItem : MethodDiff)
    (entry : String × ParamDiffs) (result : List BackwardCompatibilityError) :
    Option (List BackwardCompatibilityError) :=
  forRange entry.2
    (minItemsSetParam ext operationsSources path operation operationItem entry.1) result

/-- The body of the loop over modified operations of the min-items check (lines 18-49). -/
def minItemsSetOperation (ext : Externals) (operationsSources : Option OperationsSourcesMap)
    (path : String) (entry : String × MethodDiff) (result : List BackwardCompatibilityError) :
    Option (List BackwardCompatibilityError) :=
  match entry.2.ParametersDiff with
  | none => some result
  | some parametersDiff =>
    forRange parametersDiff.Modified
      (minItemsSetLocation ext operationsSources path entry.1 entry.2) result

/-- The body of the loop over modified paths of the min-items check (lines 14-50). -/
def minItemsSetPath (ext : Externals) (operationsSources : Option OperationsSourcesMap)
    (entry : String × PathDiff) (result : List BackwardCompatibilityError) :
    Option (List BackwardCompatibilityError) :=
  match entry.2.OperationsDiff with
  | none => some result
  | some operationsDiff =>
    forRange operationsDiff.Modified (minItemsSetOperation ext operationsSources entry.1) result

/-- The function `RequestParameterMinItemsSetCheck`; `none` is a run-time panic. The config
is an argument the body never reads. -/
def RequestParameterMinItemsSetCheck (ext : Externals) (diffReport : Diff)
    (operationsSources : Option OperationsSourcesMap)
    (_config : BackwardCompatibilityCheckConfig) : Option (List BackwardCompatibilityError) :=
  match diffReport.PathsDiff with
  | none => some []
  | some pathsDiff =>
    forRange pathsDiff.Modified (minItemsSetPath ext operationsSources) []

/-! ## The modified parameters of a diff tree -/

/-- A modified parameter together with the place of the tree where the loops meet it. -/
structure ParamOccurrence where
  path : String
  operation : String
  operationItem : MethodDiff
  paramLocation : String
  paramName : String
  paramDiff : ParameterDiff

/-- The entries of `PathsDiff.Modified`, none for a nil `PathsDiff`. -/
def modifiedPaths (diffReport : Diff) : List (String × PathDiff) :=
  match diffReport.PathsDiff with
  | none => []
  | some pathsDiff => pathsDiff.Modified

/-- The entries of `OperationsDiff.Modified` of a path, none for a nil `OperationsDiff`. -/
def modifiedOperations (pathItem : PathDiff) : List (String × MethodDiff) :=
  match pathItem.OperationsDiff with
  | none => []
  | some operationsDiff => operationsDiff.Modified

/-- The entries of `ParametersDiff.Modified` of an operation, none for a nil
`ParametersDiff`. -/
def modifiedLocations (operationItem : MethodDiff) : List (String × ParamDiffs) :=
  match operationItem.ParametersDiff with
  | none => []
  | some parametersDiff => parametersDiff.Modified

/-- The modified parameters of one modified operation, in traversal order. -/
def operationParameters (path : String) (entry : String × MethodDiff) : List ParamOccurrence :=
  (modifiedLocations entry.2).flatMap fun l =>
    l.2.map fun q => ⟨path, entry.1, entry.2, l.1, q.1, q.2⟩

/-- The modified parameters of one modified path, in traversal order. -/
def pathParameters (entry : String × PathDiff) : List ParamOccurrence :=
  (modifiedOperations entry.2).flatMap (operationParameters entry.1)

/-- Every modified parameter of every modified operation of every modified path, in
traversal order. -/
def modifiedParameters (diffReport : Diff) : List ParamOccurrence :=
  (modifiedPaths diffReport).flatMap pathParameters

/-- The new `minItems` of a parameter whose schema diff has a `MinItemsDiff` with `From`
absent and `To` present. -/
def minItemsSetTo (paramDiff : ParameterDiff) : Option Value :=
  match paramDiff.SchemaDiff with
  | none => none
  | some schemaDiff =>
    match schemaDiff.MinItemsDiff with
    | none => none
    | some minItemsDiff =>
      match minItemsDiff.From with
      | some _ => none
      | none => minItemsDiff.To

/-- The finding of the min-items check for a parameter whose `minItems` was set to
`toValue`. -/
def minItemsSetError (ext : Externals) (sources : OperationsSourcesMap)
    (occ : ParamOccurrence) (toValue : Value) : BackwardCompatibilityError :=
  { Id := "request-parameter-min-items-set"
    Level := Level.WARN
    Text := ext.Sprintf minItemsSetFormat
      [Value.str (ext.ColorizedValue occ.paramLocation),
       Value.str (ext.ColorizedValue occ.paramName), toValue]
    Comment := minItemsSetComment
    Operation := occ.operation
    Path := occ.path
    Source := sourceOf sources occ.operationItem.Revision
    ToDo := "Add to exceptions-list.md"
    OperationId := "" }

/-- The findings of the min-items check for one modified parameter: one or none. -/
def minItemsSetOf (ext : Externals) (sources : OperationsSourcesMap)
    (occ : ParamOccurrence) : List BackwardCompatibilityError :=
  match minItemsSetTo occ.paramDiff with
  | none => []
  | some toValue => [minItemsSetError ext sources occ toValue]

/-- The `OperationID` of the revision of a modified operation (`""` for a nil revision,
which the header check never gets to report). -/
def operationIdOf (operationItem : MethodDiff) : String :=
  match operationItem.Revision with
  | none => ""
  | some revision => revision.OperationID

/-- Every modified operation of every modified path has a revision operation. -/
def revisionsPresent (diffReport : Diff) : Bool :=
  (modifiedPaths diffReport).all fun p =>
    (modifiedOperations p.2).all fun o => o.2.Revision.isSome

/-- The modified properties of a schema diff, as visited by `CheckModifiedPropertiesDiff`,
whose enum diff has `EnumAdded` set. -/
def enumAddedProperties (ext : Externals) (schemaDiff : SchemaDiff) : List PropertyVisit :=
  (ext.CheckModifiedPropertiesDiff schemaDiff).filter
    fun visit => enumAdded visit.propertyDiff.EnumDiff

/-- The `fmt.Sprintf` arguments of the findings of the header check for one parameter with a
schema diff: the parameter-level finding, if any, then the property-level ones. -/
def becameEnumArgs (ext : Externals) (paramName : String) (schemaDiff : SchemaDiff) :
    List (List Value) :=
  (if enumAdded schemaDiff.EnumDiff then [[Value.str (ext.ColorizedValue paramName)]] else [])
    ++ (enumAddedProperties ext schemaDiff).map fun visit =>
      [Value.str (ext.ColorizedValue paramName),
       Value.str (ext.ColorizedValue
         (ext.propertyFullName visit.propertyPath visit.propertyName))]

/-- The finding of the header check for a parameter, with the given `fmt.Sprintf`
arguments. -/
def becameEnumRecord (ext : Externals) (sources : OperationsSourcesMap)
    (config : BackwardCompatibilityCheckConfig) (occ : ParamOccurrence) (args : List Value) :
    BackwardCompatibilityError :=
  { Id := requestHeaderPropertyBecameEnumId
    Level := Level.ERR
    Text := ext.Sprintf (config.i18n requestHeaderPropertyBecameEnumId) args
    Operation := occ.operation
    OperationId := operationIdOf occ.operationItem
    Path := occ.path
    Source := sourceOf sources occ.operationItem.Revision
    Comment := ""
    ToDo := "" }

/-- The findings of the header check for one modified parameter. -/
def becameEnumOf (ext : Externals) (sources : OperationsSourcesMap)
    (config : BackwardCompatibilityCheckConfig) (occ : ParamOccurrence) :
    List BackwardCompatibilityError :=
  if occ.paramLocation != "header" then []
  else
    match occ.paramDiff.SchemaDiff with
    | none => []
    | some schemaDiff =>
      (becameEnumArgs ext occ.paramName schemaDiff).map (becameEnumRecord ext sources config occ)

/-! ## The enum comparison and sample inputs -/

/-- Modelled from the spec: the enum comparison of the diff engine, which is not among the
embedded files. "Enum diff tracks EnumAdded (revision-only values) and EnumRemoved (base-only
values) separately", and a diff node is "absent when unchanged". -/
def getEnumDiff (base revision : List Value) : Option EnumDiff :=
  let added := revision.filter fun v => !base.contains v
  let removed := base.filter fun v => !revision.contains v
  if added.isEmpty && removed.isEmpty then none
  else some { EnumAdded := !added.isEmpty, EnumRemoved := !removed.isEmpty }

/-- A modified operation with the given revision and modified parameters, nothing added or
deleted. -/
def methodDiffOf (base revision : Option Operation) (modified : ParamDiffByLocation) :
    MethodDiff :=
  { Base := base
    Revision := revision
    ParametersDiff := some { Added := [], Deleted := [], Modified := modified } }

/-- A modified path with the given modified operations, nothing added or deleted. -/
def pathDiffOf (modified : List (String × MethodDiff)) : PathDiff :=
  { OperationsDiff := some { Added := [], Deleted := [], Modified := modified } }

/-- A diff tree with the given modified paths, nothing added or deleted. -/
def diffOf (modified : List (String × PathDiff)) : Diff :=
  { PathsDiff := some { Added := [], Deleted := [], Modified := modified } }

/-- The diff tree in which the only change is the enum of one header parameter, from the
values `base` to the values `revision`. -/
def headerEnumChange (path operation paramName : String) (baseOperation revisionOperation :
    Operation) (base revision : List Value) : Diff :=
  diffOf [(path, pathDiffOf [(operation,
    methodDiffOf (some baseOperation) (some revisionOperation)
      [("header", [(paramName,
        { SchemaDiff := some (SchemaDiff.mk (getEnumDiff base revision) none none) })])])])]

/-- A stand-in for `fmt.Sprintf` in the sample inputs: the format followed by the text of the
arguments. -/
def sampleSprintf (format : String) (args : List Value) : String :=
  String.join (format :: args.map fun v =>
    match v with
    | Value.str s => " " ++ s
    | Value.uint64 _ => " #")

/-- A stand-in for `CheckModifiedPropertiesDiff` in the sample inputs: it visits the modified
properties directly under the schema diff. -/
def sampleCheckModifiedPropertiesDiff (schemaDiff : SchemaDiff) : List PropertyVisit :=
  match schemaDiff.PropertiesDiff with
  | none => []
  | some properties =>
    properties.map fun q =>
      { propertyPath := "", propertyName := q.1, propertyDiff := q.2, parent := some schemaDiff }

/-- Sample external functions. -/
def sampleExternals : Externals :=
  { Sprintf := sampleSprintf
    ColorizedValue := fun s => "'" ++ s ++ "'"
    propertyFullName := fun propertyPath propertyName =>
      if propertyPath = "" then propertyName else propertyPath ++ "/" ++ propertyName
    CheckModifiedPropertiesDiff := sampleCheckModifiedPropertiesDiff }

/-- A sample config whose localizer returns the message id. -/
def sampleConfig : BackwardCompatibilityCheckConfig :=
  { i18n := fun id => id }

/-- The base side of the sample operation. -/
def sampleBase : Operation := { addr := 1, OperationID := "listItems" }

/-- The revision side of the sample operation. -/
def sampleRevision : Operation := { addr := 2, OperationID := "listItems" }

/-- A sample source map with an entry for each side of the sample operation. -/
def sampleSources : OperationsSourcesMap :=
  [(some 1, "base.yaml"), (some 2, "revision.yaml")]

/-- A schema diff in which `minItems` was set to 2. -/
def minItemsSetSchema : SchemaDiff :=
  SchemaDiff.mk none (some { From := none, To := some (Value.uint64 2) }) none

/-- A schema diff whose enum diff has `EnumAdded` set, and in which the property `kind` has an
enum diff with `EnumAdded` set as well. -/
def enumAddedSchema : SchemaDiff :=
  SchemaDiff.mk (some { EnumAdded := true, EnumRemoved := false }) none
    (some [("kind", SchemaDiff.mk (some { EnumAdded := true, EnumRemoved := false }) none none)])

/-- The modified parameters of the sample operation: a header parameter that became an enum
and a query parameter whose `minItems` was set. -/
def sampleParameters : ParamDiffByLocation :=
  [("header", [("X-Kind", { SchemaDiff := some enumAddedSchema })]),
   ("query", [("ids", { SchemaDiff := some minItemsSetSchema })])]

/-- A sample diff tree: the modified operation `GET /items`. -/
def sampleDiff : Diff :=
  diffOf [("/items", pathDiffOf [("GET",
    methodDiffOf (some sampleBase) (some sampleRevision) sampleParameters)])]

/-- The sample diff tree with the revision of the modified operation absent. -/
def sampleDiffNoRevision : Diff :=
  diffOf [("/items", pathDiffOf [("GET", methodDiffOf (some sampleBase) none sampleParameters)])]

/-- The modified path `/items` of the sample inputs. -/
def sampleItemsPath : String × PathDiff :=
  ("/items", pathDiffOf [("GET",
    methodDiffOf (some sampleBase) (some sampleRevision) sampleParameters)])

/-- A second modified path, `/users`, with the same modified parameters. -/
def sampleUsersPath : String × PathDiff :=
  ("/users", pathDiffOf [("GET",
    methodDiffOf (some sampleBase) (some sampleRevision) sampleParameters)])

/-- The sample diff tree with the two parameter locations of its operation traversed in the
other order. -/
def sampleDiffLocationsSwapped : Diff :=
  diffOf [("/items", pathDiffOf [("GET",
    methodDiffOf (some sampleBase) (some sampleRevision)
      [("query", [("ids", { SchemaDiff := some minItemsSetSchema })]),
       ("header", [("X-Kind", { SchemaDiff := some enumAddedSchema })])])])]

/-! ## Formatting with `fmt.Sprintf` -/

/-- The name `fmt` prints for the dynamic type of a value. -/
def Value.typeName : Value → String
  | Value.str _ => "string"
  | Value.uint64 _ => "uint64"

/-- The default text of a value, as the verb `%v` prints it. -/
def Value.text : Value → String
  | Value.str s => s
  | Value.uint64 n => toString n

/-- One verb of `fmt` applied to one operand: `%s` prints a string, `%d` an integer in
decimal, `%v` either; a verb that does not fit the operand gives `%!verb(type=value)`. Flags,
widths and the other verbs of `fmt` are not modelled. -/
def formatVerb (verb : Char) (arg : Value) : String :=
  if verb = 'v' then arg.text
  else
    match arg with
    | Value.str s =>
      if verb = 's' then s
      else "%!" ++ verb.toString ++ "(string=" ++ s ++ ")"
    | Value.uint64 n =>
      if verb = 'd' then toString n
      else "%!" ++ verb.toString ++ "(uint64=" ++ toString n ++ ")"

/-- The text `fmt` appends for operands that no verb consumed. -/
def extraOperands (args : List Value) : String :=
  match args with
  | [] => ""
  | _ :: _ =>
    "%!(EXTRA " ++ ", ".intercalate (args.map fun v => v.typeName ++ "=" ++ v.text) ++ ")"

/-- The scan of `fmt.Sprintf` over the format: `afterPercent` says that the last character
read was an unconsumed `%`. A verb without an operand gives `%!verb(MISSING)`, a `%` at the
end of the format gives `%!(NOVERB)`. -/
def goSprintfScan : List Char → List Value → Bool → String
  | [], args, false => extraOperands args
  | [], args, true => "%!(NOVERB)" ++ extraOperands args
  | c :: rest, args, false =>
    if c = '%' then goSprintfScan rest args true
    else c.toString ++ goSprintfScan rest args false
  | c :: rest, args, true =>
    if c = '%' then "%" ++ goSprintfScan rest args false
    else
      match args with
      | [] => "%!" ++ c.toString ++ "(MISSING)" ++ goSprintfScan rest [] false
      | a :: others => formatVerb c a ++ goSprintfScan rest others false

/-- The function `fmt.Sprintf` of the Go library, for formats built from text, `%%` and the
verbs `%s`, `%d` and `%v`. -/
def goSprintf (format : String) (args : List Value) : String :=
  goSprintfScan format.toList args false

/-- The sample external functions with `fmt.Sprintf` as the Go library has it. -/
def goExternals : Externals :=
  { Sprintf := goSprintf
    ColorizedValue := sampleExternals.ColorizedValue
    propertyFullName := sampleExternals.propertyFullName
    CheckModifiedPropertiesDiff := sampleExternals.CheckModifiedPropertiesDiff }

/-! ## The required-property policy

The rules that `CheckBackwardCompatibility` runs on request and response schemas, and the
schema comparison they read, are not among the embedded files. -/

/-- Modelled from the spec: a property of a schema, a `SchemaNode` (spec 3) of which the
required-property policy reads the "readOnly/writeOnly flags" and nothing else. -/
structure PropertyNode where
  readOnly : Bool
  writeOnly : Bool
deriving DecidableEq, Repr

/-- Modelled from the spec: the "required-property-name set" and the "properties
(name→SchemaNode, owned by parent)" of a `SchemaNode` (spec 3). -/
structure ObjectNode where
  required : List String
  properties : List (String × PropertyNode)
deriving DecidableEq, Repr

/-- Modelled from the spec: a `SchemaNode` (spec 3) with its own required set and properties
and its "composition subschemas", here the anonymous (inline, no `$ref`) subschemas under
`allOf`. -/
structure SchemaNode where
  object : ObjectNode
  allOf : List ObjectNode
deriving DecidableEq, Repr

/-- Modelled from the spec: "Required set diffed as Added/Deleted of names" (spec 4.1). -/
structure RequiredDiff where
  Added : List String
  Deleted : List String
deriving DecidableEq, Repr

/-- Modelled from the spec: the diff of two required sets, `Added` the revision-only names and
`Deleted` the base-only names (spec 3, 4.1). -/
def getRequiredDiff (base revision : List String) : RequiredDiff :=
  { Added := revision.filter fun name => !base.contains name
    Deleted := base.filter fun name => !revision.contains name }

/-- Modelled from the spec: the side of the exchange a schema describes (spec 4.4:
"request-side schema", "response-side schema"). -/
inductive SchemaSide where
  | request
  | response
deriving DecidableEq, Repr

/-- Modelled from the spec: a finding of the required-property policy, with its level, the
side of the schema and the property it is about (none for a composition change that could not
be interpreted). -/
structure PolicyFinding where
  Level : Level
  side : SchemaSide
  property : Option String
deriving DecidableEq, Repr

/-- Modelled from the spec: the property `name` is marked read-only (spec 4.4: "unless the
property is read-only"). -/
def isReadOnly (properties : List (String × PropertyNode)) (name : String) : Bool :=
  match properties.lookup name with
  | some property => property.readOnly
  | none => false

/-- Modelled from the spec: the property `name` is marked write-only (spec 4.4: "Write-only
properties are exempt from response-required breakage"). -/
def isWriteOnly (properties : List (String × PropertyNode)) (name : String) : Bool :=
  match properties.lookup name with
  | some property => property.writeOnly
  | none => false

/-- Modelled from the spec: the request side of the required-property policy (spec 4.4):
"request-side schema gains a required property ⇒ breaking, unless the property is read-only
... Request-side required property removed ⇒ not breaking (pure relaxation)"; the finding is
an ERROR (spec 8). -/
def requestObjectFindings (base revision : ObjectNode) : List PolicyFinding :=
  ((getRequiredDiff base.required revision.required).Added.filter
    fun name => !isReadOnly revision.properties name).map
    fun name => { Level := Level.ERR, side := SchemaSide.request, property := some name }

/-- Modelled from the spec: the response side of the required-property policy (spec 4.4):
"Response-side schema loses "required" on a property (required→optional) ⇒ breaking ...
Response-side gains "required" ⇒ not breaking. Write-only properties are exempt from
response-required breakage". -/
def responseObjectFindings (base revision : ObjectNode) : List PolicyFinding :=
  ((getRequiredDiff base.required revision.required).Deleted.filter
    fun name => !isWriteOnly base.properties name).map
    fun name => { Level := Level.ERR, side := SchemaSide.response, property := some name }

/-- Modelled from the spec: the diff of a composition list of anonymous subschemas
(spec 4.1). "anonymous inline subschemas correlate positionally only when exactly one
subschema changed per side. If multiple anonymous subschemas change simultaneously,
correlation is abandoned for that list and the change is reported as
opaque/uninterpretable"; a subschema present on one side only is a "pure
addition/deletion". -/
inductive CompositionDiff where
  | modified (base revision : ObjectNode)
  | uninterpretable
  | addedOrDeleted (added deleted : List ObjectNode)
deriving DecidableEq, Repr

/-- Modelled from the spec: the subschemas of the composition list `side` that changed with
respect to the list `other` of the other document. Anonymous subschemas "correlate
positionally" (spec 4.1): a subschema has changed when the subschema at its position in the
other list differs from it, or when the other list has none there. -/
def changedSubschemas : List ObjectNode → List ObjectNode → List ObjectNode
  | [], _ => []
  | s :: rest, [] => s :: changedSubschemas rest []
  | s :: rest, o :: others =>
    if s = o then changedSubschemas rest others else s :: changedSubschemas rest others

/-- Modelled from the spec: the comparison of two composition lists (spec 4.1), from the
subschemas that changed on each side: the diff is "absent when unchanged", one changed
subschema per side is a correlated pair, and anything else but a single added or deleted
subschema is uninterpretable. -/
def getCompositionDiff (base revision : List ObjectNode) : Option CompositionDiff :=
  match changedSubschemas base revision, changedSubschemas revision base with
  | [], [] => none
  | [b], [r] => some (CompositionDiff.modified b r)
  | [], [r] => some (CompositionDiff.addedOrDeleted [r] [])
  | [b], [] => some (CompositionDiff.addedOrDeleted [] [b])
  | _, _ => some CompositionDiff.uninterpretable

/-- Modelled from the spec: the required-property policy on a composition list (spec 4.4):
a correlated pair is judged as a schema pair, and "Findings from composition-ambiguous diffs
(4.1) are reported as breaking by required-property and enum rules even when the underlying
net change ... would be additive-only". -/
def compositionFindings (side : SchemaSide)
    (objectFindings : ObjectNode → ObjectNode → List PolicyFinding)
    (base revision : List ObjectNode) : List PolicyFinding :=
  match getCompositionDiff base revision with
  | none => []
  | some (CompositionDiff.modified b r) => objectFindings b r
  | some CompositionDiff.uninterpretable =>
    [{ Level := Level.ERR, side := side, property := none }]
  | some (CompositionDiff.addedOrDeleted _ _) => []

/-- Modelled from the spec: the findings of the required-property policy for a request
schema (a header parameter's schema or a request body) that is `base` in the base document
and `revision` in the revision. -/
def requestSchemaFindings (base revision : SchemaNode) : List PolicyFinding :=
  requestObjectFindings base.object revision.object ++
    compositionFindings SchemaSide.request requestObjectFindings base.allOf revision.allOf

/-- Modelled from the spec: the findings of the required-property policy for a response
schema that is `base` in the base document and `revision` in the revision. -/
def responseSchemaFindings (base revision : SchemaNode) : List PolicyFinding :=
  responseObjectFindings base.object revision.object ++
    compositionFindings SchemaSide.response responseObjectFindings base.allOf revision.allOf

/-- The object schema with the new property `name`, required. -/
def ObjectNode.addRequiredProperty (o : ObjectNode) (name : String) (property : PropertyNode) :
    ObjectNode :=
  { required := o.required ++ [name], properties := o.properties ++ [(name, property)] }

/-- The object schema with its property `name` made required. -/
def ObjectNode.makeRequired (o : ObjectNode) (name : String) : ObjectNode :=
  { required := o.required ++ [name], properties := o.properties }

/-- The schema with the new property `name`, required, among its own properties. -/
def SchemaNode.addRequiredProperty (s : SchemaNode) (name : String) (property : PropertyNode) :
    SchemaNode :=
  { object := s.object.addRequiredProperty name property, allOf := s.allOf }

/-- The schema with its own property `name` made required. -/
def SchemaNode.makeRequired (s : SchemaNode) (name : String) : SchemaNode :=
  { object := s.object.makeRequired name, allOf := s.allOf }

/-- A sample schema: an object with the required property `id` and the optional properties
`note`, `etag` (read-only) and `secret` (write-only). -/
def sampleSchema : SchemaNode :=
  { object :=
      { required := ["id"]
        properties := [("id", { readOnly := false, writeOnly := false }),
                       ("note", { readOnly := false, writeOnly := false }),
                       ("etag", { readOnly := true, writeOnly := false }),
                       ("secret", { readOnly := false, writeOnly := true })] }
    allOf := [] }

/-- A sample anonymous subschema with the required property `id`. -/
def sampleSubschemaId : ObjectNode :=
  { required := ["id"], properties := [("id", { readOnly := false, writeOnly := false })] }

/-- A sample anonymous subschema with the optional property `name`. -/
def sampleSubschemaName : ObjectNode :=
  { required := [], properties := [("name", { readOnly := false, writeOnly := false })] }

/-! ## The deprecation and sunset policy

The comparison `diff.Get` and its filter for `BreakingOnly` are not among the embedded
files. -/

/-- Modelled from the spec: the deprecation metadata of an operation (spec 4.4: "states:
not-deprecated, deprecated-with-sunset, deprecated-without-sunset"). A sunset date is given
by the number of its day, as is the evaluation date. -/
inductive DeprecationState where
  | notDeprecated
  | deprecatedWithSunset (sunset : Int)
  | deprecatedWithoutSunset
deriving DecidableEq, Repr

/-- Modelled from the spec: whether newly deprecating an operation, into the given state, is
breaking (spec 4.4): "newly deprecated with no sunset date under an active deprecation-notice
policy ⇒ breaking. Newly deprecated with a sunset date fewer than the configured
notice-period days from evaluation time ⇒ breaking; otherwise not breaking". The policy is
active when `deprecationDays`, the field `DeprecationDays` of the config, is positive; the
tests of the policy say that deprecating "without a deprecation policy is not breaking". -/
def deprecationIsBreaking (deprecationDays today : Int) : DeprecationState → Bool
  | DeprecationState.notDeprecated => false
  | DeprecationState.deprecatedWithoutSunset => decide (0 < deprecationDays)
  | DeprecationState.deprecatedWithSunset sunset =>
    decide (0 < deprecationDays ∧ sunset - today < deprecationDays)

/-- Modelled from the spec: the sunset date of an operation "has already passed at
evaluation time" (spec 4.4). -/
def sunsetPassed (today : Int) : DeprecationState → Bool
  | DeprecationState.deprecatedWithSunset sunset => decide (sunset < today)
  | _ => false

/-- Modelled from the spec: the operations of a path, by method (spec 3: the method of an
`EndpointKey`), each with its deprecation metadata. -/
abbrev SpecOperations := List (String × DeprecationState)

/-- Modelled from the spec: the paths of a document, by path template (spec 3). -/
abbrev SpecPaths := List (String × SpecOperations)

/-- Modelled from the spec: a breaking change of an endpoint under the deprecation and sunset
policy (spec 4.4). -/
inductive EndpointChange where
  | pathDeleted (path : String)
  | operationDeleted (path method : String)
  | operationDeprecated (path method : String)
deriving DecidableEq, Repr

/-- Modelled from the spec: the breaking changes of one operation of the base, given the
operations of the same path in the revision (spec 4.4): a deleted operation is breaking
unless its sunset date has passed, a newly deprecated one is breaking as
`deprecationIsBreaking` says. -/
def operationBreakingChanges (deprecationDays today : Int) (path : String)
    (revision : SpecOperations) (o : String × DeprecationState) : List EndpointChange :=
  match revision.lookup o.1 with
  | none => if sunsetPassed today o.2 then [] else [EndpointChange.operationDeleted path o.1]
  | some state =>
    if o.2 = DeprecationState.notDeprecated ∧ deprecationIsBreaking deprecationDays today state
    then [EndpointChange.operationDeprecated path o.1]
    else []

/-- Modelled from the spec: the breaking changes of one path of the base (spec 4.4):
"Deleting an operation/path is breaking unless every contained operation's sunset date has
already passed at evaluation time". -/
def pathBreakingChanges (deprecationDays today : Int) (revision : SpecPaths)
    (p : String × SpecOperations) : List EndpointChange :=
  match revision.lookup p.1 with
  | none =>
    if p.2.all (fun o => sunsetPassed today o.2) then [] else [EndpointChange.pathDeleted p.1]
  | some operations =>
    p.2.flatMap (operationBreakingChanges deprecationDays today p.1 operations)

/-- Modelled from the spec: the diff of two documents with `BreakingOnly` set, as far as the
deprecation and sunset policy decides it: the breaking changes of the endpoints of the
base. -/
def breakingDiff (deprecationDays today : Int) (base revision : SpecPaths) :
    List EndpointChange :=
  base.flatMap (pathBreakingChanges deprecationDays today revision)

/-- Modelled from the spec: an `EndpointKey` is "unique per document" (spec 3). -/
def uniqueKeys (document : SpecPaths) : Prop :=
  (document.map Prod.fst).Nodup ∧ ∀ p ∈ document, (p.2.map Prod.fst).Nodup

/-- The document with the deprecation metadata of one operation replaced. -/
def setDeprecation (path method : String) (state : DeprecationState) (document : SpecPaths) :
    SpecPaths :=
  document.map fun p =>
    if p.1 = path then (p.1, p.2.map fun o => if o.1 = method then (o.1, state) else o)
    else p

/-- The document without one operation. -/
def deleteOperation (path method : String) (document : SpecPaths) : SpecPaths :=
  document.map fun p =>
    if p.1 = path then (p.1, p.2.filter fun o => o.1 != method) else p

/-- The document without one path. -/
def deletePath (path : String) (document : SpecPaths) : SpecPaths :=
  document.filter fun p => p.1 != path

/-- A sample document: `GET /api/test` is not deprecated, `POST /api/test` is deprecated with
a sunset on day 90, and the two operations of `/api/old` are deprecated with sunsets on the
days 90 and 120. -/
def sampleDocument : SpecPaths :=
  [("/api/test", [("GET", DeprecationState.notDeprecated),
                  ("POST", DeprecationState.deprecatedWithSunset 90)]),
   ("/api/old", [("GET", DeprecationState.deprecatedWithSunset 90),
                 ("DELETE", DeprecationState.deprecatedWithSunset 120)])]

/-! ## Findings up to their source, and trees up to their added and deleted parts -/

/-- A finding with its `Source` blanked: what two findings share when they agree on every
field but `Source`. -/
def withoutSource (f : BackwardCompatibilityError) : BackwardCompatibilityError :=
  { Id := f.Id
    Text := f.Text
    Comment := f.Comment
    Level := f.Level
    Operation := f.Operation
    OperationId := f.OperationId
    Path := f.Path
    ToDo := f.ToDo
    Source := "" }

/-- A second sample source map, with other entries. -/
def otherSampleSources : OperationsSourcesMap :=
  [(some 2, "merged.yaml")]

/-- A second sample config, with another localizer. -/
def otherSampleConfig : BackwardCompatibilityCheckConfig :=
  { i18n := fun id => "messages." ++ id }

/-- A sample diff tree in which no parameter has its `minItems` set: the modified operation
`GET /items` with the header parameter that became an enum. -/
def sampleDiffHeaderOnly : Diff :=
  diffOf [("/items", pathDiffOf [("GET",
    methodDiffOf (some sampleBase) (some sampleRevision)
      [("header", [("X-Kind", { SchemaDiff := some enumAddedSchema })])])])]

/-- The `ParametersDiff` with its added and deleted parameters left out. -/
def modifiedOnlyParameters (parametersDiff : ParametersDiff) : ParametersDiff :=
  { Added := [], Deleted := [], Modified := parametersDiff.Modified }

/-- The `MethodDiff` with the added and deleted parameters left out. -/
def modifiedOnlyMethod (operationItem : MethodDiff) : MethodDiff :=
  { Base := operationItem.Base
    Revision := operationItem.Revision
    ParametersDiff := operationItem.ParametersDiff.map modifiedOnlyParameters }

/-- The `OperationsDiff` with its added and deleted operations left out, and the added and
deleted parameters of its modified operations. -/
def modifiedOnlyOperations (operationsDiff : OperationsDiff) : OperationsDiff :=
  { Added := []
    Deleted := []
    Modified := operationsDiff.Modified.map fun o => (o.1, modifiedOnlyMethod o.2) }

/-- The `PathDiff` with the added and deleted parts below it left out. -/
def modifiedOnlyPath (pathItem : PathDiff) : PathDiff :=
  { OperationsDiff := pathItem.OperationsDiff.map modifiedOnlyOperations }

/-- The diff tree with every added and deleted path, operation and parameter left out: what
two diff trees share when they differ in their `Added` and `Deleted` parts only. -/
def modifiedOnly (diffReport : Diff) : Diff :=
  { PathsDiff := diffReport.PathsDiff.map fun pathsDiff =>
      { Added := []
        Deleted := []
        Modified := pathsDiff.Modified.map fun p => (p.1, modifiedOnlyPath p.2) } }

/-- The sample diff tree with an added path, a deleted path, an added and a deleted operation
and an added and a deleted parameter besides its modified operation. -/
def sampleDiffWithAddedAndDeleted : Diff :=
  { PathsDiff := some
      { Added := ["/new"]
        Deleted := ["/old"]
        Modified := [("/items",
          { OperationsDiff := some
              { Added := ["POST"]
                Deleted := ["DELETE"]
                Modified := [("GET",
                  { Base := some sampleBase
                    Revision := some sampleRevision
                    ParametersDiff := some
                      { Added := [("query", ["page"])]
                        Deleted := [("header", ["X-Old"])]
                        Modified := sampleParameters } })] } })] } }

/-- The sample modified operation `GET /items`. -/
def sampleOperationItem : MethodDiff :=
  methodDiffOf (some sampleBase) (some sampleRevision) sampleParameters

/-- The sample header parameter: its own enum diff has `EnumAdded` set, and so has the enum
diff of its property `kind`. -/
def sampleHeaderParameter : String × ParameterDiff :=
  ("X-Kind", { SchemaDiff := some enumAddedSchema })

/-- The sample external functions with `sprintf` for `fmt.Sprintf`. -/
def externalsWith (sprintf : String → List Value → String) : Externals :=
  { Sprintf := sprintf
    ColorizedValue := sampleExternals.ColorizedValue
    propertyFullName := sampleExternals.propertyFullName
    CheckModifiedPropertiesDiff := sampleExternals.CheckModifiedPropertiesDiff }

/-- A sample message template with two placeholders: the parameter and the property. -/
def parameterAndPropertyTemplate : String :=
  "the %s request header property %s was restricted to a list of enum values"

/-- A sample message template with one placeholder: the parameter. -/
def parameterTemplate : String :=
  "the %s request header was restricted to a list of enum values"

/-- A sample config whose localizer returns the template with two placeholders. -/
def parameterAndPropertyConfig : BackwardCompatibilityCheckConfig :=
  { i18n := fun _ => parameterAndPropertyTemplate }

/-- A sample config whose localizer returns the template with one placeholder. -/
def parameterConfig : BackwardCompatibilityCheckConfig :=
  { i18n := fun _ => parameterTemplate }

/-! ## Two traversals of the same maps -/

/-- Two traversals of one map: the second list holds the entries of the first in some order,
each value of the first being related by `R` to the value of the second under the same key. -/
def reorderedEntries {A : Type} (R : A → A → Prop) (first second : List (String × A)) : Prop :=
  ∃ middle, first.Perm middle ∧
    List.Forall₂ (fun x y => x.1 = y.1 ∧ R x.2 y.2) middle second

/-- Both references absent, or both present and related by `R`. -/
def reorderedOption {A : Type} (R : A → A → Prop) : Option A → Option A → Prop
  | none, none => True
  | some a, some b => R a b
  | _, _ => False

/-- The same `ParametersDiff`, its maps of modified parameters traversed in another order. -/
def reorderedParametersDiff (a b : ParametersDiff) : Prop :=
  a.Added = b.Added ∧ a.Deleted = b.Deleted ∧
    reorderedEntries (reorderedEntries Eq) a.Modified b.Modified

/-- The same `MethodDiff`, its maps traversed in another order. -/
def reorderedMethodDiff (a b : MethodDiff) : Prop :=
  a.Base = b.Base ∧ a.Revision = b.Revision ∧
    reorderedOption reorderedParametersDiff a.ParametersDiff b.ParametersDiff

/-- The same `OperationsDiff`, its maps traversed in another order. -/
def reorderedOperationsDiff (a b : OperationsDiff) : Prop :=
  a.Added = b.Added ∧ a.Deleted = b.Deleted ∧
    reorderedEntries reorderedMethodDiff a.Modified b.Modified

/-- The same `PathDiff`, its maps traversed in another order. -/
def reorderedPathDiff (a b : PathDiff) : Prop :=
  reorderedOption reorderedOperationsDiff a.OperationsDiff b.OperationsDiff

/-- The same `PathsDiff`, its maps traversed in another order. -/
def reorderedPathsDiff (a b : PathsDiff) : Prop :=
  a.Added = b.Added ∧ a.Deleted = b.Deleted ∧
    reorderedEntries reorderedPathDiff a.Modified b.Modified

/-- The same diff tree, the maps of modified paths, operations, parameter locations and
parameter names traversed in another order. -/
def reorderedDiff (a b : Diff) : Prop :=
  reorderedOption reorderedPathsDiff a.PathsDiff b.PathsDiff

/-! ## Outcomes of loops, with panics -/

/-- The outcome of a loop over `entries` whose body, started on the entry `a` from the empty
list, yields `g a`: the yields one after the other, or a panic when some entry panics. -/
def gather {A E : Type} (g : A → Option (List E)) : List A → Option (List E)
  | [] => some []
  | a :: rest =>
    match g a, gather g rest with
    | some x, some y => some (x ++ y)
    | _, _ => none

/-- Two outcomes agree up to the order of the findings: both are panics, or both are lists and
the one is a permutation of the other. -/
def sameOutcome {E : Type} : Option (List E) → Option (List E) → Prop
  | none, none => True
  | some a, some b => a.Perm b
  | _, _ => False

/-- The diff tree restricted to the modified paths whose key satisfies `keep`. -/
def restrictPaths (keep : String → Bool) (diffReport : Diff) : Diff :=
  { PathsDiff := diffReport.PathsDiff.map fun pathsDiff =>
      { Added := pathsDiff.Added
        Deleted := pathsDiff.Deleted
        Modified := pathsDiff.Modified.filter fun p => keep p.1 } }

/-! ## Loops -/

theorem forRange_eq_some {A E : Type} (entries : List A)
    (body : A → List E → Option (List E)) (h : A → List E)
    (hb : ∀ a ∈ entries, ∀ r, body a r = some (r ++ h a)) (result : List E) :
    forRange entries body result = some (result ++ entries.flatMap h) := by
  induction entries generalizing result with
  | nil => simp [forRange]
  | cons a rest ih =>
    have ha := hb a (List.mem_cons_self a rest) result
    have hrest : ∀ b ∈ rest, ∀ r, body b r = some (r ++ h b) :=
      fun b hmem r => hb b (List.mem_cons_of_mem a hmem) r
    simp only [forRange, ha, ih hrest, List.flatMap_cons, List.append_assoc]

theorem modifiedParameters_eq (diffReport : Diff)
    (F : ParamOccurrence → List BackwardCompatibilityError) :
    (modifiedParameters diffReport).flatMap F =
      (modifiedPaths diffReport).flatMap fun p =>
        (modifiedOperations p.2).flatMap fun o =>
          (modifiedLocations o.2).flatMap fun l =>
            l.2.flatMap fun q => F ⟨p.1, o.1, o.2, l.1, q.1, q.2⟩ := by
  simp only [modifiedParameters, pathParameters, operationParameters, List.flatMap_assoc,
    List.flatMap_map]

/-! ## The min-items check -/

theorem minItemsSetParam_eq (ext : Externals) (sources : OperationsSourcesMap)
    (path operation : String) (operationItem : MethodDiff) (paramLocation : String)
    (entry : String × ParameterDiff) (result : List BackwardCompatibilityError) :
    minItemsSetParam ext (some sources) path operation operationItem paramLocation entry result =
      some (result ++ minItemsSetOf ext sources
        ⟨path, operation, operationItem, paramLocation, entry.1, entry.2⟩) := by
  unfold minItemsSetParam minItemsSetOf minItemsSetTo
  cases hs : entry.2.SchemaDiff with
  | none => simp
  | some schemaDiff =>
    cases hm : schemaDiff.MinItemsDiff with
    | none => simp [hm]
    | some minItemsDiff =>
      cases hf : minItemsDiff.From with
      | some v => simp [hm, hf]
      | none =>
        cases ht : minItemsDiff.To with
        | none => simp [hm, hf, ht]
        | some toValue => simp [hm, hf, ht, minItemsSetError]

theorem minItemsSetCheck_eq (ext : Externals) (diffReport : Diff)
    (sources : OperationsSourcesMap) (config : BackwardCompatibilityCheckConfig) :
    RequestParameterMinItemsSetCheck ext diffReport (some sources) config =
      some ((modifiedParameters diffReport).flatMap (minItemsSetOf ext sources)) := by
  rw [modifiedParameters_eq]
  unfold RequestParameterMinItemsSetCheck modifiedPaths
  cases hp : diffReport.PathsDiff with
  | none => simp
  | some pathsDiff =>
    simp only
    rw [forRange_eq_some pathsDiff.Modified _ _ ?_ [], List.nil_append]
    intro p _ r
    unfold minItemsSetPath modifiedOperations
    cases ho : p.2.OperationsDiff with
    | none => simp
    | some operationsDiff =>
      simp only
      apply forRange_eq_some
      intro o _ r
      unfold minItemsSetOperation modifiedLocations
      cases hq : o.2.ParametersDiff with
      | none => simp
      | some parametersDiff =>
        simp only
        apply forRange_eq_some
        intro l _ r
        unfold minItemsSetLocation
        apply forRange_eq_some
        intro q _ r
        exact minItemsSetParam_eq ext sources p.1 o.1 o.2 l.1 q r

/-! ## The header check -/

theorem flatMap_ite_singleton {A B : Type} (l : List A) (p : A → Bool) (f : A → B) :
    (l.flatMap fun a => if p a then [f a] else []) = (l.filter p).map f := by
  induction l with
  | nil => simp
  | cons a rest ih =>
    by_cases hp : p a = true
    · simp [List.flatMap_cons, hp, ih]
    · simp [List.flatMap_cons, hp, ih]

theorem becameEnumError_eq (ext : Externals) (sources : OperationsSourcesMap)
    (config : BackwardCompatibilityCheckConfig) (occ : ParamOccurrence) (args : List Value)
    (hrev : occ.operationItem.Revision.isSome = true) :
    becameEnumError ext config occ.path occ.operation occ.operationItem
        (sourceOf sources occ.operationItem.Revision) args =
      some (becameEnumRecord ext sources config occ args) := by
  unfold becameEnumError becameEnumRecord operationIdOf
  cases hr : occ.operationItem.Revision with
  | none => simp [hr] at hrev
  | some revision => simp

theorem becameEnumParam_eq (ext : Externals) (sources : OperationsSourcesMap)
    (config : BackwardCompatibilityCheckConfig) (path operation : String)
    (operationItem : MethodDiff) (entry : String × ParameterDiff)
    (hrev : operationItem.Revision.isSome = true) (result : List BackwardCompatibilityError) :
    becameEnumParam ext config path operation operationItem
        (sourceOf sources operationItem.Revision) entry result =
      some (result ++ becameEnumOf ext sources config
        ⟨path, operation, operationItem, "header", entry.1, entry.2⟩) := by
  have herr := fun args => becameEnumError_eq ext sources config
    ⟨path, operation, operationItem, "header", entry.1, entry.2⟩ args hrev
  simp only at herr
  unfold becameEnumParam becameEnumOf
  cases hs : entry.2.SchemaDiff with
  | none => simp
  | some schemaDiff =>
    have hloop : ∀ r, forRange (ext.CheckModifiedPropertiesDiff schemaDiff)
        (becameEnumProcessor ext config path operation operationItem
          (sourceOf sources operationItem.Revision) entry.1) r =
        some (r ++ ((enumAddedProperties ext schemaDiff).map fun visit =>
          becameEnumRecord ext sources config
            ⟨path, operation, operationItem, "header", entry.1, entry.2⟩
            [Value.str (ext.ColorizedValue entry.1),
             Value.str (ext.ColorizedValue
               (ext.propertyFullName visit.propertyPath visit.propertyName))])) := by
      intro r
      rw [enumAddedProperties, ← flatMap_ite_singleton]
      apply forRange_eq_some
      intro visit _ r
      unfold becameEnumProcessor
      by_cases he : enumAdded visit.propertyDiff.EnumDiff = true
      · simp [he, herr]
      · simp [he]
    by_cases he : enumAdded schemaDiff.EnumDiff = true
    · simp [he, herr, hloop, becameEnumArgs, List.map_append]
    · simp [he, hloop, becameEnumArgs]

theorem becameEnumLocation_eq (ext : Externals) (sources : OperationsSourcesMap)
    (config : BackwardCompatibilityCheckConfig) (path operation : String)
    (operationItem : MethodDiff) (entry : String × ParamDiffs)
    (hrev : operationItem.Revision.isSome = true) (result : List BackwardCompatibilityError) :
    becameEnumLocation ext config path operation operationItem
        (sourceOf sources operationItem.Revision) entry result =
      some (result ++ entry.2.flatMap fun q => becameEnumOf ext sources config
        ⟨path, operation, operationItem, entry.1, q.1, q.2⟩) := by
  unfold becameEnumLocation
  by_cases hl : entry.1 = "header"
  · simp only [hl, bne_self_eq_false, Bool.false_eq_true, if_false]
    apply forRange_eq_some
    intro q _ r
    exact becameEnumParam_eq ext sources config path operation operationItem q hrev r
  · have hne : (entry.1 != "header") = true := by simpa using hl
    simp [hne, becameEnumOf]

theorem becameEnumCheck_eq (ext : Externals) (diffReport : Diff)
    (sources : OperationsSourcesMap) (config : BackwardCompatibilityCheckConfig)
    (hrev : revisionsPresent diffReport = true) :
    RequestHeaderPropertyBecameEnumCheck ext diffReport (some sources) config =
      some ((modifiedParameters diffReport).flatMap (becameEnumOf ext sources config)) := by
  rw [modifiedParameters_eq]
  unfold revisionsPresent at hrev
  rw [List.all_eq_true] at hrev
  unfold RequestHeaderPropertyBecameEnumCheck
  unfold modifiedPaths at hrev ⊢
  cases hp : diffReport.PathsDiff with
  | none => simp
  | some pathsDiff =>
    rw [hp] at hrev
    simp only at hrev ⊢
    rw [forRange_eq_some pathsDiff.Modified _ _ ?_ [], List.nil_append]
    intro p hpm r
    have hops := hrev p hpm
    rw [List.all_eq_true] at hops
    unfold becameEnumPath
    unfold modifiedOperations at hops ⊢
    cases ho : p.2.OperationsDiff with
    | none => simp
    | some operationsDiff =>
      rw [ho] at hops
      simp only at hops ⊢
      apply forRange_eq_some
      intro o hom r
      have hr := hops o hom
      unfold becameEnumOperation modifiedLocations
      cases hq : o.2.ParametersDiff with
      | none => simp
      | some parametersDiff =>
        simp only
        apply forRange_eq_some
        intro l _ r
        exact becameEnumLocation_eq ext sources config p.1 o.1 o.2 l hr r

/-! ## What a returned list holds, whatever the source map and the revisions -/

theorem forRange_of_some {A E : Type} (entries : List A)
    (body : A → List E → Option (List E)) (h : A → List E)
    (hb : ∀ a ∈ entries, ∀ r out, body a r = some out → out = r ++ h a)
    (result out : List E) (hout : forRange entries body result = some out) :
    out = result ++ entries.flatMap h := by
  induction entries generalizing result with
  | nil =>
    simp only [forRange, Option.some.injEq] at hout
    simp [hout]
  | cons a rest ih =>
    unfold forRange at hout
    cases hbody : body a result with
    | none => simp [hbody] at hout
    | some r =>
      simp only [hbody] at hout
      have hr := hb a (List.mem_cons_self a rest) result r hbody
      have hrest : ∀ b ∈ rest, ∀ r out, body b r = some out → out = r ++ h b :=
        fun b hmem r out => hb b (List.mem_cons_of_mem a hmem) r out
      rw [ih hrest r hout, hr, List.flatMap_cons, List.append_assoc]

theorem minItemsSetParam_of_some (ext : Externals) (sources : Option OperationsSourcesMap)
    (path operation : String) (operationItem : MethodDiff) (paramLocation : String)
    (entry : String × ParameterDiff) (result out : List BackwardCompatibilityError)
    (hout : minItemsSetParam ext sources path operation operationItem paramLocation entry
      result = some out) :
    out = result ++ minItemsSetOf ext (sources.getD [])
      ⟨path, operation, operationItem, paramLocation, entry.1, entry.2⟩ := by
  cases sources with
  | some m =>
    rw [minItemsSetParam_eq] at hout
    exact (Option.some.inj hout).symm
  | none =>
    unfold minItemsSetParam at hout
    unfold minItemsSetOf minItemsSetTo
    cases hs : entry.2.SchemaDiff with
    | none => simpa [hs, eq_comm] using hout
    | some schemaDiff =>
      cases hm : schemaDiff.MinItemsDiff with
      | none => simpa [hs, hm, eq_comm] using hout
      | some minItemsDiff =>
        cases hf : minItemsDiff.From with
        | some v => simpa [hs, hm, hf, eq_comm] using hout
        | none =>
          cases ht : minItemsDiff.To with
          | none => simpa [hs, hm, hf, ht, eq_comm] using hout
          | some toValue => simp [hs, hm, hf, ht] at hout

theorem minItemsSetCheck_of_some (ext : Externals) (diffReport : Diff)
    (sources : Option OperationsSourcesMap) (config : BackwardCompatibilityCheckConfig)
    (out : List BackwardCompatibilityError)
    (hout : RequestParameterMinItemsSetCheck ext diffReport sources config = some out) :
    out = (modifiedParameters diffReport).flatMap (minItemsSetOf ext (sources.getD [])) := by
  rw [modifiedParameters_eq]
  unfold RequestParameterMinItemsSetCheck at hout
  unfold modifiedPaths
  cases hp : diffReport.PathsDiff with
  | none => simpa [hp, eq_comm] using hout
  | some pathsDiff =>
    simp only [hp] at hout ⊢
    rw [← List.nil_append (List.flatMap _ _)]
    refine forRange_of_some pathsDiff.Modified _ _ ?_ [] out hout
    intro p _ r out hout
    unfold minItemsSetPath at hout
    unfold modifiedOperations
    cases ho : p.2.OperationsDiff with
    | none => simpa [ho, eq_comm] using hout
    | some operationsDiff =>
      simp only [ho] at hout ⊢
      refine forRange_of_some operationsDiff.Modified _ _ ?_ r out hout
      intro o _ r out hout
      unfold minItemsSetOperation at hout
      unfold modifiedLocations
      cases hq : o.2.ParametersDiff with
      | none => simpa [hq, eq_comm] using hout
      | some parametersDiff =>
        simp only [hq] at hout ⊢
        refine forRange_of_some parametersDiff.Modified _ _ ?_ r out hout
        intro l _ r out hout
        unfold minItemsSetLocation at hout
        refine forRange_of_some l.2 _ _ ?_ r out hout
        intro q _ r out hout
        exact minItemsSetParam_of_some ext sources p.1 o.1 o.2 l.1 q r out hout

theorem becameEnumError_of_some (ext : Externals) (sources : OperationsSourcesMap)
    (config : BackwardCompatibilityCheckConfig) (occ : ParamOccurrence) (args : List Value)
    (e : BackwardCompatibilityError)
    (he : becameEnumError ext config occ.path occ.operation occ.operationItem
        (sourceOf sources occ.operationItem.Revision) args = some e) :
    e = becameEnumRecord ext sources config occ args ∧
      occ.operationItem.Revision.isSome = true := by
  cases hr : occ.operationItem.Revision with
  | none => simp [becameEnumError, hr] at he
  | some revision =>
    rw [becameEnumError_eq ext sources config occ args (by simp [hr])] at he
    exact ⟨(Option.some.inj he).symm, by simp [hr]⟩

theorem becameEnumProcessor_of_some (ext : Externals) (sources : OperationsSourcesMap)
    (config : BackwardCompatibilityCheckConfig) (path operation : String)
    (operationItem : MethodDiff) (entry : String × ParameterDiff) (visit : PropertyVisit)
    (result out : List BackwardCompatibilityError)
    (hout : becameEnumProcessor ext config path operation operationItem
        (sourceOf sources operationItem.Revision) entry.1 visit result = some out) :
    out = result ++
      (if enumAdded visit.propertyDiff.EnumDiff then
        [becameEnumRecord ext sources config
          ⟨path, operation, operationItem, "header", entry.1, entry.2⟩
          [Value.str (ext.ColorizedValue entry.1),
           Value.str (ext.ColorizedValue
             (ext.propertyFullName visit.propertyPath visit.propertyName))]]
      else []) := by
  unfold becameEnumProcessor at hout
  by_cases hadded : enumAdded visit.propertyDiff.EnumDiff = true
  · simp only [hadded, Bool.not_true, Bool.false_eq_true, if_false] at hout
    cases herr : becameEnumError ext config path operation operationItem
        (sourceOf sources operationItem.Revision)
        [Value.str (ext.ColorizedValue entry.1),
         Value.str (ext.ColorizedValue
           (ext.propertyFullName visit.propertyPath visit.propertyName))] with
    | none => simp [herr] at hout
    | some e =>
      have hrec := (becameEnumError_of_some ext sources config
        ⟨path, operation, operationItem, "header", entry.1, entry.2⟩ _ e herr).1
      simp only [herr, Option.some.injEq] at hout
      simp [hadded, ← hout, hrec]
  · simpa [hadded, eq_comm] using hout

theorem becameEnumParam_of_some (ext : Externals) (sources : OperationsSourcesMap)
    (config : BackwardCompatibilityCheckConfig) (path operation : String)
    (operationItem : MethodDiff) (entry : String × ParameterDiff)
    (result out : List BackwardCompatibilityError)
    (hout : becameEnumParam ext config path operation operationItem
        (sourceOf sources operationItem.Revision) entry result = some out) :
    out = result ++ becameEnumOf ext sources config
      ⟨path, operation, operationItem, "header", entry.1, entry.2⟩ := by
  unfold becameEnumParam at hout
  unfold becameEnumOf
  cases hs : entry.2.SchemaDiff with
  | none => simpa [hs, eq_comm] using hout
  | some schemaDiff =>
    simp only [hs] at hout
    have hloop := fun r (h : forRange (ext.CheckModifiedPropertiesDiff schemaDiff)
        (becameEnumProcessor ext config path operation operationItem
          (sourceOf sources operationItem.Revision) entry.1) r = some out) =>
      forRange_of_some (ext.CheckModifiedPropertiesDiff schemaDiff) _ _
        (fun visit _ r out hstep => becameEnumProcessor_of_some ext sources config path
          operation operationItem entry visit r out hstep) r out h
    by_cases he : enumAdded schemaDiff.EnumDiff = true
    · simp only [he, if_true] at hout
      cases herr : becameEnumError ext config path operation operationItem
          (sourceOf sources operationItem.Revision)
          [Value.str (ext.ColorizedValue entry.1)] with
      | none => simp [herr] at hout
      | some e =>
        have hrec := (becameEnumError_of_some ext sources config
          ⟨path, operation, operationItem, "header", entry.1, entry.2⟩ _ e herr).1
        simp only [herr] at hout
        rw [hloop _ hout, flatMap_ite_singleton]
        simp [becameEnumArgs, he, hrec, enumAddedProperties]
    · simp only [he, Bool.false_eq_true, if_false] at hout
      rw [hloop _ hout, flatMap_ite_singleton]
      simp [becameEnumArgs, he, enumAddedProperties]

theorem becameEnumCheck_of_some (ext : Externals) (diffReport : Diff)
    (sources : Option OperationsSourcesMap) (config : BackwardCompatibilityCheckConfig)
    (out : List BackwardCompatibilityError)
    (hout : RequestHeaderPropertyBecameEnumCheck ext diffReport sources config = some out) :
    out = (modifiedParameters diffReport).flatMap
      (becameEnumOf ext (sources.getD []) config) := by
  rw [modifiedParameters_eq]
  unfold RequestHeaderPropertyBecameEnumCheck at hout
  unfold modifiedPaths
  cases hp : diffReport.PathsDiff with
  | none => simpa [hp, eq_comm] using hout
  | some pathsDiff =>
    simp only [hp] at hout ⊢
    rw [← List.nil_append (List.flatMap _ _)]
    refine forRange_of_some pathsDiff.Modified _ _ ?_ [] out hout
    intro p _ r out hout
    unfold becameEnumPath at hout
    unfold modifiedOperations
    cases ho : p.2.OperationsDiff with
    | none => simpa [ho, eq_comm] using hout
    | some operationsDiff =>
      simp only [ho] at hout ⊢
      refine forRange_of_some operationsDiff.Modified _ _ ?_ r out hout
      intro o _ r out hout
      unfold becameEnumOperation at hout
      unfold modifiedLocations
      cases sources with
      | none => simp at hout
      | some m =>
        cases hq : o.2.ParametersDiff with
        | none => simpa [hq, eq_comm] using hout
        | some parametersDiff =>
          simp only [hq] at hout ⊢
          refine forRange_of_some parametersDiff.Modified _ _ ?_ r out hout
          intro l _ r out hout
          unfold becameEnumLocation at hout
          by_cases hl : l.1 = "header"
          · simp only [hl, bne_self_eq_false, Bool.false_eq_true, if_false] at hout
            simp only [Option.getD_some]
            rw [hl]
            refine forRange_of_some l.2 _ _ ?_ r out hout
            intro q _ r out hout
            exact becameEnumParam_of_some ext m config p.1 o.1 o.2 q r out hout
          · have hne : (l.1 != "header") = true := by simpa using hl
            simp only [hne, if_true, Option.some.injEq] at hout
            simp [hne, becameEnumOf, hout]

/-! ## Membership in the findings of one parameter -/

theorem mem_minItemsSetOf (ext : Externals) (sources : OperationsSourcesMap)
    (occ : ParamOccurrence) (f : BackwardCompatibilityError)
    (hf : f ∈ minItemsSetOf ext sources occ) :
    ∃ toValue, minItemsSetTo occ.paramDiff = some toValue ∧
      f = minItemsSetError ext sources occ toValue := by
  unfold minItemsSetOf at hf
  cases hto : minItemsSetTo occ.paramDiff with
  | none => simp [hto] at hf
  | some toValue =>
    simp only [hto, List.mem_singleton] at hf
    exact ⟨toValue, rfl, hf⟩

theorem mem_becameEnumOf (ext : Externals) (sources : OperationsSourcesMap)
    (config : BackwardCompatibilityCheckConfig) (occ : ParamOccurrence)
    (f : BackwardCompatibilityError) (hf : f ∈ becameEnumOf ext sources config occ) :
    occ.paramLocation = "header" ∧
      ∃ args, f = becameEnumRecord ext sources config occ args := by
  unfold becameEnumOf at hf
  by_cases hl : occ.paramLocation = "header"
  · refine ⟨hl, ?_⟩
    cases hs : occ.paramDiff.SchemaDiff with
    | none => simp [hl, hs] at hf
    | some schemaDiff =>
      simp only [hl, hs, bne_self_eq_false, Bool.false_eq_true, if_false,
        List.mem_map] at hf
      obtain ⟨args, _, hargs⟩ := hf
      exact ⟨args, hargs.symm⟩
  · have hne : (occ.paramLocation != "header") = true := by simpa using hl
    simp [hne] at hf

theorem becameEnumOf_ne_nil_iff (ext : Externals) (sources : OperationsSourcesMap)
    (config : BackwardCompatibilityCheckConfig) (occ : ParamOccurrence) :
    becameEnumOf ext sources config occ ≠ [] ↔
      occ.paramLocation = "header" ∧
        ∃ schemaDiff, occ.paramDiff.SchemaDiff = some schemaDiff ∧
          (enumAdded schemaDiff.EnumDiff = true ∨
            ∃ visit ∈ ext.CheckModifiedPropertiesDiff schemaDiff,
              enumAdded visit.propertyDiff.EnumDiff = true) := by
  unfold becameEnumOf
  by_cases hl : occ.paramLocation = "header"
  · cases hs : occ.paramDiff.SchemaDiff with
    | none => simp [hl]
    | some schemaDiff =>
      by_cases he : enumAdded schemaDiff.EnumDiff = true
      · simp [hl, he, becameEnumArgs]
      · simp [hl, he, becameEnumArgs, enumAddedProperties, List.filter_eq_nil_iff]
  · have hne : (occ.paramLocation != "header") = true := by simpa using hl
    simp [hne, hl]

/-! ## The claims -/

/-- C1: for a present source map, `RequestParameterMinItemsSetCheck` returns, in traversal
order, exactly one finding for each modified parameter (of any location) of each modified
operation of each modified path whose schema diff has a `MinItemsDiff` with `From` absent and
`To` present, and no other finding: a parameter whose `minItems` changed from one value to
another, whose `minItems` was removed, or that has no schema diff or no `MinItemsDiff` yields
none. -/
theorem minItemsSetCheck_one_finding_per_set_parameter (ext : Externals) (diffReport : Diff)
    (sources : OperationsSourcesMap) (config : BackwardCompatibilityCheckConfig) :
    RequestParameterMinItemsSetCheck ext diffReport (some sources) config =
        some ((modifiedParameters diffReport).filterMap fun occ =>
          (minItemsSetTo occ.paramDiff).map (minItemsSetError ext sources occ)) ∧
      (∀ paramDiff : ParameterDiff, ∀ toValue : Value,
        minItemsSetTo paramDiff = some toValue ↔
          ∃ schemaDiff minItemsDiff, paramDiff.SchemaDiff = some schemaDiff ∧
            schemaDiff.MinItemsDiff = some minItemsDiff ∧
            minItemsDiff.From = none ∧ minItemsDiff.To = some toValue) := by
  constructor
  · rw [minItemsSetCheck_eq]
    congr 1
    induction modifiedParameters diffReport with
    | nil => simp
    | cons occ rest ih =>
      rw [List.flatMap_cons, ih, List.filterMap_cons]
      unfold minItemsSetOf
      cases minItemsSetTo occ.paramDiff <;> simp
  · intro paramDiff toValue
    unfold minItemsSetTo
    cases hs : paramDiff.SchemaDiff with
    | none => simp
    | some schemaDiff =>
      cases hm : schemaDiff.MinItemsDiff with
      | none => simp [hm]
      | some minItemsDiff =>
        cases hf : minItemsDiff.From with
        | some v => simp [hm, hf]
        | none => simp [hm, hf]

/-- C2: when every modified operation has its revision operation and the source map is
present, `RequestHeaderPropertyBecameEnumCheck` returns a list, and the list is non-empty if
and only if some modified parameter in location "header" of some modified operation of some
modified path has a schema diff whose own enum diff has `EnumAdded` set, or one of whose
modified properties, as visited by `CheckModifiedPropertiesDiff`, has an enum diff with
`EnumAdded` set. A header parameter none of whose diffs has `EnumAdded` set, such as one that
only gained an optional property, yields no finding. -/
theorem becameEnumCheck_nonempty_iff (ext : Externals) (diffReport : Diff)
    (sources : OperationsSourcesMap) (config : BackwardCompatibilityCheckConfig)
    (hrev : revisionsPresent diffReport = true) :
    ∃ findings, RequestHeaderPropertyBecameEnumCheck ext diffReport (some sources) config =
        some findings ∧
      (findings ≠ [] ↔
        ∃ occ ∈ modifiedParameters diffReport, occ.paramLocation = "header" ∧
          ∃ schemaDiff, occ.paramDiff.SchemaDiff = some schemaDiff ∧
            (enumAdded schemaDiff.EnumDiff = true ∨
              ∃ visit ∈ ext.CheckModifiedPropertiesDiff schemaDiff,
                enumAdded visit.propertyDiff.EnumDiff = true)) := by
  refine ⟨_, becameEnumCheck_eq ext diffReport sources config hrev, ?_⟩
  rw [Ne, List.flatMap_eq_nil_iff]
  constructor
  · intro h
    by_contra hno
    apply h
    intro occ hocc
    by_contra hne
    exact hno ⟨occ, hocc, (becameEnumOf_ne_nil_iff ext sources config occ).1 hne⟩
  · rintro ⟨occ, hocc, hright⟩ hall
    exact (becameEnumOf_ne_nil_iff ext sources config occ).2 hright (hall occ hocc)

/-- Witness of C2 on the sample diff tree. -/
theorem becameEnumCheck_nonempty_iff_witness :
    revisionsPresent sampleDiff = true ∧
      ∃ findings, RequestHeaderPropertyBecameEnumCheck sampleExternals sampleDiff
          (some sampleSources) sampleConfig = some findings ∧
        (findings ≠ [] ↔
          ∃ occ ∈ modifiedParameters sampleDiff, occ.paramLocation = "header" ∧
            ∃ schemaDiff, occ.paramDiff.SchemaDiff = some schemaDiff ∧
              (enumAdded schemaDiff.EnumDiff = true ∨
                ∃ visit ∈ sampleExternals.CheckModifiedPropertiesDiff schemaDiff,
                  enumAdded visit.propertyDiff.EnumDiff = true)) :=
  ⟨by decide, becameEnumCheck_nonempty_iff sampleExternals sampleDiff sampleSources
    sampleConfig (by decide)⟩

/-- C3: when the only change is that the enum of one header parameter gains a value (base
`[a, b]`, revision `[a, b, c]` with `c` a new value) and the parameter has no modified
properties to visit, `RequestHeaderPropertyBecameEnumCheck` returns exactly one finding, the
parameter-level finding of that parameter. -/
theorem becameEnumCheck_enum_gained_value (ext : Externals) (sources : OperationsSourcesMap)
    (config : BackwardCompatibilityCheckConfig) (path operation paramName : String)
    (baseOperation revisionOperation : Operation) (a b c : Value)
    (hca : c ≠ a) (hcb : c ≠ b)
    (hvisit : ext.CheckModifiedPropertiesDiff
      (SchemaDiff.mk (getEnumDiff [a, b] [a, b, c]) none none) = []) :
    RequestHeaderPropertyBecameEnumCheck ext
        (headerEnumChange path operation paramName baseOperation revisionOperation
          [a, b] [a, b, c]) (some sources) config =
      some [{ Id := "request-header-property-became-enum"
              Level := Level.ERR
              Text := ext.Sprintf (config.i18n "request-header-property-became-enum")
                [Value.str (ext.ColorizedValue paramName)]
              Operation := operation
              OperationId := revisionOperation.OperationID
              Path := path
              Source := sourceOf sources (some revisionOperation)
              Comment := ""
              ToDo := "" }] := by
  have henum : getEnumDiff [a, b] [a, b, c] =
      some { EnumAdded := true, EnumRemoved := false } := by
    simp [getEnumDiff, List.filter, hca, hcb]
  rw [henum] at hvisit
  rw [becameEnumCheck_eq _ _ _ _ (by simp [revisionsPresent, modifiedPaths, headerEnumChange,
    diffOf, pathDiffOf, methodDiffOf, modifiedOperations])]
  simp [modifiedParameters, modifiedPaths, headerEnumChange, diffOf, pathDiffOf, methodDiffOf,
    pathParameters, modifiedOperations, operationParameters, modifiedLocations, becameEnumOf,
    becameEnumArgs, henum, hvisit, enumAddedProperties, enumAdded, SchemaDiff.EnumDiff,
    becameEnumRecord, operationIdOf, requestHeaderPropertyBecameEnumId]

/-- Witness of C3: base `["a", "b"]`, revision `["a", "b", "c"]`. -/
theorem becameEnumCheck_enum_gained_value_witness :
    Value.str "c" ≠ Value.str "a" ∧ Value.str "c" ≠ Value.str "b" ∧
      RequestHeaderPropertyBecameEnumCheck sampleExternals
          (headerEnumChange "/items" "GET" "X-Kind" sampleBase sampleRevision
            [Value.str "a", Value.str "b"] [Value.str "a", Value.str "b", Value.str "c"])
          (some sampleSources) sampleConfig =
        some [{ Id := "request-header-property-became-enum"
                Level := Level.ERR
                Text := sampleExternals.Sprintf
                  (sampleConfig.i18n "request-header-property-became-enum")
                  [Value.str (sampleExternals.ColorizedValue "X-Kind")]
                Operation := "GET"
                OperationId := sampleRevision.OperationID
                Path := "/items"
                Source := sourceOf sampleSources (some sampleRevision)
                Comment := ""
                ToDo := "" }] :=
  ⟨by decide, by decide,
    becameEnumCheck_enum_gained_value sampleExternals sampleSources sampleConfig "/items" "GET"
      "X-Kind" sampleBase sampleRevision (Value.str "a") (Value.str "b") (Value.str "c")
      (by decide) (by decide) rfl⟩

/-- C4: for the empty diff tree (`PathsDiff` absent) both checks return the empty list of
findings, for every source map, present or not, and every config. -/
theorem checks_empty_on_empty_diff (ext : Externals)
    (sources : Option OperationsSourcesMap) (config : BackwardCompatibilityCheckConfig) :
    RequestHeaderPropertyBecameEnumCheck ext { PathsDiff := none } sources config = some [] ∧
      RequestParameterMinItemsSetCheck ext { PathsDiff := none } sources config = some [] :=
  ⟨rfl, rfl⟩
/-- C5, as the code has it: with the source map present `RequestParameterMinItemsSetCheck`
always returns, and `RequestHeaderPropertyBecameEnumCheck` returns on every diff tree whose
modified operations all have a revision operation. The list returned is the concatenation,
over all modified parameters, of the findings of each: an absent `PathsDiff`,
`OperationsDiff` or `ParametersDiff` holds no parameter, a parameter with an absent
`SchemaDiff` yields nothing in either check, an absent `MinItemsDiff` or `EnumDiff` yields no
finding for it, and an absent source-map entry leaves the finding with the empty `Source`. -/
theorem checks_return_with_sources_and_revisions (ext : Externals) (diffReport : Diff)
    (sources : OperationsSourcesMap) (config : BackwardCompatibilityCheckConfig) :
    RequestParameterMinItemsSetCheck ext diffReport (some sources) config =
        some ((modifiedParameters diffReport).flatMap (minItemsSetOf ext sources)) ∧
      (revisionsPresent diffReport = true →
        RequestHeaderPropertyBecameEnumCheck ext diffReport (some sources) config =
          some ((modifiedParameters diffReport).flatMap (becameEnumOf ext sources config))) ∧
      (diffReport.PathsDiff = none → modifiedParameters diffReport = []) ∧
      (∀ path pathItem, pathItem.OperationsDiff = none →
        pathParameters (path, pathItem) = []) ∧
      (∀ path operation operationItem, operationItem.ParametersDiff = none →
        operationParameters path (operation, operationItem) = []) ∧
      (∀ occ : ParamOccurrence, occ.paramDiff.SchemaDiff = none →
        minItemsSetOf ext sources occ = [] ∧ becameEnumOf ext sources config occ = []) ∧
      (∀ occ : ParamOccurrence, ∀ schemaDiff, occ.paramDiff.SchemaDiff = some schemaDiff →
        schemaDiff.MinItemsDiff = none → minItemsSetOf ext sources occ = []) ∧
      (∀ occ : ParamOccurrence, ∀ schemaDiff, occ.paramDiff.SchemaDiff = some schemaDiff →
        schemaDiff.EnumDiff = none →
        becameEnumOf ext sources config occ =
          if occ.paramLocation != "header" then []
          else (enumAddedProperties ext schemaDiff).map fun visit =>
            becameEnumRecord ext sources config occ
              [Value.str (ext.ColorizedValue occ.paramName),
               Value.str (ext.ColorizedValue
                 (ext.propertyFullName visit.propertyPath visit.propertyName))]) ∧
      (∀ operation : Option Operation, sources.lookup (operationKey operation) = none →
        sourceOf sources operation = "") := by
  refine ⟨minItemsSetCheck_eq ext diffReport sources config,
    becameEnumCheck_eq ext diffReport sources config, ?_, ?_, ?_, ?_, ?_, ?_, ?_⟩
  · intro h
    simp [modifiedParameters, modifiedPaths, h]
  · intro path pathItem h
    simp [pathParameters, modifiedOperations, h]
  · intro path operation operationItem h
    simp [operationParameters, modifiedLocations, h]
  · intro occ h
    constructor
    · simp [minItemsSetOf, minItemsSetTo, h]
    · unfold becameEnumOf
      split <;> simp [h]
  · intro occ schemaDiff hs hm
    simp [minItemsSetOf, minItemsSetTo, hs, hm]
  · intro occ schemaDiff hs he
    unfold becameEnumOf
    split
    · rfl
    · simp [hs, becameEnumArgs, he, enumAdded, List.map_map, Function.comp_def]
  · intro operation h
    simp [sourceOf, h]

/-- Witness of C5 on the sample diff tree, whose modified operation has a revision. -/
theorem checks_return_with_sources_and_revisions_witness :
    revisionsPresent sampleDiff = true ∧
      RequestHeaderPropertyBecameEnumCheck sampleExternals sampleDiff (some sampleSources)
          sampleConfig =
        some ((modifiedParameters sampleDiff).flatMap
          (becameEnumOf sampleExternals sampleSources sampleConfig)) :=
  ⟨by decide,
    (checks_return_with_sources_and_revisions sampleExternals sampleDiff sampleSources
      sampleConfig).2.1 (by decide)⟩

/-- C5 as stated fails: the header check panics when the revision operation of a modified
operation it reports on is absent, and when the source map is absent; the min-items check
panics when the source map is absent and a parameter qualifies. -/
theorem checks_fail_on_absent_revision_or_sources :
    RequestHeaderPropertyBecameEnumCheck sampleExternals sampleDiffNoRevision
        (some sampleSources) sampleConfig = none ∧
      RequestHeaderPropertyBecameEnumCheck sampleExternals sampleDiff none sampleConfig = none ∧
      RequestParameterMinItemsSetCheck sampleExternals sampleDiff none sampleConfig = none := by
  decide

/-- C6: every finding returned by `RequestHeaderPropertyBecameEnumCheck` has Id
"request-header-property-became-enum", every finding returned by
`RequestParameterMinItemsSetCheck` has Id "request-parameter-min-items-set", and the two Ids
differ. -/
theorem findings_carry_rule_id (ext : Externals) (diffReport : Diff)
    (sources : Option OperationsSourcesMap) (config : BackwardCompatibilityCheckConfig) :
    (∀ findings, RequestHeaderPropertyBecameEnumCheck ext diffReport sources config =
        some findings → ∀ f ∈ findings, f.Id = "request-header-property-became-enum") ∧
      (∀ findings, RequestParameterMinItemsSetCheck ext diffReport sources config =
        some findings → ∀ f ∈ findings, f.Id = "request-parameter-min-items-set") ∧
      "request-header-property-became-enum" ≠ "request-parameter-min-items-set" := by
  refine ⟨?_, ?_, by decide⟩
  · intro findings hfs f hf
    rw [becameEnumCheck_of_some ext diffReport sources config findings hfs,
      List.mem_flatMap] at hf
    obtain ⟨occ, _, hocc⟩ := hf
    obtain ⟨_, args, hrec⟩ := mem_becameEnumOf ext _ config occ f hocc
    rw [hrec]
    rfl
  · intro findings hfs f hf
    rw [minItemsSetCheck_of_some ext diffReport sources config findings hfs,
      List.mem_flatMap] at hf
    obtain ⟨occ, _, hocc⟩ := hf
    obtain ⟨toValue, _, hrec⟩ := mem_minItemsSetOf ext _ occ f hocc
    rw [hrec]
    rfl

/-- Witness of C6 on the sample diff tree, where each check returns findings. -/
theorem findings_carry_rule_id_witness :
    (∀ f ∈ (RequestHeaderPropertyBecameEnumCheck sampleExternals sampleDiff
        (some sampleSources) sampleConfig).getD [],
        f.Id = "request-header-property-became-enum") ∧
      (∀ f ∈ (RequestParameterMinItemsSetCheck sampleExternals sampleDiff
        (some sampleSources) sampleConfig).getD [],
        f.Id = "request-parameter-min-items-set") ∧
      (RequestHeaderPropertyBecameEnumCheck sampleExternals sampleDiff
        (some sampleSources) sampleConfig).getD [] ≠ [] ∧
      (RequestParameterMinItemsSetCheck sampleExternals sampleDiff
        (some sampleSources) sampleConfig).getD [] ≠ [] :=
  ⟨(findings_carry_rule_id sampleExternals sampleDiff (some sampleSources) sampleConfig).1
      _ (by decide),
    (findings_carry_rule_id sampleExternals sampleDiff (some sampleSources) sampleConfig).2.1
      _ rfl,
    by decide, by decide⟩

/-- C7: for every diff tree, source map and config, every finding returned by
`RequestHeaderPropertyBecameEnumCheck` has Level ERR and every finding returned by
`RequestParameterMinItemsSetCheck` has Level WARN. -/
theorem findings_carry_default_level (ext : Externals) (diffReport : Diff)
    (sources : Option OperationsSourcesMap) (config : BackwardCompatibilityCheckConfig) :
    (∀ findings, RequestHeaderPropertyBecameEnumCheck ext diffReport sources config =
        some findings → ∀ f ∈ findings, f.Level = Level.ERR) ∧
      (∀ findings, RequestParameterMinItemsSetCheck ext diffReport sources config =
        some findings → ∀ f ∈ findings, f.Level = Level.WARN) := by
  refine ⟨?_, ?_⟩
  · intro findings hfs f hf
    rw [becameEnumCheck_of_some ext diffReport sources config findings hfs,
      List.mem_flatMap] at hf
    obtain ⟨occ, _, hocc⟩ := hf
    obtain ⟨_, args, hrec⟩ := mem_becameEnumOf ext _ config occ f hocc
    rw [hrec]
    rfl
  · intro findings hfs f hf
    rw [minItemsSetCheck_of_some ext diffReport sources config findings hfs,
      List.mem_flatMap] at hf
    obtain ⟨occ, _, hocc⟩ := hf
    obtain ⟨toValue, _, hrec⟩ := mem_minItemsSetOf ext _ occ f hocc
    rw [hrec]
    rfl

/-- Witness of C7 on the sample diff tree, where each check returns findings. -/
theorem findings_carry_default_level_witness :
    (∀ f ∈ (RequestHeaderPropertyBecameEnumCheck sampleExternals sampleDiff
        (some sampleSources) sampleConfig).getD [], f.Level = Level.ERR) ∧
      (∀ f ∈ (RequestParameterMinItemsSetCheck sampleExternals sampleDiff
        (some sampleSources) sampleConfig).getD [], f.Level = Level.WARN) ∧
      (RequestHeaderPropertyBecameEnumCheck sampleExternals sampleDiff
        (some sampleSources) sampleConfig).getD [] ≠ [] ∧
      (RequestParameterMinItemsSetCheck sampleExternals sampleDiff
        (some sampleSources) sampleConfig).getD [] ≠ [] :=
  ⟨(findings_carry_default_level sampleExternals sampleDiff (some sampleSources)
      sampleConfig).1 _ (by decide),
    (findings_carry_default_level sampleExternals sampleDiff (some sampleSources)
      sampleConfig).2 _ rfl,
    by decide, by decide⟩

/-- C8 at the sample diff tree: the finding of `RequestParameterMinItemsSetCheck` for the
operation `GET /items`, whose revision has OperationID "listItems", has the empty
OperationId, while the findings of `RequestHeaderPropertyBecameEnumCheck` for the same
operation carry "listItems". -/
theorem minItemsSetCheck_leaves_operation_id_empty :
    sampleRevision.OperationID = "listItems" ∧
      (RequestParameterMinItemsSetCheck sampleExternals sampleDiff (some sampleSources)
        sampleConfig).map (List.map fun f => (f.Path, f.Operation, f.OperationId)) =
        some [("/items", "GET", "")] ∧
      (RequestHeaderPropertyBecameEnumCheck sampleExternals sampleDiff (some sampleSources)
        sampleConfig).map (List.map fun f => (f.Path, f.Operation, f.OperationId)) =
        some [("/items", "GET", "listItems"), ("/items", "GET", "listItems")] := by
  decide

/-- C9: with the source map present, every finding returned by either check belongs to a
modified parameter of a modified operation of a modified path, carries the keys of that path
and operation, and its Source is the entry of the source map for the revision operation of
that modified operation, the empty string when the map has no entry for it. -/
theorem findings_source_is_map_entry (ext : Externals) (diffReport : Diff)
    (sources : OperationsSourcesMap) (config : BackwardCompatibilityCheckConfig) :
    (∀ findings, RequestHeaderPropertyBecameEnumCheck ext diffReport (some sources) config =
        some findings → ∀ f ∈ findings, ∃ occ ∈ modifiedParameters diffReport,
          f.Path = occ.path ∧ f.Operation = occ.operation ∧
          f.Source = (sources.lookup (operationKey occ.operationItem.Revision)).getD "") ∧
      (∀ findings, RequestParameterMinItemsSetCheck ext diffReport (some sources) config =
        some findings → ∀ f ∈ findings, ∃ occ ∈ modifiedParameters diffReport,
          f.Path = occ.path ∧ f.Operation = occ.operation ∧
          f.Source = (sources.lookup (operationKey occ.operationItem.Revision)).getD "") := by
  refine ⟨?_, ?_⟩
  · intro findings hfs f hf
    rw [becameEnumCheck_of_some ext diffReport (some sources) config findings hfs,
      List.mem_flatMap] at hf
    obtain ⟨occ, hmem, hocc⟩ := hf
    obtain ⟨_, args, hrec⟩ := mem_becameEnumOf ext _ config occ f hocc
    exact ⟨occ, hmem, by rw [hrec]; rfl, by rw [hrec]; rfl, by rw [hrec]; rfl⟩
  · intro findings hfs f hf
    rw [minItemsSetCheck_of_some ext diffReport (some sources) config findings hfs,
      List.mem_flatMap] at hf
    obtain ⟨occ, hmem, hocc⟩ := hf
    obtain ⟨toValue, _, hrec⟩ := mem_minItemsSetOf ext _ occ f hocc
    exact ⟨occ, hmem, by rw [hrec]; rfl, by rw [hrec]; rfl, by rw [hrec]; rfl⟩

/-- Witness of C9 on the sample diff tree, where each check returns findings. -/
theorem findings_source_is_map_entry_witness :
    (∀ f ∈ (RequestHeaderPropertyBecameEnumCheck sampleExternals sampleDiff
        (some sampleSources) sampleConfig).getD [], ∃ occ ∈ modifiedParameters sampleDiff,
          f.Path = occ.path ∧ f.Operation = occ.operation ∧
          f.Source =
            (sampleSources.lookup (operationKey occ.operationItem.Revision)).getD "") ∧
      (∀ f ∈ (RequestParameterMinItemsSetCheck sampleExternals sampleDiff
        (some sampleSources) sampleConfig).getD [], ∃ occ ∈ modifiedParameters sampleDiff,
          f.Path = occ.path ∧ f.Operation = occ.operation ∧
          f.Source =
            (sampleSources.lookup (operationKey occ.operationItem.Revision)).getD "") ∧
      (RequestHeaderPropertyBecameEnumCheck sampleExternals sampleDiff
        (some sampleSources) sampleConfig).getD [] ≠ [] ∧
      (RequestParameterMinItemsSetCheck sampleExternals sampleDiff
        (some sampleSources) sampleConfig).getD [] ≠ [] :=
  ⟨(findings_source_is_map_entry sampleExternals sampleDiff sampleSources sampleConfig).1
      _ (by decide),
    (findings_source_is_map_entry sampleExternals sampleDiff sampleSources sampleConfig).2
      _ rfl,
    by decide, by decide⟩
/-! ## Traversal order -/

theorem reorderedEntries_nil {A : Type} (R : A → A → Prop) :
    reorderedEntries R ([] : List (String × A)) [] :=
  ⟨[], List.Perm.refl _, List.Forall₂.nil⟩

theorem reorderedEntries_refl {A : Type} (R : A → A → Prop) (hR : ∀ a, R a a)
    (l : List (String × A)) : reorderedEntries R l l := by
  refine ⟨l, List.Perm.refl _, ?_⟩
  induction l with
  | nil => exact List.Forall₂.nil
  | cons x rest ih => exact List.Forall₂.cons ⟨rfl, hR x.2⟩ ih

theorem reorderedEntries_of_perm {A : Type} (R : A → A → Prop) (hR : ∀ a, R a a)
    (first second : List (String × A)) (h : first.Perm second) :
    reorderedEntries R first second := by
  obtain ⟨middle, hperm, hall⟩ := reorderedEntries_refl R hR second
  exact ⟨middle, h.trans hperm, hall⟩

theorem reorderedEntries_mem {A : Type} (R : A → A → Prop) (first second : List (String × A))
    (h : reorderedEntries R first second) :
    ∀ y ∈ second, ∃ x ∈ first, x.1 = y.1 ∧ R x.2 y.2 := by
  obtain ⟨middle, hperm, hall⟩ := h
  intro y hy
  have hmid : ∃ x ∈ middle, x.1 = y.1 ∧ R x.2 y.2 := by
    clear hperm
    induction hall with
    | nil => simp at hy
    | cons hxy _ ih =>
      rcases List.mem_cons.1 hy with rfl | hy
      · exact ⟨_, List.mem_cons_self _ _, hxy⟩
      · obtain ⟨x, hx, hrel⟩ := ih hy
        exact ⟨x, List.mem_cons_of_mem _ hx, hrel⟩
  obtain ⟨x, hx, hrel⟩ := hmid
  exact ⟨x, hperm.mem_iff.2 hx, hrel⟩

theorem flatMap_perm_of_reordered {A E : Type} (R : A → A → Prop)
    (first second : List (String × A)) (G1 G2 : String × A → List E)
    (h : reorderedEntries R first second)
    (hG : ∀ x y, x.1 = y.1 → R x.2 y.2 → (G1 x).Perm (G2 y)) :
    (first.flatMap G1).Perm (second.flatMap G2) := by
  obtain ⟨middle, hperm, hall⟩ := h
  refine (List.Perm.flatMap_right G1 hperm).trans ?_
  clear hperm
  induction hall with
  | nil => simp
  | cons hxy _ ih =>
    rw [List.flatMap_cons, List.flatMap_cons]
    exact List.Perm.append (hG _ _ hxy.1 hxy.2) ih

theorem modifiedPaths_reordered (a b : Diff) (h : reorderedDiff a b) :
    reorderedEntries reorderedPathDiff (modifiedPaths a) (modifiedPaths b) := by
  unfold reorderedDiff at h
  unfold modifiedPaths
  cases ha : a.PathsDiff <;> cases hb : b.PathsDiff <;> rw [ha, hb] at h
  · exact reorderedEntries_nil _
  · exact h.elim
  · exact h.elim
  · exact h.2.2

theorem modifiedOperations_reordered (a b : PathDiff) (h : reorderedPathDiff a b) :
    reorderedEntries reorderedMethodDiff (modifiedOperations a) (modifiedOperations b) := by
  unfold reorderedPathDiff at h
  unfold modifiedOperations
  cases ha : a.OperationsDiff <;> cases hb : b.OperationsDiff <;> rw [ha, hb] at h
  · exact reorderedEntries_nil _
  · exact h.elim
  · exact h.elim
  · exact h.2.2

theorem modifiedLocations_reordered (a b : MethodDiff) (h : reorderedMethodDiff a b) :
    reorderedEntries (reorderedEntries Eq) (modifiedLocations a) (modifiedLocations b) := by
  have hp := h.2.2
  unfold modifiedLocations
  cases ha : a.ParametersDiff <;> cases hb : b.ParametersDiff <;> rw [ha, hb] at hp
  · exact reorderedEntries_nil _
  · exact hp.elim
  · exact hp.elim
  · exact hp.2.2

theorem findings_perm_of_reordered (F : ParamOccurrence → List BackwardCompatibilityError)
    (hF : ∀ path operation item1 item2 paramLocation paramName paramDiff,
      item1.Revision = item2.Revision →
      F ⟨path, operation, item1, paramLocation, paramName, paramDiff⟩ =
        F ⟨path, operation, item2, paramLocation, paramName, paramDiff⟩)
    (a b : Diff) (h : reorderedDiff a b) :
    ((modifiedParameters a).flatMap F).Perm ((modifiedParameters b).flatMap F) := by
  rw [modifiedParameters_eq, modifiedParameters_eq]
  refine flatMap_perm_of_reordered _ _ _ _ _ (modifiedPaths_reordered a b h) ?_
  intro p1 p2 hp hpd
  refine flatMap_perm_of_reordered _ _ _ _ _ (modifiedOperations_reordered _ _ hpd) ?_
  intro o1 o2 ho hod
  refine flatMap_perm_of_reordered _ _ _ _ _ (modifiedLocations_reordered _ _ hod) ?_
  intro l1 l2 hl hld
  refine flatMap_perm_of_reordered _ _ _ _ _ hld ?_
  intro q1 q2 hq hqd
  rw [hp, ho, hl, hq, hqd, hF p2.1 o2.1 o1.2 o2.2 l2.1 q2.1 q2.2 hod.2.1]

theorem revisionsPresent_iff (diffReport : Diff) :
    revisionsPresent diffReport = true ↔
      ∀ p ∈ modifiedPaths diffReport, ∀ o ∈ modifiedOperations p.2,
        o.2.Revision.isSome = true := by
  simp [revisionsPresent, List.all_eq_true]

theorem revisionsPresent_of_reordered (a b : Diff) (h : reorderedDiff a b)
    (ha : revisionsPresent a = true) : revisionsPresent b = true := by
  rw [revisionsPresent_iff] at ha ⊢
  intro p2 hp2 o2 ho2
  obtain ⟨p1, hp1, _, hpd⟩ := reorderedEntries_mem _ _ _ (modifiedPaths_reordered a b h) p2 hp2
  obtain ⟨o1, ho1, _, hod⟩ :=
    reorderedEntries_mem _ _ _ (modifiedOperations_reordered _ _ hpd) o2 ho2
  rw [← hod.2.1]
  exact ha p1 hp1 o1 ho1

theorem minItemsSetOf_revision (ext : Externals) (sources : OperationsSourcesMap)
    (path operation : String) (item1 item2 : MethodDiff) (paramLocation paramName : String)
    (paramDiff : ParameterDiff) (h : item1.Revision = item2.Revision) :
    minItemsSetOf ext sources
        ⟨path, operation, item1, paramLocation, paramName, paramDiff⟩ =
      minItemsSetOf ext sources
        ⟨path, operation, item2, paramLocation, paramName, paramDiff⟩ := by
  simp [minItemsSetOf, minItemsSetError, h]

theorem becameEnumOf_revision (ext : Externals) (sources : OperationsSourcesMap)
    (config : BackwardCompatibilityCheckConfig)
    (path operation : String) (item1 item2 : MethodDiff) (paramLocation paramName : String)
    (paramDiff : ParameterDiff) (h : item1.Revision = item2.Revision) :
    becameEnumOf ext sources config
        ⟨path, operation, item1, paramLocation, paramName, paramDiff⟩ =
      becameEnumOf ext sources config
        ⟨path, operation, item2, paramLocation, paramName, paramDiff⟩ := by
  have hrec : becameEnumRecord ext sources config
        ⟨path, operation, item1, paramLocation, paramName, paramDiff⟩ =
      becameEnumRecord ext sources config
        ⟨path, operation, item2, paramLocation, paramName, paramDiff⟩ := by
    funext args
    simp [becameEnumRecord, operationIdOf, h]
  simp [becameEnumOf, hrec]

theorem sample_paths_reordered :
    reorderedDiff (diffOf [sampleItemsPath, sampleUsersPath])
      (diffOf [sampleUsersPath, sampleItemsPath]) := by
  have hparams : ∀ a : ParametersDiff, reorderedParametersDiff a a := fun a =>
    ⟨rfl, rfl, reorderedEntries_refl _ (reorderedEntries_refl _ (fun _ => rfl)) _⟩
  have hmethod : ∀ a : MethodDiff, reorderedMethodDiff a a := by
    intro a
    refine ⟨rfl, rfl, ?_⟩
    cases h : a.ParametersDiff with
    | none => exact trivial
    | some parametersDiff => exact hparams parametersDiff
  have hpath : ∀ a : PathDiff, reorderedPathDiff a a := by
    intro a
    unfold reorderedPathDiff
    cases h : a.OperationsDiff with
    | none => exact trivial
    | some operationsDiff => exact ⟨rfl, rfl, reorderedEntries_refl _ hmethod _⟩
  exact ⟨rfl, rfl, reorderedEntries_of_perm _ hpath _ _ (List.Perm.swap _ _ _)⟩

/-- C10, as the code has it: the findings come out in the order in which the maps of modified
paths, operations, parameter locations and parameter names are traversed. With the source map
present and a revision for every modified operation, two runs of either check on the same
diff tree, source map and config that traverse the maps in different orders both return, and
return the same findings, the one list being a permutation of the other. -/
theorem findings_same_up_to_traversal_order (ext : Externals) (first second : Diff)
    (sources : OperationsSourcesMap) (config : BackwardCompatibilityCheckConfig)
    (hsame : reorderedDiff first second) (hrev : revisionsPresent first = true) :
    (∃ findings1 findings2,
        RequestHeaderPropertyBecameEnumCheck ext first (some sources) config =
          some findings1 ∧
        RequestHeaderPropertyBecameEnumCheck ext second (some sources) config =
          some findings2 ∧
        findings1.Perm findings2) ∧
      (∃ findings1 findings2,
        RequestParameterMinItemsSetCheck ext first (some sources) config = some findings1 ∧
        RequestParameterMinItemsSetCheck ext second (some sources) config = some findings2 ∧
        findings1.Perm findings2) :=
  ⟨⟨_, _, becameEnumCheck_eq ext first sources config hrev,
      becameEnumCheck_eq ext second sources config
        (revisionsPresent_of_reordered first second hsame hrev),
      findings_perm_of_reordered _ (becameEnumOf_revision ext sources config) first second
        hsame⟩,
    ⟨_, _, minItemsSetCheck_eq ext first sources config,
      minItemsSetCheck_eq ext second sources config,
      findings_perm_of_reordered _ (minItemsSetOf_revision ext sources) first second hsame⟩⟩

/-- Witness of C10: the sample paths `/items` and `/users` traversed in the two orders. -/
theorem findings_same_up_to_traversal_order_witness :
    revisionsPresent (diffOf [sampleItemsPath, sampleUsersPath]) = true ∧
      (∃ findings1 findings2,
        RequestHeaderPropertyBecameEnumCheck sampleExternals
          (diffOf [sampleItemsPath, sampleUsersPath]) (some sampleSources) sampleConfig =
          some findings1 ∧
        RequestHeaderPropertyBecameEnumCheck sampleExternals
          (diffOf [sampleUsersPath, sampleItemsPath]) (some sampleSources) sampleConfig =
          some findings2 ∧
        findings1.Perm findings2) :=
  ⟨by decide,
    (findings_same_up_to_traversal_order sampleExternals
      (diffOf [sampleItemsPath, sampleUsersPath]) (diffOf [sampleUsersPath, sampleItemsPath])
      sampleSources sampleConfig sample_paths_reordered (by decide)).1⟩

/-- C10 as stated fails: the two modified paths `/items` and `/users` traversed in the two
orders give, for each check, two different lists: the findings of `/items` come first in one
run and those of `/users` first in the other. -/
theorem findings_order_depends_on_traversal_order :
    reorderedDiff (diffOf [sampleItemsPath, sampleUsersPath])
        (diffOf [sampleUsersPath, sampleItemsPath]) ∧
      RequestHeaderPropertyBecameEnumCheck sampleExternals
          (diffOf [sampleItemsPath, sampleUsersPath]) (some sampleSources) sampleConfig ≠
        RequestHeaderPropertyBecameEnumCheck sampleExternals
          (diffOf [sampleUsersPath, sampleItemsPath]) (some sampleSources) sampleConfig ∧
      RequestParameterMinItemsSetCheck sampleExternals
          (diffOf [sampleItemsPath, sampleUsersPath]) (some sampleSources) sampleConfig ≠
        RequestParameterMinItemsSetCheck sampleExternals
          (diffOf [sampleUsersPath, sampleItemsPath]) (some sampleSources) sampleConfig ∧
      (RequestHeaderPropertyBecameEnumCheck sampleExternals
        (diffOf [sampleItemsPath, sampleUsersPath]) (some sampleSources) sampleConfig).map
          (List.map fun f => f.Path) = some ["/items", "/items", "/users", "/users"] ∧
      (RequestHeaderPropertyBecameEnumCheck sampleExternals
        (diffOf [sampleUsersPath, sampleItemsPath]) (some sampleSources) sampleConfig).map
          (List.map fun f => f.Path) = some ["/users", "/users", "/items", "/items"] ∧
      (RequestParameterMinItemsSetCheck sampleExternals
        (diffOf [sampleItemsPath, sampleUsersPath]) (some sampleSources) sampleConfig).map
          (List.map fun f => f.Path) = some ["/items", "/users"] ∧
      (RequestParameterMinItemsSetCheck sampleExternals
        (diffOf [sampleUsersPath, sampleItemsPath]) (some sampleSources) sampleConfig).map
          (List.map fun f => f.Path) = some ["/users", "/items"] := by
  refine ⟨sample_paths_reordered, ?_, ?_, by decide, by decide, by decide, by decide⟩
  · intro h
    have hpaths := congrArg (Option.map (List.map fun f => f.Path)) h
    revert hpaths
    decide
  · intro h
    have hpaths := congrArg (Option.map (List.map fun f => f.Path)) h
    revert hpaths
    decide

/-! ## Outcomes of the loops, panics included -/

theorem forRange_eq_gather {A E : Type} (entries : List A)
    (body : A → List E → Option (List E))
    (hb : ∀ a ∈ entries, ∀ r, body a r = (body a []).map fun out => r ++ out)
    (result : List E) :
    forRange entries body result =
      (gather (fun a => body a []) entries).map fun out => result ++ out := by
  induction entries generalizing result with
  | nil => simp [forRange, gather]
  | cons a rest ih =>
    have hrest : ∀ b ∈ rest, ∀ r, body b r = (body b []).map fun out => r ++ out :=
      fun b hmem r => hb b (List.mem_cons_of_mem a hmem) r
    unfold forRange gather
    rw [hb a (List.mem_cons_self a rest) result]
    cases hbody : body a [] with
    | none => simp
    | some x =>
      simp only [Option.map_some']
      rw [ih hrest (result ++ x)]
      cases gather (fun a => body a []) rest with
      | none => simp
      | some y => simp [List.append_assoc]

theorem forRange_nil_eq_gather {A E : Type} (entries : List A)
    (body : A → List E → Option (List E))
    (hb : ∀ a ∈ entries, ∀ r, body a r = (body a []).map fun out => r ++ out) :
    forRange entries body [] = gather (fun a => body a []) entries := by
  rw [forRange_eq_gather entries body hb []]
  cases gather (fun a => body a []) entries <;> simp

theorem forRange_append {A E : Type} (entries : List A)
    (body : A → List E → Option (List E))
    (hb : ∀ a ∈ entries, ∀ r, body a r = (body a []).map fun out => r ++ out)
    (result : List E) :
    forRange entries body result =
      (forRange entries body []).map fun out => result ++ out := by
  rw [forRange_nil_eq_gather entries body hb, forRange_eq_gather entries body hb result]

theorem gather_append {A E : Type} (g : A → Option (List E)) (l₁ l₂ : List A) :
    gather g (l₁ ++ l₂) =
      match gather g l₁, gather g l₂ with
      | some x, some y => some (x ++ y)
      | _, _ => none := by
  induction l₁ with
  | nil =>
    cases h₂ : gather g l₂ with
    | none => simp [gather, h₂]
    | some y => simp [gather, h₂]
  | cons a rest ih =>
    cases h₀ : g a <;> cases h₁ : gather g rest <;> cases h₂ : gather g l₂ <;>
      simp [gather, h₀, h₁, h₂, ih]

theorem sameOutcome_refl {E : Type} (o : Option (List E)) : sameOutcome o o := by
  cases o with
  | none => exact trivial
  | some a => exact List.Perm.refl a

theorem sameOutcome_trans {E : Type} (a b c : Option (List E))
    (hab : sameOutcome a b) (hbc : sameOutcome b c) : sameOutcome a c := by
  cases a <;> cases b <;> cases c <;> simp only [sameOutcome] at hab hbc ⊢
  exact hab.trans hbc

theorem sameOutcome_of_eq {E : Type} (a b : Option (List E)) (h : a = b) :
    sameOutcome a b := by
  rw [h]
  exact sameOutcome_refl b

theorem gather_perm {A E : Type} (g : A → Option (List E)) (l₁ l₂ : List A)
    (h : l₁.Perm l₂) : sameOutcome (gather g l₁) (gather g l₂) := by
  induction h with
  | nil => exact sameOutcome_refl _
  | @cons a t₁ t₂ _ ih =>
    simp only [gather]
    cases g a <;> cases h₁ : gather g t₁ <;> cases h₂ : gather g t₂ <;>
      simp only [h₁, h₂, sameOutcome] at ih ⊢
    exact List.Perm.append_left _ ih
  | swap a b t =>
    simp only [gather]
    cases g a <;> cases g b <;> cases gather g t <;> simp only [sameOutcome]
    rw [← List.append_assoc, ← List.append_assoc]
    exact List.Perm.append_right _ List.perm_append_comm
  | trans _ _ ih₁ ih₂ => exact sameOutcome_trans _ _ _ ih₁ ih₂

theorem gather_forall₂ {A E : Type} (g₁ g₂ : A → Option (List E)) (P : A → A → Prop)
    (l₁ l₂ : List A) (h : List.Forall₂ P l₁ l₂)
    (hg : ∀ x y, P x y → sameOutcome (g₁ x) (g₂ y)) :
    sameOutcome (gather g₁ l₁) (gather g₂ l₂) := by
  induction h with
  | nil => exact List.Perm.refl _
  | @cons x y t₁ t₂ hxy _ ih =>
    have hhead := hg x y hxy
    simp only [gather]
    cases h₁ : g₁ x <;> cases h₂ : g₂ y <;> cases h₃ : gather g₁ t₁ <;>
      cases h₄ : gather g₂ t₂ <;>
      simp only [h₁, h₂, h₃, h₄, sameOutcome] at hhead ih ⊢
    exact List.Perm.append hhead ih

theorem gather_reordered {A E : Type} (R : A → A → Prop)
    (g₁ g₂ : String × A → Option (List E)) (first second : List (String × A))
    (h : reorderedEntries R first second)
    (hg : ∀ x y, x.1 = y.1 → R x.2 y.2 → sameOutcome (g₁ x) (g₂ y)) :
    sameOutcome (gather g₁ first) (gather g₂ second) := by
  obtain ⟨middle, hperm, hall⟩ := h
  exact sameOutcome_trans _ _ _ (gather_perm g₁ first middle hperm)
    (gather_forall₂ g₁ g₂ _ middle second hall fun x y hxy => hg x y hxy.1 hxy.2)

/-! ## The min-items check as nested loops over the modified maps -/

theorem minItemsSetOperation_eq_forRange (ext : Externals)
    (sources : Option OperationsSourcesMap) (path : String) (entry : String × MethodDiff)
    (result : List BackwardCompatibilityError) :
    minItemsSetOperation ext sources path entry result =
      forRange (modifiedLocations entry.2)
        (minItemsSetLocation ext sources path entry.1 entry.2) result := by
  unfold minItemsSetOperation modifiedLocations
  cases entry.2.ParametersDiff <;> simp [forRange]

theorem minItemsSetPath_eq_forRange (ext : Externals)
    (sources : Option OperationsSourcesMap) (entry : String × PathDiff)
    (result : List BackwardCompatibilityError) :
    minItemsSetPath ext sources entry result =
      forRange (modifiedOperations entry.2) (minItemsSetOperation ext sources entry.1)
        result := by
  unfold minItemsSetPath modifiedOperations
  cases entry.2.OperationsDiff <;> simp [forRange]

theorem minItemsSetCheck_eq_forRange (ext : Externals) (diffReport : Diff)
    (sources : Option OperationsSourcesMap) (config : BackwardCompatibilityCheckConfig) :
    RequestParameterMinItemsSetCheck ext diffReport sources config =
      forRange (modifiedPaths diffReport) (minItemsSetPath ext sources) [] := by
  unfold RequestParameterMinItemsSetCheck modifiedPaths
  cases diffReport.PathsDiff <;> simp [forRange]

theorem minItemsSetParam_append (ext : Externals) (sources : Option OperationsSourcesMap)
    (path operation : String) (operationItem : MethodDiff) (paramLocation : String)
    (entry : String × ParameterDiff) (result : List BackwardCompatibilityError) :
    minItemsSetParam ext sources path operation operationItem paramLocation entry result =
      (minItemsSetParam ext sources path operation operationItem paramLocation entry []).map
        fun out => result ++ out := by
  unfold minItemsSetParam
  cases hs : entry.2.SchemaDiff with
  | none => simp
  | some schemaDiff =>
    cases hm : schemaDiff.MinItemsDiff with
    | none => simp [hm]
    | some minItemsDiff =>
      cases hf : minItemsDiff.From with
      | some v => simp [hm, hf]
      | none =>
        cases ht : minItemsDiff.To with
        | none => simp [hm, hf, ht]
        | some toValue => cases sources <;> simp [hm, hf, ht]

theorem minItemsSetLocation_append (ext : Externals) (sources : Option OperationsSourcesMap)
    (path operation : String) (operationItem : MethodDiff) (entry : String × ParamDiffs)
    (result : List BackwardCompatibilityError) :
    minItemsSetLocation ext sources path operation operationItem entry result =
      (minItemsSetLocation ext sources path operation operationItem entry []).map
        fun out => result ++ out := by
  unfold minItemsSetLocation
  exact forRange_append _ _ (fun q _ r => minItemsSetParam_append ext sources path operation
    operationItem entry.1 q r) result

theorem minItemsSetOperation_append (ext : Externals) (sources : Option OperationsSourcesMap)
    (path : String) (entry : String × MethodDiff) (result : List BackwardCompatibilityError) :
    minItemsSetOperation ext sources path entry result =
      (minItemsSetOperation ext sources path entry []).map fun out => result ++ out := by
  rw [minItemsSetOperation_eq_forRange, minItemsSetOperation_eq_forRange]
  exact forRange_append _ _ (fun l _ r => minItemsSetLocation_append ext sources path entry.1
    entry.2 l r) result

theorem minItemsSetPath_append (ext : Externals) (sources : Option OperationsSourcesMap)
    (entry : String × PathDiff) (result : List BackwardCompatibilityError) :
    minItemsSetPath ext sources entry result =
      (minItemsSetPath ext sources entry []).map fun out => result ++ out := by
  rw [minItemsSetPath_eq_forRange, minItemsSetPath_eq_forRange]
  exact forRange_append _ _ (fun o _ r => minItemsSetOperation_append ext sources entry.1 o r)
    result

theorem minItemsSetCheck_eq_gather (ext : Externals) (diffReport : Diff)
    (sources : Option OperationsSourcesMap) (config : BackwardCompatibilityCheckConfig) :
    RequestParameterMinItemsSetCheck ext diffReport sources config =
      gather (fun p => minItemsSetPath ext sources p []) (modifiedPaths diffReport) := by
  rw [minItemsSetCheck_eq_forRange]
  exact forRange_nil_eq_gather _ _ (fun p _ r => minItemsSetPath_append ext sources p r)

theorem minItemsSetParam_revision (ext : Externals) (sources : Option OperationsSourcesMap)
    (path operation : String) (item₁ item₂ : MethodDiff) (paramLocation : String)
    (h : item₁.Revision = item₂.Revision) :
    minItemsSetParam ext sources path operation item₁ paramLocation =
      minItemsSetParam ext sources path operation item₂ paramLocation := by
  funext entry result
  simp [minItemsSetParam, h]

theorem minItemsSetLocation_reordered (ext : Externals) (sources : Option OperationsSourcesMap)
    (path operation : String) (item₁ item₂ : MethodDiff) (l₁ l₂ : String × ParamDiffs)
    (hrev : item₁.Revision = item₂.Revision) (hkey : l₁.1 = l₂.1)
    (h : reorderedEntries Eq l₁.2 l₂.2) :
    sameOutcome (minItemsSetLocation ext sources path operation item₁ l₁ [])
      (minItemsSetLocation ext sources path operation item₂ l₂ []) := by
  unfold minItemsSetLocation
  rw [forRange_nil_eq_gather _ _ (fun q _ r => minItemsSetParam_append ext sources path
      operation item₁ l₁.1 q r),
    forRange_nil_eq_gather _ _ (fun q _ r => minItemsSetParam_append ext sources path
      operation item₂ l₂.1 q r),
    minItemsSetParam_revision ext sources path operation item₁ item₂ l₁.1 hrev, hkey]
  refine gather_reordered Eq _ _ _ _ h ?_
  intro x y hxy hval
  have hx : x = y := Prod.ext hxy hval
  rw [hx]
  exact sameOutcome_refl _

theorem minItemsSetOperation_reordered (ext : Externals)
    (sources : Option OperationsSourcesMap) (path : String) (o₁ o₂ : String × MethodDiff)
    (hkey : o₁.1 = o₂.1) (h : reorderedMethodDiff o₁.2 o₂.2) :
    sameOutcome (minItemsSetOperation ext sources path o₁ [])
      (minItemsSetOperation ext sources path o₂ []) := by
  rw [minItemsSetOperation_eq_forRange, minItemsSetOperation_eq_forRange,
    forRange_nil_eq_gather _ _ (fun l _ r => minItemsSetLocation_append ext sources path
      o₁.1 o₁.2 l r),
    forRange_nil_eq_gather _ _ (fun l _ r => minItemsSetLocation_append ext sources path
      o₂.1 o₂.2 l r), hkey]
  refine gather_reordered _ _ _ _ _ (modifiedLocations_reordered _ _ h) ?_
  intro l₁ l₂ hl hentries
  exact minItemsSetLocation_reordered ext sources path o₂.1 o₁.2 o₂.2 l₁ l₂ h.2.1 hl hentries

theorem minItemsSetPath_reordered (ext : Externals) (sources : Option OperationsSourcesMap)
    (p₁ p₂ : String × PathDiff) (hkey : p₁.1 = p₂.1) (h : reorderedPathDiff p₁.2 p₂.2) :
    sameOutcome (minItemsSetPath ext sources p₁ []) (minItemsSetPath ext sources p₂ []) := by
  rw [minItemsSetPath_eq_forRange, minItemsSetPath_eq_forRange,
    forRange_nil_eq_gather _ _ (fun o _ r => minItemsSetOperation_append ext sources p₁.1 o r),
    forRange_nil_eq_gather _ _ (fun o _ r => minItemsSetOperation_append ext sources p₂.1 o r),
    hkey]
  refine gather_reordered _ _ _ _ _ (modifiedOperations_reordered _ _ h) ?_
  intro o₁ o₂ ho hitems
  exact minItemsSetOperation_reordered ext sources p₂.1 o₁ o₂ ho hitems

theorem minItemsSetCheck_reordered (ext : Externals) (first second : Diff)
    (sources : Option OperationsSourcesMap) (config : BackwardCompatibilityCheckConfig)
    (h : reorderedDiff first second) :
    sameOutcome (RequestParameterMinItemsSetCheck ext first sources config)
      (RequestParameterMinItemsSetCheck ext second sources config) := by
  rw [minItemsSetCheck_eq_gather, minItemsSetCheck_eq_gather]
  refine gather_reordered _ _ _ _ _ (modifiedPaths_reordered _ _ h) ?_
  intro p₁ p₂ hp hpaths
  exact minItemsSetPath_reordered ext sources p₁ p₂ hp hpaths

/-! ## The header check as nested loops over the modified maps -/

theorem becameEnumOperation_eq_forRange (ext : Externals) (sources : OperationsSourcesMap)
    (config : BackwardCompatibilityCheckConfig) (path : String) (entry : String × MethodDiff)
    (result : List BackwardCompatibilityError) :
    becameEnumOperation ext (some sources) config path entry result =
      forRange (modifiedLocations entry.2)
        (becameEnumLocation ext config path entry.1 entry.2
          (sourceOf sources entry.2.Revision)) result := by
  unfold becameEnumOperation modifiedLocations
  cases entry.2.ParametersDiff <;> simp [forRange]

theorem becameEnumPath_eq_forRange (ext : Externals)
    (sources : Option OperationsSourcesMap) (config : BackwardCompatibilityCheckConfig)
    (entry : String × PathDiff) (result : List BackwardCompatibilityError) :
    becameEnumPath ext sources config entry result =
      forRange (modifiedOperations entry.2) (becameEnumOperation ext sources config entry.1)
        result := by
  unfold becameEnumPath modifiedOperations
  cases entry.2.OperationsDiff <;> simp [forRange]

theorem becameEnumCheck_eq_forRange (ext : Externals) (diffReport : Diff)
    (sources : Option OperationsSourcesMap) (config : BackwardCompatibilityCheckConfig) :
    RequestHeaderPropertyBecameEnumCheck ext diffReport sources config =
      forRange (modifiedPaths diffReport) (becameEnumPath ext sources config) [] := by
  unfold RequestHeaderPropertyBecameEnumCheck modifiedPaths
  cases diffReport.PathsDiff <;> simp [forRange]

theorem becameEnumProcessor_append (ext : Externals)
    (config : BackwardCompatibilityCheckConfig) (path operation : String)
    (operationItem : MethodDiff) (source paramName : String) (visit : PropertyVisit)
    (result : List BackwardCompatibilityError) :
    becameEnumProcessor ext config path operation operationItem source paramName visit
        result =
      (becameEnumProcessor ext config path operation operationItem source paramName visit
        []).map fun out => result ++ out := by
  unfold becameEnumProcessor
  by_cases hadded : enumAdded visit.propertyDiff.EnumDiff = true
  · simp only [hadded, Bool.not_true, Bool.false_eq_true, if_false]
    cases becameEnumError ext config path operation operationItem source
        [Value.str (ext.ColorizedValue paramName),
         Value.str (ext.ColorizedValue
           (ext.propertyFullName visit.propertyPath visit.propertyName))] <;> simp
  · simp [hadded]

theorem becameEnumParam_append (ext : Externals) (config : BackwardCompatibilityCheckConfig)
    (path operation : String) (operationItem : MethodDiff) (source : String)
    (entry : String × ParameterDiff) (result : List BackwardCompatibilityError) :
    becameEnumParam ext config path operation operationItem source entry result =
      (becameEnumParam ext config path operation operationItem source entry []).map
        fun out => result ++ out := by
  have hloop := fun r => forRange_append
    (ext.CheckModifiedPropertiesDiff (entry.2.SchemaDiff.getD (SchemaDiff.mk none none none)))
    (becameEnumProcessor ext config path operation operationItem source entry.1)
    (fun visit _ r => becameEnumProcessor_append ext config path operation operationItem
      source entry.1 visit r) r
  unfold becameEnumParam
  cases hs : entry.2.SchemaDiff with
  | none => simp
  | some schemaDiff =>
    simp only [hs, Option.getD_some] at hloop
    by_cases he : enumAdded schemaDiff.EnumDiff = true
    · cases herr : becameEnumError ext config path operation operationItem source
          [Value.str (ext.ColorizedValue entry.1)] with
      | none => simp [he, herr]
      | some e =>
        simp only [he, herr, if_true, List.nil_append]
        rw [hloop (result ++ [e]), hloop [e]]
        cases forRange (ext.CheckModifiedPropertiesDiff schemaDiff)
          (becameEnumProcessor ext config path operation operationItem source entry.1) [] <;>
          simp
    · simp only [he, Bool.false_eq_true, if_false]
      exact hloop result

theorem becameEnumLocation_append (ext : Externals)
    (config : BackwardCompatibilityCheckConfig) (path operation : String)
    (operationItem : MethodDiff) (source : String) (entry : String × ParamDiffs)
    (result : List BackwardCompatibilityError) :
    becameEnumLocation ext config path operation operationItem source entry result =
      (becameEnumLocation ext config path operation operationItem source entry []).map
        fun out => result ++ out := by
  unfold becameEnumLocation
  by_cases hl : (entry.1 != "header") = true
  · simp [hl]
  · simp only [hl, Bool.false_eq_true, if_false]
    exact forRange_append _ _ (fun q _ r => becameEnumParam_append ext config path operation
      operationItem source q r) result

theorem becameEnumOperation_append (ext : Externals)
    (sources : Option OperationsSourcesMap) (config : BackwardCompatibilityCheckConfig)
    (path : String) (entry : String × MethodDiff) (result : List BackwardCompatibilityError) :
    becameEnumOperation ext sources config path entry result =
      (becameEnumOperation ext sources config path entry []).map
        fun out => result ++ out := by
  cases sources with
  | none => simp [becameEnumOperation]
  | some m =>
    rw [becameEnumOperation_eq_forRange, becameEnumOperation_eq_forRange]
    exact forRange_append _ _ (fun l _ r => becameEnumLocation_append ext config path entry.1
      entry.2 (sourceOf m entry.2.Revision) l r) result

theorem becameEnumPath_append (ext : Externals) (sources : Option OperationsSourcesMap)
    (config : BackwardCompatibilityCheckConfig) (entry : String × PathDiff)
    (result : List BackwardCompatibilityError) :
    becameEnumPath ext sources config entry result =
      (becameEnumPath ext sources config entry []).map fun out => result ++ out := by
  rw [becameEnumPath_eq_forRange, becameEnumPath_eq_forRange]
  exact forRange_append _ _ (fun o _ r => becameEnumOperation_append ext sources config
    entry.1 o r) result

theorem becameEnumCheck_eq_gather (ext : Externals) (diffReport : Diff)
    (sources : Option OperationsSourcesMap) (config : BackwardCompatibilityCheckConfig) :
    RequestHeaderPropertyBecameEnumCheck ext diffReport sources config =
      gather (fun p => becameEnumPath ext sources config p []) (modifiedPaths diffReport) := by
  rw [becameEnumCheck_eq_forRange]
  exact forRange_nil_eq_gather _ _ (fun p _ r => becameEnumPath_append ext sources config p r)

theorem becameEnumParam_revision (ext : Externals) (config : BackwardCompatibilityCheckConfig)
    (path operation : String) (item₁ item₂ : MethodDiff) (source : String)
    (h : item₁.Revision = item₂.Revision) :
    becameEnumParam ext config path operation item₁ source =
      becameEnumParam ext config path operation item₂ source := by
  have herr : becameEnumError ext config path operation item₁ source =
      becameEnumError ext config path operation item₂ source := by
    funext args
    simp [becameEnumError, h]
  have hproc : becameEnumProcessor ext config path operation item₁ source =
      becameEnumProcessor ext config path operation item₂ source := by
    funext paramName visit result
    simp [becameEnumProcessor, herr]
  funext entry result
  simp [becameEnumParam, herr, hproc]

theorem becameEnumLocation_reordered (ext : Externals)
    (config : BackwardCompatibilityCheckConfig) (path operation : String)
    (item₁ item₂ : MethodDiff) (source : String) (l₁ l₂ : String × ParamDiffs)
    (hrev : item₁.Revision = item₂.Revision) (hkey : l₁.1 = l₂.1)
    (h : reorderedEntries Eq l₁.2 l₂.2) :
    sameOutcome (becameEnumLocation ext config path operation item₁ source l₁ [])
      (becameEnumLocation ext config path operation item₂ source l₂ []) := by
  unfold becameEnumLocation
  rw [hkey]
  by_cases hl : (l₂.1 != "header") = true
  · simp only [hl, if_true]
    exact sameOutcome_refl _
  · simp only [hl, Bool.false_eq_true, if_false]
    rw [forRange_nil_eq_gather _ _ (fun q _ r => becameEnumParam_append ext config path
        operation item₁ source q r),
      forRange_nil_eq_gather _ _ (fun q _ r => becameEnumParam_append ext config path
        operation item₂ source q r),
      becameEnumParam_revision ext config path operation item₁ item₂ source hrev]
    refine gather_reordered Eq _ _ _ _ h ?_
    intro x y hxy hval
    have hx : x = y := Prod.ext hxy hval
    rw [hx]
    exact sameOutcome_refl _

theorem becameEnumOperation_reordered (ext : Externals)
    (sources : Option OperationsSourcesMap) (config : BackwardCompatibilityCheckConfig)
    (path : String) (o₁ o₂ : String × MethodDiff)
    (hkey : o₁.1 = o₂.1) (h : reorderedMethodDiff o₁.2 o₂.2) :
    sameOutcome (becameEnumOperation ext sources config path o₁ [])
      (becameEnumOperation ext sources config path o₂ []) := by
  cases sources with
  | none =>
    simp only [becameEnumOperation]
    exact trivial
  | some m =>
    rw [becameEnumOperation_eq_forRange, becameEnumOperation_eq_forRange,
      forRange_nil_eq_gather _ _ (fun l _ r => becameEnumLocation_append ext config path
        o₁.1 o₁.2 (sourceOf m o₁.2.Revision) l r),
      forRange_nil_eq_gather _ _ (fun l _ r => becameEnumLocation_append ext config path
        o₂.1 o₂.2 (sourceOf m o₂.2.Revision) l r), hkey, h.2.1]
    refine gather_reordered _ _ _ _ _ (modifiedLocations_reordered _ _ h) ?_
    intro l₁ l₂ hl hentries
    exact becameEnumLocation_reordered ext config path o₂.1 o₁.2 o₂.2
      (sourceOf m o₂.2.Revision) l₁ l₂ h.2.1 hl hentries

theorem becameEnumPath_reordered (ext : Externals) (sources : Option OperationsSourcesMap)
    (config : BackwardCompatibilityCheckConfig) (p₁ p₂ : String × PathDiff)
    (hkey : p₁.1 = p₂.1) (h : reorderedPathDiff p₁.2 p₂.2) :
    sameOutcome (becameEnumPath ext sources config p₁ [])
      (becameEnumPath ext sources config p₂ []) := by
  rw [becameEnumPath_eq_forRange, becameEnumPath_eq_forRange,
    forRange_nil_eq_gather _ _ (fun o _ r => becameEnumOperation_append ext sources config
      p₁.1 o r),
    forRange_nil_eq_gather _ _ (fun o _ r => becameEnumOperation_append ext sources config
      p₂.1 o r), hkey]
  refine gather_reordered _ _ _ _ _ (modifiedOperations_reordered _ _ h) ?_
  intro o₁ o₂ ho hitems
  exact becameEnumOperation_reordered ext sources config p₂.1 o₁ o₂ ho hitems

theorem becameEnumCheck_reordered (ext : Externals) (first second : Diff)
    (sources : Option OperationsSourcesMap) (config : BackwardCompatibilityCheckConfig)
    (h : reorderedDiff first second) :
    sameOutcome (RequestHeaderPropertyBecameEnumCheck ext first sources config)
      (RequestHeaderPropertyBecameEnumCheck ext second sources config) := by
  rw [becameEnumCheck_eq_gather, becameEnumCheck_eq_gather]
  refine gather_reordered _ _ _ _ _ (modifiedPaths_reordered _ _ h) ?_
  intro p₁ p₂ hp hpaths
  exact becameEnumPath_reordered ext sources config p₁ p₂ hp hpaths

/-! ## Independence of endpoints and of traversal order -/

theorem sameOutcome_multiset {E : Type} (a b : Option (List E)) (h : sameOutcome a b) :
    ((∃ x, a = some x) ↔ (∃ y, b = some y)) ∧
      ∀ x y, a = some x → b = some y → (x : Multiset E) = y := by
  cases a <;> cases b <;> simp only [sameOutcome] at h
  · simp
  · simp only [Option.some.injEq, exists_eq', true_iff, true_and]
    intro x y hx hy
    rw [← hx, ← hy]
    exact Multiset.coe_eq_coe.2 h

theorem outcome_split {E : Type} (o o₁ o₂ : Option (List E))
    (h : sameOutcome o
      (match o₁, o₂ with
        | some x, some y => some (x ++ y)
        | _, _ => none)) :
    ((∃ x, o = some x) ↔ ((∃ x₁, o₁ = some x₁) ∧ ∃ x₂, o₂ = some x₂)) ∧
      ∀ x x₁ x₂, o = some x → o₁ = some x₁ → o₂ = some x₂ →
        (x : Multiset E) = (x₁ : Multiset E) + (x₂ : Multiset E) := by
  cases o <;> cases o₁ <;> cases o₂ <;> simp only [sameOutcome] at h
  · simp
  · simp
  · simp
  · simp only [Option.some.injEq, exists_eq', and_self, true_and]
    intro x x₁ x₂ hx hx₁ hx₂
    rw [← hx, ← hx₁, ← hx₂, Multiset.coe_add]
    exact Multiset.coe_eq_coe.2 h

theorem modifiedPaths_restrictPaths (keep : String → Bool) (diffReport : Diff) :
    modifiedPaths (restrictPaths keep diffReport) =
      (modifiedPaths diffReport).filter fun p => keep p.1 := by
  unfold modifiedPaths restrictPaths
  cases diffReport.PathsDiff <;> simp

theorem gather_filter_split {A E : Type} (g : A → Option (List E)) (keep : A → Bool)
    (l : List A) :
    sameOutcome (gather g l)
      (match gather g (l.filter keep), gather g (l.filter fun a => !keep a) with
        | some x, some y => some (x ++ y)
        | _, _ => none) := by
  rw [← gather_append]
  exact gather_perm g _ _ (List.filter_append_perm keep l).symm

theorem sample_locations_reordered : reorderedDiff sampleDiff sampleDiffLocationsSwapped := by
  have hlocations : reorderedEntries (reorderedEntries Eq) sampleParameters
      [("query", [("ids", { SchemaDiff := some minItemsSetSchema })]),
       ("header", [("X-Kind", { SchemaDiff := some enumAddedSchema })])] :=
    reorderedEntries_of_perm _ (reorderedEntries_refl _ fun _ => rfl) _ _
      (List.Perm.swap _ _ _)
  have hmethod : reorderedMethodDiff
      (methodDiffOf (some sampleBase) (some sampleRevision) sampleParameters)
      (methodDiffOf (some sampleBase) (some sampleRevision)
        [("query", [("ids", { SchemaDiff := some minItemsSetSchema })]),
         ("header", [("X-Kind", { SchemaDiff := some enumAddedSchema })])]) :=
    ⟨rfl, rfl, rfl, rfl, hlocations⟩
  have hpath : reorderedPathDiff
      (pathDiffOf [("GET",
        methodDiffOf (some sampleBase) (some sampleRevision) sampleParameters)])
      (pathDiffOf [("GET", methodDiffOf (some sampleBase) (some sampleRevision)
        [("query", [("ids", { SchemaDiff := some minItemsSetSchema })]),
         ("header", [("X-Kind", { SchemaDiff := some enumAddedSchema })])])]) :=
    ⟨rfl, rfl, _, List.Perm.refl _, List.Forall₂.cons ⟨rfl, hmethod⟩ List.Forall₂.nil⟩
  exact ⟨rfl, rfl, _, List.Perm.refl _, List.Forall₂.cons ⟨rfl, hpath⟩ List.Forall₂.nil⟩

/-- C11: for both checks the findings of distinct endpoints are independent. Whatever set of
path keys `keep` selects, the check returns on the whole diff tree exactly when it returns on
the tree restricted to the modified paths in the set and on the tree restricted to the other
modified paths, and the findings for the whole tree are then, as a multiset, the union of the
findings for the two restricted trees. -/
theorem findings_of_disjoint_paths_are_independent (ext : Externals) (diffReport : Diff)
    (sources : Option OperationsSourcesMap) (config : BackwardCompatibilityCheckConfig)
    (keep : String → Bool) :
    (((∃ findings, RequestHeaderPropertyBecameEnumCheck ext diffReport sources config =
          some findings) ↔
        ((∃ findings₁, RequestHeaderPropertyBecameEnumCheck ext
            (restrictPaths keep diffReport) sources config = some findings₁) ∧
          ∃ findings₂, RequestHeaderPropertyBecameEnumCheck ext
            (restrictPaths (fun path => !keep path) diffReport) sources config =
              some findings₂)) ∧
      ∀ findings findings₁ findings₂,
        RequestHeaderPropertyBecameEnumCheck ext diffReport sources config = some findings →
        RequestHeaderPropertyBecameEnumCheck ext (restrictPaths keep diffReport) sources
          config = some findings₁ →
        RequestHeaderPropertyBecameEnumCheck ext
          (restrictPaths (fun path => !keep path) diffReport) sources config =
            some findings₂ →
        (findings : Multiset BackwardCompatibilityError) =
          (findings₁ : Multiset BackwardCompatibilityError) +
            (findings₂ : Multiset BackwardCompatibilityError)) ∧
    (((∃ findings, RequestParameterMinItemsSetCheck ext diffReport sources config =
          some findings) ↔
        ((∃ findings₁, RequestParameterMinItemsSetCheck ext
            (restrictPaths keep diffReport) sources config = some findings₁) ∧
          ∃ findings₂, RequestParameterMinItemsSetCheck ext
            (restrictPaths (fun path => !keep path) diffReport) sources config =
              some findings₂)) ∧
      ∀ findings findings₁ findings₂,
        RequestParameterMinItemsSetCheck ext diffReport sources config = some findings →
        RequestParameterMinItemsSetCheck ext (restrictPaths keep diffReport) sources
          config = some findings₁ →
        RequestParameterMinItemsSetCheck ext
          (restrictPaths (fun path => !keep path) diffReport) sources config =
            some findings₂ →
        (findings : Multiset BackwardCompatibilityError) =
          (findings₁ : Multiset BackwardCompatibilityError) +
            (findings₂ : Multiset BackwardCompatibilityError)) := by
  constructor
  · apply outcome_split
    rw [becameEnumCheck_eq_gather, becameEnumCheck_eq_gather, becameEnumCheck_eq_gather,
      modifiedPaths_restrictPaths, modifiedPaths_restrictPaths]
    exact gather_filter_split _ (fun p : String × PathDiff => keep p.1) _
  · apply outcome_split
    rw [minItemsSetCheck_eq_gather, minItemsSetCheck_eq_gather, minItemsSetCheck_eq_gather,
      modifiedPaths_restrictPaths, modifiedPaths_restrictPaths]
    exact gather_filter_split _ (fun p : String × PathDiff => keep p.1) _

/-- Witness of C11: the modified paths `/items` and `/users`, split by the key `/items`. -/
theorem findings_of_disjoint_paths_are_independent_witness :
    ((RequestHeaderPropertyBecameEnumCheck sampleExternals
        (diffOf [sampleItemsPath, sampleUsersPath]) (some sampleSources)
        sampleConfig).getD [] : Multiset BackwardCompatibilityError) =
      ((RequestHeaderPropertyBecameEnumCheck sampleExternals
        (restrictPaths (fun path => path == "/items")
          (diffOf [sampleItemsPath, sampleUsersPath])) (some sampleSources)
        sampleConfig).getD [] : Multiset BackwardCompatibilityError) +
      ((RequestHeaderPropertyBecameEnumCheck sampleExternals
        (restrictPaths (fun path => !(path == "/items"))
          (diffOf [sampleItemsPath, sampleUsersPath])) (some sampleSources)
        sampleConfig).getD [] : Multiset BackwardCompatibilityError) :=
  (findings_of_disjoint_paths_are_independent sampleExternals
    (diffOf [sampleItemsPath, sampleUsersPath]) (some sampleSources) sampleConfig
    (fun path => path == "/items")).1.2 _ _ _ rfl rfl rfl

/-- C20: for either check, two traversal orders of the same maps of modified paths,
operations, parameter locations and parameter names give the same outcome up to order: the
one run returns exactly when the other does, and the two lists of findings are then equal as
multisets. -/
theorem findings_multiset_independent_of_traversal_order (ext : Externals)
    (first second : Diff) (sources : Option OperationsSourcesMap)
    (config : BackwardCompatibilityCheckConfig) (hsame : reorderedDiff first second) :
    (((∃ findings₁, RequestHeaderPropertyBecameEnumCheck ext first sources config =
          some findings₁) ↔
        ∃ findings₂, RequestHeaderPropertyBecameEnumCheck ext second sources config =
          some findings₂) ∧
      ∀ findings₁ findings₂,
        RequestHeaderPropertyBecameEnumCheck ext first sources config = some findings₁ →
        RequestHeaderPropertyBecameEnumCheck ext second sources config = some findings₂ →
        (findings₁ : Multiset BackwardCompatibilityError) = findings₂) ∧
    (((∃ findings₁, RequestParameterMinItemsSetCheck ext first sources config =
          some findings₁) ↔
        ∃ findings₂, RequestParameterMinItemsSetCheck ext second sources config =
          some findings₂) ∧
      ∀ findings₁ findings₂,
        RequestParameterMinItemsSetCheck ext first sources config = some findings₁ →
        RequestParameterMinItemsSetCheck ext second sources config = some findings₂ →
        (findings₁ : Multiset BackwardCompatibilityError) = findings₂) :=
  ⟨sameOutcome_multiset _ _ (becameEnumCheck_reordered ext first second sources config hsame),
    sameOutcome_multiset _ _ (minItemsSetCheck_reordered ext first second sources config hsame)⟩

/-- Witness of C20: the sample diff tree with its two parameter locations traversed in the
two orders. -/
theorem findings_multiset_independent_of_traversal_order_witness :
    reorderedDiff sampleDiff sampleDiffLocationsSwapped ∧
      ((RequestHeaderPropertyBecameEnumCheck sampleExternals sampleDiff (some sampleSources)
          sampleConfig).getD [] : Multiset BackwardCompatibilityError) =
        ((RequestHeaderPropertyBecameEnumCheck sampleExternals sampleDiffLocationsSwapped
          (some sampleSources) sampleConfig).getD [] : List BackwardCompatibilityError) ∧
      ((RequestParameterMinItemsSetCheck sampleExternals sampleDiff (some sampleSources)
          sampleConfig).getD [] : Multiset BackwardCompatibilityError) =
        ((RequestParameterMinItemsSetCheck sampleExternals sampleDiffLocationsSwapped
          (some sampleSources) sampleConfig).getD [] : List BackwardCompatibilityError) :=
  ⟨sample_locations_reordered,
    (findings_multiset_independent_of_traversal_order sampleExternals sampleDiff
      sampleDiffLocationsSwapped (some sampleSources) sampleConfig
      sample_locations_reordered).1.2 _ _ rfl rfl,
    (findings_multiset_independent_of_traversal_order sampleExternals sampleDiff
      sampleDiffLocationsSwapped (some sampleSources) sampleConfig
      sample_locations_reordered).2.2 _ _ rfl rfl⟩

/-! ## The text of the min-items finding -/

theorem goSprintf_minItemsSetFormat_uint64 (location name : String) (n : Nat) :
    goSprintf minItemsSetFormat [Value.str location, Value.str name, Value.uint64 n] =
      "for the " ++ location ++ " request parameter " ++ name ++
        ", the minItems was set to '%!s(uint64=" ++ toString n ++ ")'" := by
  apply String.ext
  simp [goSprintf, minItemsSetFormat, goSprintfScan, formatVerb, extraOperands,
    String.data_append, Char.toString, String.singleton]

theorem goSprintf_minItemsSetFormat_str (location name value : String) :
    goSprintf minItemsSetFormat [Value.str location, Value.str name, Value.str value] =
      "for the " ++ location ++ " request parameter " ++ name ++
        ", the minItems was set to '" ++ value ++ "'" := by
  apply String.ext
  simp [goSprintf, minItemsSetFormat, goSprintfScan, formatVerb, extraOperands,
    String.data_append, Char.toString, String.singleton]

/-- C19 at the sample diff tree, with `fmt.Sprintf` as the Go library has it: the new
`minItems` of the query parameter `ids` is the number 2, and the finding of
`RequestParameterMinItemsSetCheck` does not write it as the decimal number `2` but, the verb
being `%s`, as `%!s(uint64=2)`. Comment and ToDo are the fixed strings of the rule. -/
theorem minItemsSetCheck_text_of_numeric_value :
    minItemsSetTo { SchemaDiff := some minItemsSetSchema } = some (Value.uint64 2) ∧
      (RequestParameterMinItemsSetCheck goExternals sampleDiff (some sampleSources)
        sampleConfig).map (List.map fun f => f.Text) =
        some ["for the 'query' request parameter 'ids', the minItems was set to '%!s(uint64=2)'"] ∧
      (RequestParameterMinItemsSetCheck goExternals sampleDiff (some sampleSources)
        sampleConfig).map (List.map fun f => f.Text) ≠
        some ["for the 'query' request parameter 'ids', the minItems was set to '2'"] ∧
      (RequestParameterMinItemsSetCheck goExternals sampleDiff (some sampleSources)
        sampleConfig).map (List.map fun f => (f.Comment, f.ToDo)) =
        some [(minItemsSetComment, "Add to exceptions-list.md")] := by
  refine ⟨rfl, by decide, by decide, rfl⟩

/-! ## The required-property policy -/

theorem mem_requiredDiff_added (base revision : List String) (name : String) :
    name ∈ (getRequiredDiff base revision).Added ↔ name ∈ revision ∧ name ∉ base := by
  simp [getRequiredDiff]

theorem mem_requiredDiff_deleted (base revision : List String) (name : String) :
    name ∈ (getRequiredDiff base revision).Deleted ↔ name ∈ base ∧ name ∉ revision := by
  simp [getRequiredDiff]

theorem lookup_append_new {V : Type} (l : List (String × V)) (name : String) (v : V)
    (hnew : name ∉ l.map Prod.fst) : (l ++ [(name, v)]).lookup name = some v := by
  induction l with
  | nil => simp [List.lookup]
  | cons e rest ih =>
    simp only [List.map_cons, List.mem_cons, not_or] at hnew
    have hne : (name == e.1) = false := by simpa using hnew.1
    simp only [List.cons_append, List.lookup, hne]
    exact ih hnew.2

theorem changedSubschemas_self (l : List ObjectNode) : changedSubschemas l l = [] := by
  induction l with
  | nil => rfl
  | cons s rest ih => simp [changedSubschemas, ih]

theorem changedSubschemas_append (common side other : List ObjectNode) :
    changedSubschemas (common ++ side) (common ++ other) = changedSubschemas side other := by
  induction common with
  | nil => rfl
  | cons s rest ih => simp [changedSubschemas, ih]

theorem changedSubschemas_cons (s o : ObjectNode) (side other : List ObjectNode) (hne : s ≠ o) :
    changedSubschemas (s :: side) (o :: other) = s :: changedSubschemas side other := by
  simp [changedSubschemas, hne]

theorem getCompositionDiff_self (l : List ObjectNode) : getCompositionDiff l l = none := by
  unfold getCompositionDiff
  rw [changedSubschemas_self]

theorem compositionFindings_self (side : SchemaSide)
    (objectFindings : ObjectNode → ObjectNode → List PolicyFinding) (l : List ObjectNode) :
    compositionFindings side objectFindings l l = [] := by
  simp [compositionFindings, getCompositionDiff_self]

theorem requestObjectFindings_eq_nil_iff (base revision : ObjectNode) :
    requestObjectFindings base revision = [] ↔
      ∀ name ∈ revision.required, name ∉ base.required →
        isReadOnly revision.properties name = true := by
  simp [requestObjectFindings, List.filter_eq_nil_iff, mem_requiredDiff_added]

theorem responseObjectFindings_eq_nil_iff (base revision : ObjectNode) :
    responseObjectFindings base revision = [] ↔
      ∀ name ∈ base.required, name ∉ revision.required →
        isWriteOnly base.properties name = true := by
  simp [responseObjectFindings, List.filter_eq_nil_iff, mem_requiredDiff_deleted]

theorem requestObjectFindings_level (base revision : ObjectNode) :
    ∀ f ∈ requestObjectFindings base revision, f.Level = Level.ERR := by
  intro f hf
  simp only [requestObjectFindings, List.mem_map] at hf
  obtain ⟨name, _, hname⟩ := hf
  rw [← hname]

theorem requestSchemaFindings_gained (base : SchemaNode) (object : ObjectNode) (name : String)
    (hin : name ∈ object.required) (hnew : name ∉ base.object.required)
    (hread : isReadOnly object.properties name = false) :
    ∃ f ∈ requestSchemaFindings base { object := object, allOf := base.allOf },
      f.Level = Level.ERR := by
  refine ⟨{ Level := Level.ERR, side := SchemaSide.request, property := some name }, ?_, rfl⟩
  simp only [requestSchemaFindings, List.mem_append]
  left
  simp only [requestObjectFindings, List.mem_map, List.mem_filter, mem_requiredDiff_added]
  exact ⟨name, ⟨⟨hin, hnew⟩, by simp [hread]⟩, rfl⟩

theorem responseSchemaFindings_lost (base : SchemaNode) (object : ObjectNode) (name : String)
    (hin : name ∈ object.required) (hnew : name ∉ base.object.required)
    (hwrite : isWriteOnly object.properties name = false) :
    responseSchemaFindings { object := object, allOf := base.allOf } base ≠ [] := by
  intro hnil
  have hmem : ({ Level := Level.ERR, side := SchemaSide.response, property := some name } :
      PolicyFinding) ∈ responseSchemaFindings { object := object, allOf := base.allOf }
        base := by
    simp only [responseSchemaFindings, List.mem_append]
    left
    simp only [responseObjectFindings, List.mem_map, List.mem_filter,
      mem_requiredDiff_deleted]
    exact ⟨name, ⟨⟨hin, hnew⟩, by simp [hwrite]⟩, rfl⟩
  rw [hnil] at hmem
  exact List.not_mem_nil _ hmem

/-- C12: in the required-property policy of the spec, a revision that adds a required
property that is not read-only to a request schema, or that makes an existing request property
that is not read-only required, yields at least one ERROR finding, and the reverse change (the
required property removed, or made optional) yields no finding. -/
theorem required_request_property_is_breaking (base : SchemaNode) (name : String)
    (property : PropertyNode) (hnew : name ∉ base.object.required) :
    (property.readOnly = false → name ∉ base.object.properties.map Prod.fst →
      (∃ f ∈ requestSchemaFindings base (base.addRequiredProperty name property),
        f.Level = Level.ERR) ∧
      requestSchemaFindings (base.addRequiredProperty name property) base = []) ∧
    (isReadOnly base.object.properties name = false →
      (∃ f ∈ requestSchemaFindings base (base.makeRequired name), f.Level = Level.ERR) ∧
      requestSchemaFindings (base.makeRequired name) base = []) := by
  have hreverse : ∀ object : ObjectNode, object.required = base.object.required ++ [name] →
      requestSchemaFindings { object := object, allOf := base.allOf } base = [] := by
    intro object hrequired
    simp only [requestSchemaFindings, compositionFindings_self, List.append_nil,
      requestObjectFindings_eq_nil_iff, hrequired]
    intro other hother hnot
    exact absurd (List.mem_append_left _ hother) hnot
  constructor
  · intro hread hfresh
    refine ⟨requestSchemaFindings_gained base _ name ?_ hnew ?_, hreverse _ rfl⟩
    · simp [ObjectNode.addRequiredProperty]
    · simp [isReadOnly, ObjectNode.addRequiredProperty, lookup_append_new _ _ _ hfresh, hread]
  · intro hread
    refine ⟨requestSchemaFindings_gained base _ name ?_ hnew ?_, hreverse _ rfl⟩
    · simp [ObjectNode.makeRequired]
    · simpa [ObjectNode.makeRequired] using hread

/-- Witness of C12: the sample schema gains the required property `courseId`, and its
property `note` becomes required. -/
theorem required_request_property_is_breaking_witness :
    ("courseId" ∉ sampleSchema.object.required ∧
      (∃ f ∈ requestSchemaFindings sampleSchema
          (sampleSchema.addRequiredProperty "courseId" { readOnly := false, writeOnly := false }),
        f.Level = Level.ERR) ∧
      requestSchemaFindings
        (sampleSchema.addRequiredProperty "courseId" { readOnly := false, writeOnly := false })
        sampleSchema = []) ∧
    ("note" ∉ sampleSchema.object.required ∧
      (∃ f ∈ requestSchemaFindings sampleSchema (sampleSchema.makeRequired "note"),
        f.Level = Level.ERR) ∧
      requestSchemaFindings (sampleSchema.makeRequired "note") sampleSchema = []) :=
  ⟨⟨by decide,
      (required_request_property_is_breaking sampleSchema "courseId"
        { readOnly := false, writeOnly := false } (by decide)).1 rfl (by decide)⟩,
    ⟨by decide,
      (required_request_property_is_breaking sampleSchema "note"
        { readOnly := false, writeOnly := false } (by decide)).2 (by decide)⟩⟩

/-- C13: in the required-property policy of the spec, a response property that was required
and becomes optional, or is deleted, and is not write-only, yields at least one finding; a
response property that becomes required, or a new required property added to the response,
yields none. Here `schema` is the response schema without the requirement: it is the revision
in the first two cases and the base in the last two. -/
theorem response_required_property_lost_is_breaking (schema : SchemaNode) (name : String)
    (property : PropertyNode) (hnew : name ∉ schema.object.required) :
    (isWriteOnly schema.object.properties name = false →
      responseSchemaFindings (schema.makeRequired name) schema ≠ []) ∧
    (property.writeOnly = false → name ∉ schema.object.properties.map Prod.fst →
      responseSchemaFindings (schema.addRequiredProperty name property) schema ≠ []) ∧
    responseSchemaFindings schema (schema.makeRequired name) = [] ∧
    responseSchemaFindings schema (schema.addRequiredProperty name property) = [] := by
  have hgained : ∀ object : ObjectNode, object.required = schema.object.required ++ [name] →
      responseSchemaFindings schema { object := object, allOf := schema.allOf } = [] := by
    intro object hrequired
    simp only [responseSchemaFindings, compositionFindings_self, List.append_nil,
      responseObjectFindings_eq_nil_iff, hrequired]
    intro other hother hnot
    exact absurd (List.mem_append_left _ hother) hnot
  refine ⟨?_, ?_, hgained _ rfl, hgained _ rfl⟩
  · intro hwrite
    refine responseSchemaFindings_lost schema _ name ?_ hnew ?_
    · simp [ObjectNode.makeRequired]
    · simpa [ObjectNode.makeRequired] using hwrite
  · intro hwrite hfresh
    refine responseSchemaFindings_lost schema _ name ?_ hnew ?_
    · simp [ObjectNode.addRequiredProperty]
    · simp [isWriteOnly, ObjectNode.addRequiredProperty, lookup_append_new _ _ _ hfresh,
        hwrite]

/-- Witness of C13: the required property `note` of a response becomes optional, and the
required property `courseId` is deleted. -/
theorem response_required_property_lost_is_breaking_witness :
    "note" ∉ sampleSchema.object.required ∧ "courseId" ∉ sampleSchema.object.required ∧
      responseSchemaFindings (sampleSchema.makeRequired "note") sampleSchema ≠ [] ∧
      responseSchemaFindings
        (sampleSchema.addRequiredProperty "courseId" { readOnly := false, writeOnly := false })
        sampleSchema ≠ [] ∧
      responseSchemaFindings sampleSchema (sampleSchema.makeRequired "note") = [] :=
  ⟨by decide, by decide,
    (response_required_property_lost_is_breaking sampleSchema "note"
      { readOnly := false, writeOnly := false } (by decide)).1 (by decide),
    (response_required_property_lost_is_breaking sampleSchema "courseId"
      { readOnly := false, writeOnly := false } (by decide)).2.1 rfl (by decide),
    (response_required_property_lost_is_breaking sampleSchema "note"
      { readOnly := false, writeOnly := false } (by decide)).2.2.1⟩

/-- C14: in the required-property policy of the spec, read-only and write-only properties are
exempt. Adding a required read-only property to a request schema, or making an existing
read-only request property required, yields no finding; deleting a required write-only
property from a response schema, or making it optional, yields no finding. Here `schema` is
the schema without the requirement: the base on the request side, the revision on the
response side. -/
theorem read_only_and_write_only_properties_are_exempt (schema : SchemaNode) (name : String)
    (property : PropertyNode) :
    (property.readOnly = true → name ∉ schema.object.properties.map Prod.fst →
      requestSchemaFindings schema (schema.addRequiredProperty name property) = []) ∧
    (isReadOnly schema.object.properties name = true →
      requestSchemaFindings schema (schema.makeRequired name) = []) ∧
    (property.writeOnly = true → name ∉ schema.object.properties.map Prod.fst →
      responseSchemaFindings (schema.addRequiredProperty name property) schema = []) ∧
    (isWriteOnly schema.object.properties name = true →
      responseSchemaFindings (schema.makeRequired name) schema = []) := by
  have hrequest : ∀ object : ObjectNode, object.required = schema.object.required ++ [name] →
      isReadOnly object.properties name = true →
      requestSchemaFindings schema { object := object, allOf := schema.allOf } = [] := by
    intro object hrequired hread
    simp only [requestSchemaFindings, compositionFindings_self, List.append_nil,
      requestObjectFindings_eq_nil_iff, hrequired]
    intro other hother hnot
    rcases List.mem_append.1 hother with hbase | hname
    · exact absurd hbase hnot
    · rw [List.mem_singleton.1 hname]
      exact hread
  have hresponse : ∀ object : ObjectNode, object.required = schema.object.required ++ [name] →
      isWriteOnly object.properties name = true →
      responseSchemaFindings { object := object, allOf := schema.allOf } schema = [] := by
    intro object hrequired hwrite
    simp only [responseSchemaFindings, compositionFindings_self, List.append_nil,
      responseObjectFindings_eq_nil_iff, hrequired]
    intro other hother hnot
    rcases List.mem_append.1 hother with hbase | hname
    · exact absurd hbase hnot
    · rw [List.mem_singleton.1 hname]
      exact hwrite
  refine ⟨?_, ?_, ?_, ?_⟩
  · intro hread hfresh
    exact hrequest _ rfl (by
      simp [isReadOnly, ObjectNode.addRequiredProperty, lookup_append_new _ _ _ hfresh, hread])
  · intro hread
    exact hrequest _ rfl (by simpa [ObjectNode.makeRequired] using hread)
  · intro hwrite hfresh
    exact hresponse _ rfl (by
      simp [isWriteOnly, ObjectNode.addRequiredProperty, lookup_append_new _ _ _ hfresh,
        hwrite])
  · intro hwrite
    exact hresponse _ rfl (by simpa [ObjectNode.makeRequired] using hwrite)

/-- Witness of C14: the read-only property `etag` and the write-only property `secret` of the
sample schema, and new properties with the same flags. -/
theorem read_only_and_write_only_properties_are_exempt_witness :
    requestSchemaFindings sampleSchema
        (sampleSchema.addRequiredProperty "createdAt" { readOnly := true, writeOnly := false })
        = [] ∧
      requestSchemaFindings sampleSchema (sampleSchema.makeRequired "etag") = [] ∧
      responseSchemaFindings
        (sampleSchema.addRequiredProperty "password" { readOnly := false, writeOnly := true })
        sampleSchema = [] ∧
      responseSchemaFindings (sampleSchema.makeRequired "secret") sampleSchema = [] :=
  ⟨(read_only_and_write_only_properties_are_exempt sampleSchema "createdAt"
      { readOnly := true, writeOnly := false }).1 rfl (by decide),
    (read_only_and_write_only_properties_are_exempt sampleSchema "etag"
      { readOnly := true, writeOnly := false }).2.1 (by decide),
    (read_only_and_write_only_properties_are_exempt sampleSchema "password"
      { readOnly := false, writeOnly := true }).2.2.1 rfl (by decide),
    (read_only_and_write_only_properties_are_exempt sampleSchema "secret"
      { readOnly := false, writeOnly := true }).2.2.2 (by decide)⟩

theorem addRequiredProperty_ne (o : ObjectNode) (name : String) (property : PropertyNode) :
    o ≠ o.addRequiredProperty name property := by
  intro h
  have hlen := congrArg (fun x => x.required.length) h
  simp [ObjectNode.addRequiredProperty] at hlen

theorem responseObjectFindings_addRequiredProperty (o : ObjectNode) (name : String)
    (property : PropertyNode) :
    responseObjectFindings o (o.addRequiredProperty name property) = [] := by
  rw [responseObjectFindings_eq_nil_iff]
  intro other hother hnot
  exact absurd (by simp [ObjectNode.addRequiredProperty, hother]) hnot

theorem getCompositionDiff_two_changed (before between after : List ObjectNode)
    (a a₁ b b₁ : ObjectNode) (ha : a ≠ a₁) (hb : b ≠ b₁) :
    getCompositionDiff (before ++ a :: (between ++ b :: after))
        (before ++ a₁ :: (between ++ b₁ :: after)) =
      some CompositionDiff.uninterpretable := by
  have hbase : changedSubschemas (before ++ a :: (between ++ b :: after))
      (before ++ a₁ :: (between ++ b₁ :: after)) = [a, b] := by
    rw [changedSubschemas_append, changedSubschemas_cons _ _ _ _ ha, changedSubschemas_append,
      changedSubschemas_cons _ _ _ _ hb, changedSubschemas_self]
  unfold getCompositionDiff
  rw [hbase]

theorem getCompositionDiff_one_changed (before after : List ObjectNode) (a a₁ : ObjectNode)
    (ha : a ≠ a₁) :
    getCompositionDiff (before ++ a :: after) (before ++ a₁ :: after) =
      some (CompositionDiff.modified a a₁) := by
  have hbase : changedSubschemas (before ++ a :: after) (before ++ a₁ :: after) = [a] := by
    rw [changedSubschemas_append, changedSubschemas_cons _ _ _ _ ha, changedSubschemas_self]
  have hrevision : changedSubschemas (before ++ a₁ :: after) (before ++ a :: after) = [a₁] := by
    rw [changedSubschemas_append, changedSubschemas_cons _ _ _ _ (Ne.symm ha),
      changedSubschemas_self]
  unfold getCompositionDiff
  rw [hbase, hrevision]

/-- C15: in the policy of the spec, when two anonymous subschemas under `allOf` of a response
schema both change between base and revision, whatever their positions in the list and
whatever the other subschemas, the composition diff cannot be interpreted and at least one
finding is reported, also when each of the two only gains a required property; whereas the
same addition to a single `allOf` subschema, the other subschemas unchanged, yields no
finding. -/
theorem ambiguous_allOf_change_is_breaking (object : ObjectNode)
    (before between after : List ObjectNode) (a b : ObjectNode) (n m : String)
    (p q : PropertyNode) :
    (∀ a₁ b₁ : ObjectNode, a ≠ a₁ → b ≠ b₁ →
      responseSchemaFindings { object := object, allOf := before ++ a :: (between ++ b :: after) }
        { object := object, allOf := before ++ a₁ :: (between ++ b₁ :: after) } ≠ []) ∧
      responseSchemaFindings { object := object, allOf := before ++ a :: (between ++ b :: after) }
        { object := object,
          allOf := before ++ a.addRequiredProperty n p ::
            (between ++ b.addRequiredProperty m q :: after) } ≠ [] ∧
      responseSchemaFindings { object := object, allOf := before ++ a :: after }
        { object := object, allOf := before ++ a.addRequiredProperty n p :: after } = [] := by
  have hself : responseObjectFindings object object = [] := by
    rw [responseObjectFindings_eq_nil_iff]
    intro other hother hnot
    exact absurd hother hnot
  have htwo : ∀ a₁ b₁ : ObjectNode, a ≠ a₁ → b ≠ b₁ →
      responseSchemaFindings { object := object, allOf := before ++ a :: (between ++ b :: after) }
        { object := object, allOf := before ++ a₁ :: (between ++ b₁ :: after) } ≠ [] := by
    intro a₁ b₁ ha hb
    simp [responseSchemaFindings, compositionFindings,
      getCompositionDiff_two_changed before between after a a₁ b b₁ ha hb]
  refine ⟨htwo, htwo _ _ (addRequiredProperty_ne a n p) (addRequiredProperty_ne b m q), ?_⟩
  simp [responseSchemaFindings, compositionFindings,
    getCompositionDiff_one_changed before after a _ (addRequiredProperty_ne a n p), hself,
    responseObjectFindings_addRequiredProperty]

/-- Witness of C15: the two sample subschemas gain the required properties `email` and
`phone`; one of them alone does; two subschemas of which the second is the first with
`email`; and the two sample subschemas changed in another way. -/
theorem ambiguous_allOf_change_is_breaking_witness :
    responseSchemaFindings
        { object := sampleSchema.object, allOf := [sampleSubschemaId, sampleSubschemaName] }
        { object := sampleSchema.object,
          allOf := [sampleSubschemaId.addRequiredProperty "email"
                      { readOnly := false, writeOnly := false },
                    sampleSubschemaName.addRequiredProperty "phone"
                      { readOnly := false, writeOnly := false }] } ≠ [] ∧
      responseSchemaFindings
        { object := sampleSchema.object, allOf := [sampleSubschemaId, sampleSubschemaName] }
        { object := sampleSchema.object,
          allOf := [sampleSubschemaId.addRequiredProperty "email"
                      { readOnly := false, writeOnly := false },
                    sampleSubschemaName] } = [] ∧
      responseSchemaFindings
        { object := sampleSchema.object,
          allOf := [sampleSubschemaId,
                    sampleSubschemaId.addRequiredProperty "email"
                      { readOnly := false, writeOnly := false }] }
        { object := sampleSchema.object,
          allOf := [sampleSubschemaId.addRequiredProperty "email"
                      { readOnly := false, writeOnly := false },
                    (sampleSubschemaId.addRequiredProperty "email"
                      { readOnly := false, writeOnly := false }).addRequiredProperty "phone"
                      { readOnly := false, writeOnly := false }] } ≠ [] ∧
      sampleSubschemaId ≠ sampleSubschemaId.makeRequired "email" ∧
      sampleSubschemaName ≠ sampleSubschemaName.makeRequired "name" ∧
      responseSchemaFindings
        { object := sampleSchema.object, allOf := [sampleSubschemaId, sampleSubschemaName] }
        { object := sampleSchema.object,
          allOf := [sampleSubschemaId.makeRequired "email",
                    sampleSubschemaName.makeRequired "name"] } ≠ [] :=
  ⟨(ambiguous_allOf_change_is_breaking sampleSchema.object [] [] [] sampleSubschemaId
      sampleSubschemaName "email" "phone" { readOnly := false, writeOnly := false }
      { readOnly := false, writeOnly := false }).2.1,
    (ambiguous_allOf_change_is_breaking sampleSchema.object [] [] [sampleSubschemaName]
      sampleSubschemaId sampleSubschemaName "email" "phone"
      { readOnly := false, writeOnly := false } { readOnly := false, writeOnly := false }).2.2,
    (ambiguous_allOf_change_is_breaking sampleSchema.object [] [] [] sampleSubschemaId
      (sampleSubschemaId.addRequiredProperty "email" { readOnly := false, writeOnly := false })
      "email" "phone" { readOnly := false, writeOnly := false }
      { readOnly := false, writeOnly := false }).2.1,
    by decide, by decide,
    (ambiguous_allOf_change_is_breaking sampleSchema.object [] [] [] sampleSubschemaId
      sampleSubschemaName "email" "phone" { readOnly := false, writeOnly := false }
      { readOnly := false, writeOnly := false }).1 _ _ (by decide) (by decide)⟩

/-! ## The deprecation and sunset policy -/

theorem lookup_of_mem {V : Type} (l : List (String × V)) (e : String × V)
    (hnodup : (l.map Prod.fst).Nodup) (he : e ∈ l) : l.lookup e.1 = some e.2 := by
  induction l with
  | nil => simp at he
  | cons x rest ih =>
    simp only [List.map_cons, List.nodup_cons, List.mem_map, not_exists, not_and] at hnodup
    rcases List.mem_cons.1 he with rfl | hrest
    · simp [List.lookup]
    · have hne : (e.1 == x.1) = false := by
        have hkey := hnodup.1 e hrest
        simpa using hkey
      simp only [List.lookup, hne]
      exact ih hnodup.2 hrest

theorem lookup_map_values {V : Type} (l : List (String × V)) (f : String × V → String × V)
    (hf : ∀ e, (f e).1 = e.1) (k : String) :
    (l.map f).lookup k = (l.lookup k).map fun v => (f (k, v)).2 := by
  induction l with
  | nil => simp [List.lookup]
  | cons x rest ih =>
    simp only [List.map_cons, List.lookup, hf x]
    by_cases hk : k = x.1
    · subst hk
      simp
    · have hne : (k == x.1) = false := by simpa using hk
      simp only [hne]
      exact ih

theorem lookup_filter_key {V : Type} (l : List (String × V)) (k₀ k : String) :
    (l.filter fun e => e.1 != k₀).lookup k = if k = k₀ then none else l.lookup k := by
  induction l with
  | nil => simp [List.lookup]
  | cons x rest ih =>
    by_cases hx : x.1 = k₀
    · have hfilter : (x.1 != k₀) = false := by simp [hx]
      simp only [List.filter_cons, hfilter, Bool.false_eq_true, if_false, ih]
      by_cases hk : k = k₀
      · simp [hk]
      · have hne : (k == x.1) = false := by simpa [hx] using hk
        simp [hk, List.lookup, hne]
    · have hfilter : (x.1 != k₀) = true := by simpa using hx
      simp only [List.filter_cons, hfilter, if_true, List.lookup, ih]
      by_cases hkx : k = x.1
      · subst hkx
        simp [hx]
      · have hne : (k == x.1) = false := by simpa using hkx
        simp [hne]

theorem operationBreakingChanges_unchanged (deprecationDays today : Int) (path : String)
    (operations : SpecOperations) (hnodup : (operations.map Prod.fst).Nodup) :
    operations.flatMap (operationBreakingChanges deprecationDays today path operations) =
      [] := by
  rw [List.flatMap_eq_nil_iff]
  intro o ho
  unfold operationBreakingChanges
  rw [lookup_of_mem operations o hnodup ho]
  by_cases hstate : o.2 = DeprecationState.notDeprecated
  · simp [hstate, deprecationIsBreaking]
  · simp [hstate]

theorem pathBreakingChanges_unchanged (deprecationDays today : Int) (revision : SpecPaths)
    (p : String × SpecOperations) (hnodup : (p.2.map Prod.fst).Nodup)
    (hlookup : revision.lookup p.1 = some p.2) :
    pathBreakingChanges deprecationDays today revision p = [] := by
  unfold pathBreakingChanges
  rw [hlookup]
  exact operationBreakingChanges_unchanged deprecationDays today p.1 p.2 hnodup

theorem eq_of_mem_of_key {V : Type} (l : List (String × V)) (e₁ e₂ : String × V)
    (hnodup : (l.map Prod.fst).Nodup) (h₁ : e₁ ∈ l) (h₂ : e₂ ∈ l) (hkey : e₁.1 = e₂.1) :
    e₁ = e₂ := by
  have hl₁ := lookup_of_mem l e₁ hnodup h₁
  have hl₂ := lookup_of_mem l e₂ hnodup h₂
  rw [hkey, hl₂] at hl₁
  exact Prod.ext hkey (Option.some.inj hl₁).symm

theorem sunsetPassed_iff (today : Int) (state : DeprecationState) :
    sunsetPassed today state = true ↔
      ∃ sunset, state = DeprecationState.deprecatedWithSunset sunset ∧ sunset < today := by
  cases state <;> simp [sunsetPassed]

theorem setDeprecation_lookup (path method : String) (state : DeprecationState)
    (document : SpecPaths) (hunique : uniqueKeys document) (p : String × SpecOperations)
    (hp : p ∈ document) :
    (setDeprecation path method state document).lookup p.1 =
      some (if p.1 = path then p.2.map fun o => if o.1 = method then (o.1, state) else o
        else p.2) := by
  unfold setDeprecation
  rw [lookup_map_values _ _ (fun e => by by_cases h : e.1 = path <;> simp [h]),
    lookup_of_mem document p hunique.1 hp]
  by_cases h : p.1 = path <;> simp [h]

theorem setDeprecation_operation_lookup (method : String) (state : DeprecationState)
    (operations : SpecOperations) (hnodup : (operations.map Prod.fst).Nodup)
    (o : String × DeprecationState) (ho : o ∈ operations) :
    (operations.map fun o => if o.1 = method then (o.1, state) else o).lookup o.1 =
      some (if o.1 = method then state else o.2) := by
  rw [lookup_map_values _ _ (fun e => by by_cases h : e.1 = method <;> simp [h]),
    lookup_of_mem operations o hnodup ho]
  by_cases h : o.1 = method <;> simp [h]

theorem setDeprecation_breakingDiff (deprecationDays today : Int) (document : SpecPaths)
    (path method : String) (operations : SpecOperations) (state : DeprecationState)
    (hunique : uniqueKeys document) (hpath : (path, operations) ∈ document)
    (hmethod : (method, DeprecationState.notDeprecated) ∈ operations) :
    breakingDiff deprecationDays today document
        (setDeprecation path method state document) ≠ [] ↔
      deprecationIsBreaking deprecationDays today state = true := by
  unfold breakingDiff
  rw [Ne, List.flatMap_eq_nil_iff]
  constructor
  · intro hsome
    by_contra hnot
    apply hsome
    intro p hp
    unfold pathBreakingChanges
    rw [setDeprecation_lookup path method state document hunique p hp]
    by_cases hkey : p.1 = path
    · simp only [hkey, if_true, List.flatMap_eq_nil_iff]
      intro o ho
      unfold operationBreakingChanges
      rw [setDeprecation_operation_lookup method state p.2 (hunique.2 p hp) o ho]
      by_cases hm : o.1 = method
      · simp [hm, hnot]
      · by_cases hstate : o.2 = DeprecationState.notDeprecated
        · simp [hm, hstate, deprecationIsBreaking]
        · simp [hm, hstate]
    · simp only [hkey, if_false]
      exact operationBreakingChanges_unchanged deprecationDays today p.1 p.2
        (hunique.2 p hp)
  · intro hbreaking hall
    have hnil := hall (path, operations) hpath
    unfold pathBreakingChanges at hnil
    rw [setDeprecation_lookup path method state document hunique _ hpath] at hnil
    simp only [if_true, List.flatMap_eq_nil_iff] at hnil
    have hop := hnil (method, DeprecationState.notDeprecated) hmethod
    unfold operationBreakingChanges at hop
    rw [setDeprecation_operation_lookup method state operations
      (hunique.2 _ hpath) _ hmethod] at hop
    simp [hbreaking] at hop

/-- C16: in the deprecation policy of the spec, with `BreakingOnly` set and a notice period
of `n > 0` days, newly deprecating an operation whose sunset date lies `d` days after the
evaluation date yields a non-empty breaking diff exactly when `d < n`; newly deprecating it
with no sunset date yields a non-empty breaking diff exactly when `n > 0`. -/
theorem early_sunset_deprecation_is_breaking (n today d : Int) (document : SpecPaths)
    (path method : String) (operations : SpecOperations)
    (hunique : uniqueKeys document) (hpath : (path, operations) ∈ document)
    (hmethod : (method, DeprecationState.notDeprecated) ∈ operations) :
    (0 < n →
      (breakingDiff n today document
          (setDeprecation path method (DeprecationState.deprecatedWithSunset (today + d))
            document) ≠ [] ↔ d < n)) ∧
    (breakingDiff n today document
        (setDeprecation path method DeprecationState.deprecatedWithoutSunset document) ≠ [] ↔
      0 < n) := by
  constructor
  · intro hn
    rw [setDeprecation_breakingDiff n today document path method operations _ hunique hpath
      hmethod]
    simp [deprecationIsBreaking, hn]
  · rw [setDeprecation_breakingDiff n today document path method operations _ hunique hpath
      hmethod]
    simp [deprecationIsBreaking]

theorem sampleDocument_uniqueKeys : uniqueKeys sampleDocument := by
  constructor
  · decide
  · intro p hp
    simp only [sampleDocument, List.mem_cons, List.mem_singleton, List.not_mem_nil,
      or_false] at hp
    rcases hp with rfl | rfl <;> decide

/-- Witness of C16: `GET /api/test` of the sample document is deprecated on day 100 under a
notice period of 10 days: a sunset 9 days ahead is breaking, a sunset 10 days ahead is not,
and no sunset date is breaking. -/
theorem early_sunset_deprecation_is_breaking_witness :
    breakingDiff 10 100 sampleDocument
        (setDeprecation "/api/test" "GET" (DeprecationState.deprecatedWithSunset (100 + 9))
          sampleDocument) ≠ [] ∧
      ¬ breakingDiff 10 100 sampleDocument
        (setDeprecation "/api/test" "GET" (DeprecationState.deprecatedWithSunset (100 + 10))
          sampleDocument) ≠ [] ∧
      breakingDiff 10 100 sampleDocument
        (setDeprecation "/api/test" "GET" DeprecationState.deprecatedWithoutSunset
          sampleDocument) ≠ [] ∧
      ¬ breakingDiff 0 100 sampleDocument
        (setDeprecation "/api/test" "GET" DeprecationState.deprecatedWithoutSunset
          sampleDocument) ≠ [] :=
  ⟨((early_sunset_deprecation_is_breaking 10 100 9 sampleDocument "/api/test" "GET" _
      sampleDocument_uniqueKeys (List.mem_cons_self _ _) (List.mem_cons_self _ _)).1
      (by decide)).2 (by decide),
    fun h => absurd (((early_sunset_deprecation_is_breaking 10 100 10 sampleDocument
      "/api/test" "GET" _ sampleDocument_uniqueKeys (List.mem_cons_self _ _)
      (List.mem_cons_self _ _)).1 (by decide)).1 h) (by decide),
    (early_sunset_deprecation_is_breaking 10 100 0 sampleDocument "/api/test" "GET" _
      sampleDocument_uniqueKeys (List.mem_cons_self _ _) (List.mem_cons_self _ _)).2.2
      (by decide),
    fun h => absurd ((early_sunset_deprecation_is_breaking 0 100 0 sampleDocument
      "/api/test" "GET" _ sampleDocument_uniqueKeys (List.mem_cons_self _ _)
      (List.mem_cons_self _ _)).2.1 h) (by decide)⟩

theorem deleteOperation_lookup (path method : String) (document : SpecPaths)
    (hunique : uniqueKeys document) (p : String × SpecOperations) (hp : p ∈ document) :
    (deleteOperation path method document).lookup p.1 =
      some (if p.1 = path then p.2.filter fun o => o.1 != method else p.2) := by
  unfold deleteOperation
  rw [lookup_map_values _ _ (fun e => by by_cases h : e.1 = path <;> simp [h]),
    lookup_of_mem document p hunique.1 hp]
  by_cases h : p.1 = path <;> simp [h]

theorem deleteOperation_breakingDiff (deprecationDays today : Int) (document : SpecPaths)
    (path method : String) (operations : SpecOperations) (state : DeprecationState)
    (hunique : uniqueKeys document) (hpath : (path, operations) ∈ document)
    (hmethod : (method, state) ∈ operations) :
    breakingDiff deprecationDays today document (deleteOperation path method document) =
        [] ↔
      sunsetPassed today state = true := by
  unfold breakingDiff
  rw [List.flatMap_eq_nil_iff]
  constructor
  · intro hall
    have hnil := hall (path, operations) hpath
    unfold pathBreakingChanges at hnil
    rw [deleteOperation_lookup path method document hunique _ hpath] at hnil
    simp only [if_true, List.flatMap_eq_nil_iff] at hnil
    have hop := hnil (method, state) hmethod
    unfold operationBreakingChanges at hop
    rw [lookup_filter_key] at hop
    by_contra hnot
    simp [hnot] at hop
  · intro hpassed p hp
    unfold pathBreakingChanges
    rw [deleteOperation_lookup path method document hunique p hp]
    by_cases hkey : p.1 = path
    · have hpeq : p = (path, operations) :=
        eq_of_mem_of_key document p (path, operations) hunique.1 hp hpath hkey
      simp only [hkey, if_true, List.flatMap_eq_nil_iff]
      intro o ho
      unfold operationBreakingChanges
      rw [lookup_filter_key]
      by_cases hm : o.1 = method
      · have hoeq : o = (method, state) := by
          rw [hpeq] at ho
          exact eq_of_mem_of_key operations o (method, state)
            (by simpa using hunique.2 _ hpath) ho hmethod hm
        simp [hm, hoeq, hpassed]
      · simp only [hm, if_false]
        rw [lookup_of_mem p.2 o (hunique.2 p hp) ho]
        by_cases hstate : o.2 = DeprecationState.notDeprecated
        · simp [hstate, deprecationIsBreaking]
        · simp [hstate]
    · simp only [hkey, if_false]
      exact operationBreakingChanges_unchanged deprecationDays today p.1 p.2
        (hunique.2 p hp)

theorem deletePath_breakingDiff (deprecationDays today : Int) (document : SpecPaths)
    (path : String) (operations : SpecOperations)
    (hunique : uniqueKeys document) (hpath : (path, operations) ∈ document) :
    breakingDiff deprecationDays today document (deletePath path document) = [] ↔
      ∀ o ∈ operations, sunsetPassed today o.2 = true := by
  unfold breakingDiff
  rw [List.flatMap_eq_nil_iff]
  constructor
  · intro hall
    have hnil := hall (path, operations) hpath
    unfold pathBreakingChanges deletePath at hnil
    rw [lookup_filter_key] at hnil
    by_contra hnot
    have hfalse : operations.all (fun o => sunsetPassed today o.2) = false := by
      rw [Bool.eq_false_iff, Ne, List.all_eq_true]
      exact hnot
    simp [hfalse] at hnil
  · intro hall p hp
    unfold pathBreakingChanges deletePath
    rw [lookup_filter_key]
    by_cases hkey : p.1 = path
    · have hpeq : p = (path, operations) :=
        eq_of_mem_of_key document p (path, operations) hunique.1 hp hpath hkey
      have htrue : p.2.all (fun o => sunsetPassed today o.2) = true := by
        rw [hpeq, List.all_eq_true]
        exact hall
      simp [hkey, htrue]
    · simp only [hkey, if_false]
      rw [lookup_of_mem document p hunique.1 hp]
      exact operationBreakingChanges_unchanged deprecationDays today p.1 p.2
        (hunique.2 p hp)

/-- C17: in the deprecation policy of the spec, with `BreakingOnly` set, deleting an
operation yields an empty diff if and only if the operation was deprecated with a sunset
date that has passed at evaluation time, and deleting a path yields an empty diff if and
only if that holds for every operation of the path: a deleted operation with a future sunset
date or with no sunset date is breaking, and so is a deleted path in which some operation's
sunset date has not passed. -/
theorem deletion_is_breaking_unless_sunset_passed (n today : Int) (document : SpecPaths)
    (path method : String) (operations : SpecOperations) (state : DeprecationState)
    (hunique : uniqueKeys document) (hpath : (path, operations) ∈ document)
    (hmethod : (method, state) ∈ operations) :
    (breakingDiff n today document (deleteOperation path method document) = [] ↔
      ∃ sunset, state = DeprecationState.deprecatedWithSunset sunset ∧ sunset < today) ∧
    (breakingDiff n today document (deletePath path document) = [] ↔
      ∀ o ∈ operations,
        ∃ sunset, o.2 = DeprecationState.deprecatedWithSunset sunset ∧ sunset < today) := by
  constructor
  · rw [deleteOperation_breakingDiff n today document path method operations state hunique
      hpath hmethod, sunsetPassed_iff]
  · rw [deletePath_breakingDiff n today document path operations hunique hpath]
    constructor
    · intro h o ho
      exact (sunsetPassed_iff today o.2).1 (h o ho)
    · intro h o ho
      exact (sunsetPassed_iff today o.2).2 (h o ho)

/-- Witness of C17 on the sample document, evaluated on day 100: deleting `POST /api/test`
(sunset on day 90) is not breaking, and deleting the path `/api/old`, whose operations have
sunsets on the days 90 and 120, is breaking. -/
theorem deletion_is_breaking_unless_sunset_passed_witness :
    breakingDiff 0 100 sampleDocument (deleteOperation "/api/test" "POST" sampleDocument) =
        [] ∧
      breakingDiff 0 100 sampleDocument (deletePath "/api/old" sampleDocument) ≠ [] :=
  ⟨(deletion_is_breaking_unless_sunset_passed 0 100 sampleDocument "/api/test" "POST" _ _
      sampleDocument_uniqueKeys (List.mem_cons_self _ _)
      (List.mem_cons_of_mem _ (List.mem_cons_self _ _))).1.2 ⟨90, rfl, by decide⟩,
    fun h => absurd
      ((deletion_is_breaking_unless_sunset_passed 0 100 sampleDocument "/api/old" "GET" _ _
        sampleDocument_uniqueKeys (List.mem_cons_of_mem _ (List.mem_cons_self _ _))
        (List.mem_cons_self _ _)).2.1 h ("DELETE", DeprecationState.deprecatedWithSunset 120)
        (List.mem_cons_of_mem _ (List.mem_cons_self _ _)))
      (by simp)⟩

/-! ## The min-items check, the config and the source map -/

theorem forRange_eq_self {A E : Type} (entries : List A)
    (body : A → List E → Option (List E))
    (hb : ∀ a ∈ entries, ∀ r, body a r = some r) (result : List E) :
    forRange entries body result = some result := by
  rw [forRange_eq_some entries body (fun _ => []) (fun a ha r => by simp [hb a ha r]) result]
  simp

theorem mem_modifiedParameters (diffReport : Diff) (p : String × PathDiff)
    (o : String × MethodDiff) (l : String × ParamDiffs) (q : String × ParameterDiff)
    (hp : p ∈ modifiedPaths diffReport) (ho : o ∈ modifiedOperations p.2)
    (hl : l ∈ modifiedLocations o.2) (hq : q ∈ l.2) :
    (⟨p.1, o.1, o.2, l.1, q.1, q.2⟩ : ParamOccurrence) ∈ modifiedParameters diffReport := by
  simp only [modifiedParameters, pathParameters, operationParameters, List.mem_flatMap,
    List.mem_map]
  exact ⟨p, hp, o, ho, l, hl, q, hq, rfl⟩

theorem minItemsSetParam_of_not_set (ext : Externals) (sources : Option OperationsSourcesMap)
    (path operation : String) (operationItem : MethodDiff) (paramLocation : String)
    (entry : String × ParameterDiff) (result : List BackwardCompatibilityError)
    (hnot : minItemsSetTo entry.2 = none) :
    minItemsSetParam ext sources path operation operationItem paramLocation entry result =
      some result := by
  unfold minItemsSetTo at hnot
  unfold minItemsSetParam
  cases hs : entry.2.SchemaDiff with
  | none => simp
  | some schemaDiff =>
    cases hm : schemaDiff.MinItemsDiff with
    | none => simp [hm]
    | some minItemsDiff =>
      cases hf : minItemsDiff.From with
      | some v => simp [hm, hf]
      | none =>
        cases ht : minItemsDiff.To with
        | none => simp [hm, hf, ht]
        | some toValue => simp [hs, hm, hf, ht] at hnot

theorem minItemsSetCheck_of_none_set (ext : Externals) (diffReport : Diff)
    (sources : Option OperationsSourcesMap) (config : BackwardCompatibilityCheckConfig)
    (hnone : ∀ occ ∈ modifiedParameters diffReport, minItemsSetTo occ.paramDiff = none) :
    RequestParameterMinItemsSetCheck ext diffReport sources config = some [] := by
  rw [minItemsSetCheck_eq_forRange]
  apply forRange_eq_self
  intro p hp r
  rw [minItemsSetPath_eq_forRange]
  apply forRange_eq_self
  intro o ho r
  rw [minItemsSetOperation_eq_forRange]
  apply forRange_eq_self
  intro l hl r
  unfold minItemsSetLocation
  apply forRange_eq_self
  intro q hq r
  exact minItemsSetParam_of_not_set ext sources p.1 o.1 o.2 l.1 q r
    (hnone _ (mem_modifiedParameters diffReport p o l q hp ho hl hq))

theorem withoutSource_minItemsSetOf (ext : Externals) (sources₁ sources₂ : OperationsSourcesMap)
    (occ : ParamOccurrence) :
    (minItemsSetOf ext sources₁ occ).map withoutSource =
      (minItemsSetOf ext sources₂ occ).map withoutSource := by
  unfold minItemsSetOf
  cases minItemsSetTo occ.paramDiff <;> simp [withoutSource, minItemsSetError]

/-- C24: the result of `RequestParameterMinItemsSetCheck` does not depend on the config, and
depends on the source map only through the `Source` of the findings: two runs on the same
diff tree with different configs and different source maps both return, and their lists
agree on every field but `Source`; when no modified parameter has its `minItems` set the
check returns the empty list whatever the source map, also when its reference is absent. -/
theorem minItemsSetCheck_reads_sources_for_source_only (ext : Externals) (diffReport : Diff)
    (config₁ config₂ : BackwardCompatibilityCheckConfig)
    (sources₁ sources₂ : OperationsSourcesMap) :
    (∀ sources : Option OperationsSourcesMap,
      RequestParameterMinItemsSetCheck ext diffReport sources config₁ =
        RequestParameterMinItemsSetCheck ext diffReport sources config₂) ∧
    (∃ findings₁ findings₂,
      RequestParameterMinItemsSetCheck ext diffReport (some sources₁) config₁ =
        some findings₁ ∧
      RequestParameterMinItemsSetCheck ext diffReport (some sources₂) config₂ =
        some findings₂ ∧
      findings₁.map withoutSource = findings₂.map withoutSource) ∧
    ((∀ occ ∈ modifiedParameters diffReport, minItemsSetTo occ.paramDiff = none) →
      ∀ sources : Option OperationsSourcesMap,
        RequestParameterMinItemsSetCheck ext diffReport sources config₁ = some []) := by
  refine ⟨fun _ => rfl,
    ⟨_, _, minItemsSetCheck_eq ext diffReport sources₁ config₁,
      minItemsSetCheck_eq ext diffReport sources₂ config₂, ?_⟩,
    fun hnone sources => minItemsSetCheck_of_none_set ext diffReport sources config₁ hnone⟩
  induction modifiedParameters diffReport with
  | nil => simp
  | cons occ rest ih =>
    simp only [List.flatMap_cons, List.map_append, ih,
      withoutSource_minItemsSetOf ext sources₁ sources₂ occ]

/-- Witness of C24: the sample diff tree under two configs and two source maps, and a diff
tree without a qualifying parameter under an absent source map. -/
theorem minItemsSetCheck_reads_sources_for_source_only_witness :
    ((RequestParameterMinItemsSetCheck sampleExternals sampleDiff (some sampleSources)
        sampleConfig).getD []).map withoutSource =
      ((RequestParameterMinItemsSetCheck sampleExternals sampleDiff (some otherSampleSources)
        otherSampleConfig).getD []).map withoutSource ∧
    (RequestParameterMinItemsSetCheck sampleExternals sampleDiff (some sampleSources)
        sampleConfig).map (List.map fun f => f.Source) = some ["revision.yaml"] ∧
    (RequestParameterMinItemsSetCheck sampleExternals sampleDiff (some otherSampleSources)
        otherSampleConfig).map (List.map fun f => f.Source) = some ["merged.yaml"] ∧
    RequestParameterMinItemsSetCheck sampleExternals sampleDiffHeaderOnly none sampleConfig =
      some [] := by
  obtain ⟨findings₁, findings₂, h₁, h₂, hsame⟩ :=
    (minItemsSetCheck_reads_sources_for_source_only sampleExternals sampleDiff sampleConfig
      otherSampleConfig sampleSources otherSampleSources).2.1
  refine ⟨?_, by decide, by decide,
    (minItemsSetCheck_reads_sources_for_source_only sampleExternals sampleDiffHeaderOnly
      sampleConfig otherSampleConfig sampleSources otherSampleSources).2.2 (by decide) none⟩
  rw [h₁, h₂]
  exact hsame

/-! ## Only modified elements are reported -/

theorem forRange_congr {A E : Type} (entries : List A)
    (body₁ body₂ : A → List E → Option (List E))
    (hb : ∀ a ∈ entries, ∀ r, body₁ a r = body₂ a r) (result : List E) :
    forRange entries body₁ result = forRange entries body₂ result := by
  induction entries generalizing result with
  | nil => rfl
  | cons a rest ih =>
    unfold forRange
    rw [hb a (List.mem_cons_self a rest) result]
    cases body₂ a result with
    | none => rfl
    | some r => exact ih (fun b hmem r => hb b (List.mem_cons_of_mem a hmem) r) r

theorem forRange_map {A B E : Type} (entries : List A) (f : A → B)
    (body : B → List E → Option (List E)) (result : List E) :
    forRange (entries.map f) body result = forRange entries (fun a => body (f a)) result := by
  induction entries generalizing result with
  | nil => rfl
  | cons a rest ih =>
    simp only [List.map_cons, forRange]
    cases body (f a) result with
    | none => rfl
    | some r => exact ih r

theorem modifiedLocations_modifiedOnlyMethod (operationItem : MethodDiff) :
    modifiedLocations (modifiedOnlyMethod operationItem) = modifiedLocations operationItem := by
  unfold modifiedLocations modifiedOnlyMethod
  cases operationItem.ParametersDiff <;> simp [modifiedOnlyParameters]

theorem modifiedOperations_modifiedOnlyPath (pathItem : PathDiff) :
    modifiedOperations (modifiedOnlyPath pathItem) =
      (modifiedOperations pathItem).map fun o => (o.1, modifiedOnlyMethod o.2) := by
  unfold modifiedOperations modifiedOnlyPath
  cases pathItem.OperationsDiff <;> simp [modifiedOnlyOperations]

theorem modifiedPaths_modifiedOnly (diffReport : Diff) :
    modifiedPaths (modifiedOnly diffReport) =
      (modifiedPaths diffReport).map fun p => (p.1, modifiedOnlyPath p.2) := by
  unfold modifiedPaths modifiedOnly
  cases diffReport.PathsDiff <;> simp

theorem minItemsSetCheck_modifiedOnly (ext : Externals) (diffReport : Diff)
    (sources : Option OperationsSourcesMap) (config : BackwardCompatibilityCheckConfig) :
    RequestParameterMinItemsSetCheck ext (modifiedOnly diffReport) sources config =
      RequestParameterMinItemsSetCheck ext diffReport sources config := by
  rw [minItemsSetCheck_eq_forRange, minItemsSetCheck_eq_forRange, modifiedPaths_modifiedOnly,
    forRange_map]
  apply forRange_congr
  intro p _ r
  rw [minItemsSetPath_eq_forRange, minItemsSetPath_eq_forRange]
  simp only [modifiedOperations_modifiedOnlyPath]
  rw [forRange_map]
  apply forRange_congr
  intro o _ r
  rw [minItemsSetOperation_eq_forRange, minItemsSetOperation_eq_forRange]
  simp only [modifiedLocations_modifiedOnlyMethod]
  apply forRange_congr
  intro l _ r
  unfold minItemsSetLocation
  rw [minItemsSetParam_revision ext sources p.1 o.1 (modifiedOnlyMethod o.2) o.2 l.1 rfl]

theorem becameEnumCheck_modifiedOnly (ext : Externals) (diffReport : Diff)
    (sources : Option OperationsSourcesMap) (config : BackwardCompatibilityCheckConfig) :
    RequestHeaderPropertyBecameEnumCheck ext (modifiedOnly diffReport) sources config =
      RequestHeaderPropertyBecameEnumCheck ext diffReport sources config := by
  rw [becameEnumCheck_eq_forRange, becameEnumCheck_eq_forRange, modifiedPaths_modifiedOnly,
    forRange_map]
  apply forRange_congr
  intro p _ r
  rw [becameEnumPath_eq_forRange, becameEnumPath_eq_forRange]
  simp only [modifiedOperations_modifiedOnlyPath]
  rw [forRange_map]
  apply forRange_congr
  intro o _ r
  cases sources with
  | none => simp [becameEnumOperation]
  | some m =>
    rw [becameEnumOperation_eq_forRange, becameEnumOperation_eq_forRange]
    simp only [modifiedLocations_modifiedOnlyMethod]
    apply forRange_congr
    intro l _ r
    unfold becameEnumLocation
    rw [becameEnumParam_revision ext config p.1 o.1 (modifiedOnlyMethod o.2) o.2 _ rfl]
    rfl

theorem modifiedParameters_keys (diffReport : Diff) (occ : ParamOccurrence)
    (hocc : occ ∈ modifiedParameters diffReport) :
    ∃ pathsDiff, diffReport.PathsDiff = some pathsDiff ∧
      ∃ pathItem, (occ.path, pathItem) ∈ pathsDiff.Modified ∧
        ∃ operationsDiff, pathItem.OperationsDiff = some operationsDiff ∧
          ∃ operationItem, (occ.operation, operationItem) ∈ operationsDiff.Modified := by
  simp only [modifiedParameters, pathParameters, operationParameters, List.mem_flatMap,
    List.mem_map] at hocc
  obtain ⟨p, hp, o, ho, l, _, q, _, hq⟩ := hocc
  unfold modifiedPaths at hp
  unfold modifiedOperations at ho
  cases hpaths : diffReport.PathsDiff with
  | none => simp [hpaths] at hp
  | some pathsDiff =>
    cases hops : p.2.OperationsDiff with
    | none => simp [hops] at ho
    | some operationsDiff =>
      simp only [hpaths] at hp
      simp only [hops] at ho
      refine ⟨pathsDiff, rfl, p.2, ?_, operationsDiff, hops, o.2, ?_⟩
      · rw [← hq]
        exact hp
      · rw [← hq]
        exact ho

/-- C21: both checks report only on elements present on both sides. For every finding of a
returned list, Path is a key of `PathsDiff.Modified` and Operation is a key of the
`OperationsDiff.Modified` of that path; and the outcome of a check does not change when the
`Added` and `Deleted` parts of the diff tree (paths, operations, parameters) do: two diff
trees that differ in those parts only give the same result. -/
theorem only_modified_elements_are_reported (ext : Externals) (diffReport other : Diff)
    (sources : Option OperationsSourcesMap) (config : BackwardCompatibilityCheckConfig) :
    (∀ findings, RequestHeaderPropertyBecameEnumCheck ext diffReport sources config =
        some findings → ∀ f ∈ findings,
      ∃ pathsDiff, diffReport.PathsDiff = some pathsDiff ∧
        ∃ pathItem, (f.Path, pathItem) ∈ pathsDiff.Modified ∧
          ∃ operationsDiff, pathItem.OperationsDiff = some operationsDiff ∧
            ∃ operationItem, (f.Operation, operationItem) ∈ operationsDiff.Modified) ∧
    (∀ findings, RequestParameterMinItemsSetCheck ext diffReport sources config =
        some findings → ∀ f ∈ findings,
      ∃ pathsDiff, diffReport.PathsDiff = some pathsDiff ∧
        ∃ pathItem, (f.Path, pathItem) ∈ pathsDiff.Modified ∧
          ∃ operationsDiff, pathItem.OperationsDiff = some operationsDiff ∧
            ∃ operationItem, (f.Operation, operationItem) ∈ operationsDiff.Modified) ∧
    (modifiedOnly diffReport = modifiedOnly other →
      RequestHeaderPropertyBecameEnumCheck ext diffReport sources config =
          RequestHeaderPropertyBecameEnumCheck ext other sources config ∧
        RequestParameterMinItemsSetCheck ext diffReport sources config =
          RequestParameterMinItemsSetCheck ext other sources config) := by
  refine ⟨?_, ?_, ?_⟩
  · intro findings hfs f hf
    rw [becameEnumCheck_of_some ext diffReport sources config findings hfs,
      List.mem_flatMap] at hf
    obtain ⟨occ, hmem, hocc⟩ := hf
    obtain ⟨_, args, hrec⟩ := mem_becameEnumOf ext _ config occ f hocc
    have hpath : f.Path = occ.path := by rw [hrec]; rfl
    have hoperation : f.Operation = occ.operation := by rw [hrec]; rfl
    rw [hpath, hoperation]
    exact modifiedParameters_keys diffReport occ hmem
  · intro findings hfs f hf
    rw [minItemsSetCheck_of_some ext diffReport sources config findings hfs,
      List.mem_flatMap] at hf
    obtain ⟨occ, hmem, hocc⟩ := hf
    obtain ⟨toValue, _, hrec⟩ := mem_minItemsSetOf ext _ occ f hocc
    have hpath : f.Path = occ.path := by rw [hrec]; rfl
    have hoperation : f.Operation = occ.operation := by rw [hrec]; rfl
    rw [hpath, hoperation]
    exact modifiedParameters_keys diffReport occ hmem
  · intro hsame
    constructor
    · rw [← becameEnumCheck_modifiedOnly ext diffReport sources config,
        ← becameEnumCheck_modifiedOnly ext other sources config, hsame]
    · rw [← minItemsSetCheck_modifiedOnly ext diffReport sources config,
        ← minItemsSetCheck_modifiedOnly ext other sources config, hsame]

/-- Witness of C21: the sample diff tree, and the same tree with added and deleted paths,
operations and parameters. -/
theorem only_modified_elements_are_reported_witness :
    modifiedOnly sampleDiffWithAddedAndDeleted = modifiedOnly sampleDiff ∧
      RequestHeaderPropertyBecameEnumCheck sampleExternals sampleDiffWithAddedAndDeleted
          (some sampleSources) sampleConfig =
        RequestHeaderPropertyBecameEnumCheck sampleExternals sampleDiff (some sampleSources)
          sampleConfig ∧
      RequestParameterMinItemsSetCheck sampleExternals sampleDiffWithAddedAndDeleted
          (some sampleSources) sampleConfig =
        RequestParameterMinItemsSetCheck sampleExternals sampleDiff (some sampleSources)
          sampleConfig ∧
      ∀ f ∈ (RequestParameterMinItemsSetCheck sampleExternals sampleDiffWithAddedAndDeleted
          (some sampleSources) sampleConfig).getD [],
        ∃ pathsDiff, sampleDiffWithAddedAndDeleted.PathsDiff = some pathsDiff ∧
          ∃ pathItem, (f.Path, pathItem) ∈ pathsDiff.Modified ∧
            ∃ operationsDiff, pathItem.OperationsDiff = some operationsDiff ∧
              ∃ operationItem, (f.Operation, operationItem) ∈ operationsDiff.Modified :=
  ⟨rfl,
    ((only_modified_elements_are_reported sampleExternals sampleDiffWithAddedAndDeleted
      sampleDiff (some sampleSources) sampleConfig).2.2 rfl).1,
    ((only_modified_elements_are_reported sampleExternals sampleDiffWithAddedAndDeleted
      sampleDiff (some sampleSources) sampleConfig).2.2 rfl).2,
    (only_modified_elements_are_reported sampleExternals sampleDiffWithAddedAndDeleted
      sampleDiff (some sampleSources) sampleConfig).2.1 _ rfl⟩

/-! ## Parameter-level and property-level findings of one header parameter -/

/-- C22: in the header check a parameter-level finding does not suppress the property-level
findings. For a modified header parameter with a schema diff, of an operation with its
revision, the loop body appends to the result the parameter-level findings and then the
property-level findings: the former are one finding (formatted with the parameter name alone)
if the enum diff of the parameter has `EnumAdded` and none otherwise, the latter are one
finding per property visited by `CheckModifiedPropertiesDiff` whose enum diff has `EnumAdded`
(formatted with the parameter name and the full name of the property), in the order of the
visits. -/
theorem becameEnumParam_counts_parameter_and_properties (ext : Externals)
    (sources : OperationsSourcesMap) (config : BackwardCompatibilityCheckConfig)
    (path operation : String) (operationItem : MethodDiff) (entry : String × ParameterDiff)
    (schemaDiff : SchemaDiff) (result : List BackwardCompatibilityError)
    (hrev : operationItem.Revision.isSome = true)
    (hs : entry.2.SchemaDiff = some schemaDiff) :
    ∃ parameterLevel propertyLevel : List BackwardCompatibilityError,
      becameEnumParam ext config path operation operationItem
          (sourceOf sources operationItem.Revision) entry result =
        some (result ++ (parameterLevel ++ propertyLevel)) ∧
      parameterLevel.length = (if enumAdded schemaDiff.EnumDiff then 1 else 0) ∧
      propertyLevel.length = (ext.CheckModifiedPropertiesDiff schemaDiff).countP
        (fun visit => enumAdded visit.propertyDiff.EnumDiff) ∧
      (∀ f ∈ parameterLevel,
        f.Text = ext.Sprintf (config.i18n requestHeaderPropertyBecameEnumId)
          [Value.str (ext.ColorizedValue entry.1)]) ∧
      propertyLevel.map (fun f => f.Text) =
        ((ext.CheckModifiedPropertiesDiff schemaDiff).filter
          fun visit => enumAdded visit.propertyDiff.EnumDiff).map fun visit =>
            ext.Sprintf (config.i18n requestHeaderPropertyBecameEnumId)
              [Value.str (ext.ColorizedValue entry.1),
               Value.str (ext.ColorizedValue
                 (ext.propertyFullName visit.propertyPath visit.propertyName))] := by
  refine ⟨(if enumAdded schemaDiff.EnumDiff then [[Value.str (ext.ColorizedValue entry.1)]]
        else []).map (becameEnumRecord ext sources config
          ⟨path, operation, operationItem, "header", entry.1, entry.2⟩),
    ((enumAddedProperties ext schemaDiff).map fun visit =>
        [Value.str (ext.ColorizedValue entry.1),
         Value.str (ext.ColorizedValue
           (ext.propertyFullName visit.propertyPath visit.propertyName))]).map
      (becameEnumRecord ext sources config
        ⟨path, operation, operationItem, "header", entry.1, entry.2⟩), ?_, ?_, ?_, ?_, ?_⟩
  · rw [becameEnumParam_eq ext sources config path operation operationItem entry hrev result]
    simp [becameEnumOf, hs, becameEnumArgs, List.map_append]
  · by_cases he : enumAdded schemaDiff.EnumDiff = true <;> simp [he]
  · simp [enumAddedProperties, List.countP_eq_length_filter]
  · intro f hf
    by_cases he : enumAdded schemaDiff.EnumDiff = true
    · simp [he] at hf
      rw [hf]
      rfl
    · simp [he] at hf
  · simp [enumAddedProperties, becameEnumRecord, Function.comp_def]

/-- Witness of C22: the sample header parameter contributes its parameter-level finding and
then the finding of its property `kind`. -/
theorem becameEnumParam_counts_parameter_and_properties_witness :
    sampleOperationItem.Revision.isSome = true ∧
      sampleHeaderParameter.2.SchemaDiff = some enumAddedSchema ∧
      (becameEnumParam sampleExternals sampleConfig "/items" "GET" sampleOperationItem
          (sourceOf sampleSources sampleOperationItem.Revision) sampleHeaderParameter
          []).map List.length = some 2 ∧
      ∃ parameterLevel propertyLevel : List BackwardCompatibilityError,
        becameEnumParam sampleExternals sampleConfig "/items" "GET" sampleOperationItem
            (sourceOf sampleSources sampleOperationItem.Revision) sampleHeaderParameter [] =
          some ([] ++ (parameterLevel ++ propertyLevel)) ∧
        parameterLevel.length = (if enumAdded enumAddedSchema.EnumDiff then 1 else 0) ∧
        propertyLevel.length = (sampleExternals.CheckModifiedPropertiesDiff
          enumAddedSchema).countP (fun visit => enumAdded visit.propertyDiff.EnumDiff) ∧
        (∀ f ∈ parameterLevel,
          f.Text = sampleExternals.Sprintf (sampleConfig.i18n requestHeaderPropertyBecameEnumId)
            [Value.str (sampleExternals.ColorizedValue sampleHeaderParameter.1)]) ∧
        propertyLevel.map (fun f => f.Text) =
          ((sampleExternals.CheckModifiedPropertiesDiff enumAddedSchema).filter
            fun visit => enumAdded visit.propertyDiff.EnumDiff).map fun visit =>
              sampleExternals.Sprintf (sampleConfig.i18n requestHeaderPropertyBecameEnumId)
                [Value.str (sampleExternals.ColorizedValue sampleHeaderParameter.1),
                 Value.str (sampleExternals.ColorizedValue
                   (sampleExternals.propertyFullName visit.propertyPath
                     visit.propertyName))] :=
  ⟨rfl, rfl, rfl,
    becameEnumParam_counts_parameter_and_properties sampleExternals sampleSources sampleConfig
      "/items" "GET" sampleOperationItem sampleHeaderParameter enumAddedSchema [] rfl rfl⟩

/-! ## The texts of the header check -/

set_option maxRecDepth 8192 in
/-- C23 at the sample header parameter, whose own enum diff and whose property `kind` have
`EnumAdded`: the parameter-level and the property-level finding of
`RequestHeaderPropertyBecameEnumCheck` format the same template, whatever the config returns
for it and whatever `fmt.Sprintf` does with it, but the former with one argument (the
parameter) and the latter with two (the parameter and the property). With `fmt.Sprintf` as
the Go library has it and a template of two `%s`, the parameter-level text has `%!s(MISSING)`
for the second one; with a template of one `%s`, the property-level text ends in
`%!(EXTRA string=...)`. -/
theorem becameEnumCheck_texts_differ_in_argument_count :
    (∀ (sprintf : String → List Value → String) (config : BackwardCompatibilityCheckConfig),
      (RequestHeaderPropertyBecameEnumCheck (externalsWith sprintf) sampleDiffHeaderOnly
        (some sampleSources) config).map (List.map fun f => f.Text) =
        some [sprintf (config.i18n requestHeaderPropertyBecameEnumId)
                [Value.str "'X-Kind'"],
              sprintf (config.i18n requestHeaderPropertyBecameEnumId)
                [Value.str "'X-Kind'", Value.str "'kind'"]]) ∧
      (RequestHeaderPropertyBecameEnumCheck goExternals sampleDiffHeaderOnly
        (some sampleSources) parameterAndPropertyConfig).map (List.map fun f => f.Text) =
        some ["the 'X-Kind' request header property %!s(MISSING) was restricted to a list of enum values",
              "the 'X-Kind' request header property 'kind' was restricted to a list of enum values"] ∧
      (RequestHeaderPropertyBecameEnumCheck goExternals sampleDiffHeaderOnly
        (some sampleSources) parameterConfig).map (List.map fun f => f.Text) =
        some ["the 'X-Kind' request header was restricted to a list of enum values",
              "the 'X-Kind' request header was restricted to a list of enum values%!(EXTRA string='kind')"] := by
  refine ⟨fun sprintf config => rfl, by decide, by decide⟩

end Oasdiff
